import Mathlib

/-!
# gosql: the `sqlcodegen` DSL compiler

A shallow embedding of `sqlcodegen/sqlBuilder.go`, `sqlcodegen/codeGenerator.go`,
`sqlcodegen/astutil.go` and, of `sqlcodegen/gen.go`, the statement interpreters
and the declaration extractor (`addTable`, `addEntity`, `getTags`), followed by
theorems about the parameter lists, the rendered SQL text, the extracted tables
and entities, and the emitted accessor functions.

Conventions of the embedding:
* Go strings are `String`; a `bytes.Buffer` or an `io.Writer` is the `String`
  of everything written so far.
* A Go `for i, x := range xs` loop is `forRange`; a loop whose body can
  return an error is `forRangeM`.
* A function returning `error` returns `Except GenError _`; a run-time panic
  of the Go program (index out of range, failed type assertion, nil
  dereference) is the error value `GenError.fault`.
* A `map[string]T` is an association list searched with `List.lookup`.
-/

namespace Sqlcodegen

/-! ## Loops -/

/-- The loop `for i, x := range xs { s = f i x s }`, started at index `i`. -/
def forRangeFrom {α σ : Type} (f : Nat → α → σ → σ) : Nat → List α → σ → σ
  | _, [], s => s
  | i, x :: xs, s => forRangeFrom f (i + 1) xs (f i x s)

/-- The loop `for i, x := range xs { s = f i x s }`. -/
def forRange {α σ : Type} (xs : List α) (f : Nat → α → σ → σ) (s : σ) : σ :=
  forRangeFrom f 0 xs s

/-- The loop `for _, x := range xs { ... }` whose body may return an error. -/
def forRangeM {α σ ε : Type} (f : α → σ → Except ε σ) : List α → σ → Except ε σ
  | [], s => .ok s
  | x :: xs, s =>
    match f x s with
    | .error e => .error e
    | .ok s' => forRangeM f xs s'

/-! ## Errors -/

/-- How a generator function can end without a result: the three error
constructors of `gen.go`, each with the source position of its node (and
`newTypeDefError` with the type name), the anonymous `errors.New("")` of the
expression translator, and a run-time panic of the Go program. -/
inductive GenError where
  | argError (pos : Nat)
  | typeDefError (typeName : String) (pos : Nat)
  | unsupportedError (pos : Nat)
  | plain
  | fault
deriving DecidableEq, Repr

/-! ## Table metadata (`gen.go`) -/

/-- The struct `column` of `gen.go`. -/
structure column where
  name : String
  columnName : String
  tag : String
  sysType : String
  isNull : Bool
  isIdentity : Bool
deriving DecidableEq, Repr

/-- The struct `table` of `gen.go`; `doc` holds the comment lines of
`source.Doc` (empty when there is no doc comment). -/
structure table where
  name : String
  tableName : String
  doc : List String
  columns : List column
deriving DecidableEq, Repr

/-- Method `table.getColumn`: the first column with the given logical name. -/
def table.getColumn (t : table) (name : String) : Option column :=
  t.columns.find? (fun col => col.name == name)

/-! ## SQL expression model (`sqlBuilder.go`) -/

structure SQLParameterExpression where
  name : String
deriving DecidableEq, Repr

structure SQLLiteralExpression where
  value : String
deriving DecidableEq, Repr

structure SQLColumnExpression where
  tableName : String
  columnName : String
  source : column
deriving DecidableEq, Repr

structure SQLOrderExpression where
  column : SQLColumnExpression
  isDescending : Bool
deriving DecidableEq, Repr

/-- The dynamic types stored in the interface `SQLExpression`. -/
inductive SQLExpression where
  | parameter (inst : SQLParameterExpression)
  | binary (left : SQLExpression) (op : String) (right : SQLExpression)
  | literal (inst : SQLLiteralExpression)
  | order (inst : SQLOrderExpression)
  | parenthesis (target : SQLExpression)
  | column (inst : SQLColumnExpression)
deriving DecidableEq, Repr

/-- The struct `SQLSelectStatement`; a nil `where` is `none`. -/
structure SQLSelectStatement where
  selectList : List SQLExpression := []
  table : String := ""
  «where» : Option SQLExpression := none
  orderByList : List SQLOrderExpression := []
  limitRows : Int := 0
deriving DecidableEq, Repr

/-- Method `getFirstColumnExpression`. -/
def SQLSelectStatement.getFirstColumnExpression (stmt : SQLSelectStatement) :
    Option SQLColumnExpression :=
  match stmt.selectList with
  | .column c :: _ => some c
  | _ => none

structure SQLInsertStatement where
  columns : List String := []
  table : String := ""
deriving DecidableEq, Repr

structure SQLUpdateStatement where
  updateList : List SQLExpression := []
  table : String := ""
  «where» : Option SQLExpression := none
deriving DecidableEq, Repr

structure SQLDeleteStatement where
  table : String := ""
  «where» : Option SQLExpression := none
deriving DecidableEq, Repr

/-! ## The default SQL builder -/

/-- The struct `defaultSQLBuilder`: the text written to its buffer. -/
structure defaultSQLBuilder where
  buffer : String := ""
deriving DecidableEq, Repr

def newDefaultSQLBuilder : defaultSQLBuilder := {}

def defaultSQLBuilder.Reset (_builder : defaultSQLBuilder) : defaultSQLBuilder :=
  { buffer := "" }

/-- Method `String` (named `String'` here: inside this namespace the plain
name would hide the type of strings). -/
def defaultSQLBuilder.String' (builder : defaultSQLBuilder) : String :=
  builder.buffer

def defaultSQLBuilder.Write (builder : defaultSQLBuilder) (code : String) :
    defaultSQLBuilder :=
  { buffer := builder.buffer ++ code }

/-- Method `WriteLine`: writes the two characters backslash and `n` (the Go raw
string of the source), the line-break token of the SQL text constant. -/
def defaultSQLBuilder.WriteLine (builder : defaultSQLBuilder) : defaultSQLBuilder :=
  builder.Write "\\n"

/-- The call `strings.Replace(s, "\"", "\\\"", -1)`: every double quote becomes a
backslash followed by a double quote. -/
def escapeQuotes (s : String) : String :=
  ⟨s.data.flatMap (fun c => if c = '"' then ['\\', '"'] else [c])⟩

/-- Method `WriteSQLExpression`. -/
def defaultSQLBuilder.WriteSQLExpression (builder : defaultSQLBuilder) :
    SQLExpression → defaultSQLBuilder
  | .literal inst => builder.Write (escapeQuotes inst.value)
  | .parenthesis target =>
    ((builder.Write "(").WriteSQLExpression target).Write ")"
  | .column inst => builder.Write inst.columnName
  | .parameter _ => builder.Write "?"
  | .binary left op right =>
    let builder := builder.WriteSQLExpression left
    let builder := builder.Write " "
    let builder :=
      if op = "!=" then builder.Write "<>"
      else if op = "&&" then builder.Write "AND"
      else if op = "||" then builder.Write "OR"
      else if op = "==" then builder.Write "="
      else builder.Write op
    let builder := builder.Write " "
    builder.WriteSQLExpression right
  | .order inst =>
    -- `builder.WriteSQLExpression(inst.column)`, the column case
    let builder := builder.Write inst.column.columnName
    if inst.isDescending then builder.Write " DESC" else builder

/-- Method `WriteWhere`. -/
def defaultSQLBuilder.WriteWhere (builder : defaultSQLBuilder) :
    Option SQLExpression → defaultSQLBuilder
  | none => builder
  | some e => ((builder.Write "WHERE ").WriteSQLExpression e).WriteLine

/-- Method `WriteDeleteStatement`. -/
def defaultSQLBuilder.WriteDeleteStatement (builder : defaultSQLBuilder)
    (stmt : SQLDeleteStatement) : defaultSQLBuilder :=
  (((builder.Write "DELETE ").Write stmt.table).WriteLine).WriteWhere stmt.where

/-- The assignment loop body of `WriteUpdateStatement`; the type assertion
`expr.(*SQLBinaryExpression)` panics on any other node. -/
def writeUpdateItem (i : Nat) (expr : SQLExpression) (builder : defaultSQLBuilder) :
    Except GenError defaultSQLBuilder :=
  let builder := if i > 0 then builder.Write "," else builder
  match expr with
  | .binary left _ right =>
    .ok (((builder.WriteSQLExpression left).Write " = ").WriteSQLExpression right)
  | _ => .error .fault

/-- The loop `for i, expr := range stmt.updateList` of `WriteUpdateStatement`,
started at index `i`. -/
def writeUpdateListFrom : Nat → List SQLExpression → defaultSQLBuilder →
    Except GenError defaultSQLBuilder
  | _, [], builder => .ok builder
  | i, expr :: rest, builder =>
    match writeUpdateItem i expr builder with
    | .error e => .error e
    | .ok builder => writeUpdateListFrom (i + 1) rest builder

/-- Method `WriteUpdateStatement`; `fault` is the panic of the type assertion. -/
def defaultSQLBuilder.WriteUpdateStatement (builder : defaultSQLBuilder)
    (stmt : SQLUpdateStatement) : Except GenError defaultSQLBuilder :=
  let builder := builder.Write "UPDATE "
  let builder := builder.Write stmt.table
  let builder := builder.WriteLine
  let builder := builder.Write "SET "
  match writeUpdateListFrom 0 stmt.updateList builder with
  | .error e => .error e
  | .ok builder => .ok (builder.WriteLine.WriteWhere stmt.where)

/-- Method `WriteInsertStatement`. -/
def defaultSQLBuilder.WriteInsertStatement (builder : defaultSQLBuilder)
    (stmt : SQLInsertStatement) : defaultSQLBuilder :=
  let builder := builder.Write "INSERT INTO "
  let builder := builder.Write stmt.table
  let builder := builder.Write "("
  let builder := forRange stmt.columns (fun i col builder =>
    let builder := if i > 0 then builder.Write "," else builder
    builder.Write col) builder
  let builder := builder.Write ")"
  let builder := builder.WriteLine
  let builder := builder.Write "VALUES("
  let builder := forRange stmt.columns (fun i _ builder =>
    let builder := if i > 0 then builder.Write "," else builder
    builder.Write "?") builder
  builder.Write ")"

/-- The text of `strconv.Itoa` for the values it is called with here. -/
def itoa (n : Int) : String := toString n

/-- Method `WriteSelectStatement`. -/
def defaultSQLBuilder.WriteSelectStatement (builder : defaultSQLBuilder)
    (stmt : SQLSelectStatement) : defaultSQLBuilder :=
  let builder := builder.Write "SELECT "
  let builder := forRange stmt.selectList (fun i expr builder =>
    let builder := if i > 0 then builder.Write ", " else builder
    builder.WriteSQLExpression expr) builder
  let builder := builder.WriteLine
  let builder :=
    if stmt.table ≠ "" then ((builder.Write "FROM ").Write stmt.table).WriteLine
    else builder
  let builder := builder.WriteWhere stmt.where
  let builder :=
    if stmt.orderByList.length > 0 then
      let builder := builder.Write "ORDER BY "
      let builder := forRange stmt.orderByList (fun i o builder =>
        let builder := if i > 0 then builder.Write "," else builder
        builder.WriteSQLExpression (.order o)) builder
      builder.WriteLine
    else builder
  if stmt.limitRows > 0 then
    ((builder.Write "LIMIT ").Write (itoa stmt.limitRows)).WriteLine
  else builder

/-- Method `GetInvokeParameterList`. -/
def defaultSQLBuilder.GetInvokeParameterList (_builder : defaultSQLBuilder)
    (paramList : List SQLParameterExpression) : List SQLParameterExpression :=
  paramList

/-! ## Parameter lists (`sqlBuilder.go`) -/

/-- Function `getSqlParamListFromExpression`: the type switch has the two cases
`*SQLBinaryExpression` and `*SQLParameterExpression` and nothing else. -/
def getSqlParamListFromExpression : SQLExpression → List SQLParameterExpression
  | .binary left _ right =>
    ([] ++ getSqlParamListFromExpression left) ++ getSqlParamListFromExpression right
  | .parameter inst => [] ++ [inst]
  | _ => []

/-- The call `getSqlParamListFromExpression(stmt.where)` on a possibly nil
predicate: a nil interface matches no case of the type switch. -/
def getSqlParamListFromWhere : Option SQLExpression → List SQLParameterExpression
  | none => []
  | some e => getSqlParamListFromExpression e

def getSelectStmtSqlParamList (stmt : SQLSelectStatement) : List SQLParameterExpression :=
  [] ++ getSqlParamListFromWhere stmt.where

/-- Function `getUpdateStmtSqlParamList`; `fault` is the panic of the type
assertion `updateExpr.(*SQLBinaryExpression)`. -/
def getUpdateStmtSqlParamList (stmt : SQLUpdateStatement) :
    Except GenError (List SQLParameterExpression) :=
  match forRangeM (fun updateExpr list =>
      match updateExpr with
      | .binary _ _ right => .ok (list ++ getSqlParamListFromExpression right)
      | _ => .error .fault) stmt.updateList [] with
  | .error e => .error e
  | .ok list => .ok (list ++ getSqlParamListFromWhere stmt.where)

def getDeleteStmtSqlParamList (stmt : SQLDeleteStatement) : List SQLParameterExpression :=
  getSqlParamListFromWhere stmt.where

/-! ## Statements from tables (`sqlBuilder.go`) -/

/-- Function `tableToSelectStatement`; a nil `stmt` is `none`. -/
def tableToSelectStatement (_builder : defaultSQLBuilder)
    (stmt : Option SQLSelectStatement) (table : table) : SQLSelectStatement :=
  let stmt := stmt.getD {}
  let stmt := { stmt with table := table.tableName }
  forRange table.columns (fun _ col stmt =>
    let colExpr : SQLColumnExpression :=
      { columnName := col.columnName, source := col, tableName := stmt.table }
    { stmt with selectList := stmt.selectList ++ [.column colExpr] }) stmt

/-- Function `tableToInsertStatement`; a nil `stmt` is `none`. -/
def tableToInsertStatement (_builder : defaultSQLBuilder)
    (stmt : Option SQLInsertStatement) (table : table) : SQLInsertStatement :=
  let stmt := stmt.getD {}
  let stmt := { stmt with table := table.tableName }
  forRange table.columns (fun _ col stmt =>
    if col.isIdentity then stmt
    else { stmt with columns := stmt.columns ++ [col.columnName] }) stmt

/-! ## The Go syntax tree read by the compiler (`go/ast`) -/

/-- The kind of a `*ast.BasicLit` (`token.INT`, ...). -/
inductive LitKind where
  | INT | FLOAT | IMAG | CHAR | STRING
deriving DecidableEq, Repr

/-- The expression nodes the compiler distinguishes; `other` is every other
node type (a call, an index, a unary expression, ...), which each type switch
and type assertion of the compiler treats alike. -/
inductive Expr where
  | ident (name : String)
  | basicLit (kind : LitKind) (value : String)
  | selector (x : Expr) (sel : String)
  | paren (x : Expr)
  | binary (x : Expr) (op : String) (y : Expr)
  | other
deriving DecidableEq, Repr

/-- A node `*ast.CallExpr` with its source position. -/
structure CallExpr where
  pos : Nat
  «fun» : Expr
  args : List Expr
deriving DecidableEq, Repr

/-- A statement of a function body: an expression statement holding a call,
an expression statement holding another expression, or any other statement. -/
inductive Stmt where
  | exprCall (call : CallExpr)
  | exprOther
  | other
deriving DecidableEq, Repr

/-- A node `*ast.Field`: the declared names and the type expression. -/
structure Field where
  names : List String
  type : Expr
deriving DecidableEq, Repr

/-- A node `*ast.FuncDecl`: name, `Type.Params.List`, `Body.List` and the lines
of the doc comment (empty when `Doc` is nil). -/
structure FuncDecl where
  name : String
  params : List Field
  body : List Stmt
  doc : List String
deriving DecidableEq, Repr

/-- The selector name `callExpr.Fun.(*ast.SelectorExpr).Sel.Name`; the
assertion panics when `Fun` is not a selector. -/
def CallExpr.selName (c : CallExpr) : Except GenError String :=
  match c.fun with
  | .selector _ sel => .ok sel
  | _ => .error .fault

/-! ## `astutil.go` -/

/-- The call `strings.Split(code, ".")` on the characters of `code`. -/
def splitDots : List Char → List (List Char)
  | [] => [[]]
  | c :: cs =>
    if c = '.' then [] :: splitDots cs
    else
      match splitDots cs with
      | [] => [[c]]
      | part :: parts => (c :: part) :: parts

/-- Function `newASTField`: empty names are skipped. -/
def newASTField (t : Expr) (names : List String) : Field :=
  { type := t, names := names.filter (fun n => n ≠ "") }

/-- Function `newASTRefExpr`: an identifier for the first dot-separated part,
wrapped in one selector per further part. -/
def newASTRefExpr (code : String) : Expr :=
  match splitDots code.data with
  | [] => .other
  | x :: rest => rest.foldl (fun expr part => .selector expr ⟨part⟩) (.ident ⟨x⟩)

/-! ## The source emitter (`codeGenerator.go`) -/

structure generatorSettings where
  indent : String
  line : String
deriving DecidableEq, Repr

/-- The struct `codeGenerator`; `writer` is the text written so far. -/
structure codeGenerator where
  writer : String
  indentLevel : Int
  settings : generatorSettings
  newLine : Bool
deriving DecidableEq, Repr

def newGenerator : codeGenerator :=
  { writer := "", indentLevel := 0, settings := { indent := "\t", line := "\r\n" },
    newLine := true }

/-- Method `writeIndent`: `indentLevel` copies of the indent (none when the
level is not positive). -/
def codeGenerator.writeIndent (g : codeGenerator) : codeGenerator :=
  { g with writer :=
      g.writer ++ String.join (List.replicate g.indentLevel.toNat g.settings.indent) }

def codeGenerator.write (g : codeGenerator) (code : String) : codeGenerator :=
  let g := if g.newLine then { g.writeIndent with newLine := false } else g
  { g with writer := g.writer ++ code }

/-- Method `writeLine(codes...)`. -/
def codeGenerator.writeLine (g : codeGenerator) (codes : List String) :
    codeGenerator :=
  let g := codes.foldl (fun g code => g.write code) g
  { g with writer := g.writer ++ g.settings.line, newLine := true }

def codeGenerator.beginBlock (g : codeGenerator) : codeGenerator :=
  let g := g.write " \x7b"
  let g := { g with indentLevel := g.indentLevel + 1 }
  g.writeLine []

/-- Method `endBlock(codes...)`. -/
def codeGenerator.endBlock (g : codeGenerator) (codes : List String) :
    codeGenerator :=
  let g := { g with indentLevel := g.indentLevel - 1 }
  let g := g.write "\x7d"
  g.writeLine codes

/-- Method `writeExpr`: identifiers and selectors are written, every other
node writes nothing. -/
def codeGenerator.writeExpr (g : codeGenerator) : Expr → codeGenerator
  | .ident name => g.write name
  | .selector x sel => ((g.writeExpr x).write ".").write sel
  | _ => g

/-- Method `writeFuncType`. -/
def codeGenerator.writeFuncType (g : codeGenerator) (list : List Field)
    (hasParenthesis : Bool) : codeGenerator :=
  let g := if hasParenthesis then g.write "(" else g
  let g := forRange list (fun i field g =>
    let g := if i > 0 then g.write ", " else g
    let g :=
      match field.names with
      | name :: _ => (g.write name).write " "
      | [] => g
    g.writeExpr field.type) g
  if hasParenthesis then g.write ")" else g

/-- Method `beginFunc`. -/
def codeGenerator.beginFunc (g : codeGenerator) (funcName : String)
    (paramList returnList : List Field) : codeGenerator :=
  let g := g.write "func "
  let g := g.write funcName
  let g := g.writeFuncType paramList true
  let g :=
    if returnList.length > 0 then
      (g.write " ").writeFuncType returnList (returnList.length > 1)
    else g
  g.beginBlock

def codeGenerator.writeStringValue (g : codeGenerator) (value : String) : codeGenerator :=
  ((g.write "\"").write value).write "\""

/-- Method `writeDoc`: one line per comment of the group. -/
def codeGenerator.writeDoc (g : codeGenerator) (doc : List String) : codeGenerator :=
  doc.foldl (fun g text => g.writeLine [text]) g

/-- Method `writeConstDeclaration`, for a string initial value (the only kind
of value it is called with). -/
def codeGenerator.writeConstDeclaration (g : codeGenerator) (varName : String)
    (initValue : String) : codeGenerator :=
  let g := g.write "const "
  let g := g.write varName
  let g := g.write " = "
  let g := g.writeStringValue initValue
  g.writeLine []

/-- Method `writeVarDeclaration`. -/
def codeGenerator.writeVarDeclaration (g : codeGenerator) (varName : String)
    (varType : Expr) (newObj : Bool) : codeGenerator :=
  let g := g.write "var "
  let g := g.write varName
  let g :=
    if newObj then
      (((g.write " = ").write "new(").writeExpr varType).write ")"
    else
      (g.write " ").writeExpr varType
  g.writeLine []

/-! ## Declarations of the DSL (`desc.go`) -/

/-- The constants of type `ReturnType`, in `iota` order; `ReturnDefault` is the
zero value. -/
inductive ReturnType where
  | ReturnDefault
  | ReturnExecResult
  | ReturnScalar
  | ReturnScalarSet
  | ReturnRecord
  | ReturnRecordSet
  | ReturnRecordChannel
deriving DecidableEq, Repr

/-! ## The statement interpreters (`gen.go`) -/

/-- The struct `parseContext`: the entity map, the tables, the source emitter
and the SQL builder (the default builder). -/
structure parseContext where
  entity : List (String × table)
  tables : List table
  generator : codeGenerator
  sqlBuilder : defaultSQLBuilder
deriving DecidableEq, Repr

def newArgError (_context : parseContext) (node : CallExpr) : GenError :=
  .argError node.pos

/-- Method `getEntityWithExpr`: the entity named by an identifier or by the
identifier left of a member access; any other shape looks up the empty name. -/
def parseContext.getEntityWithExpr (context : parseContext) (expr : Expr) :
    Option table :=
  let entityName :=
    match expr with
    | .ident name => name
    | .selector (.ident name) _ => name
    | _ => ""
  context.entity.lookup entityName

/-- Function `getCallExprList`: the calls, in body order, of the expression
statements whose expression is a call through a selector. -/
def getCallExprList (funcDecl : FuncDecl) : List CallExpr :=
  funcDecl.body.filterMap (fun stmt =>
    match stmt with
    | .exprCall callExpr =>
      match callExpr.fun with
      | .selector _ _ => some callExpr
      | _ => none
    | _ => none)

/-- The test `fun.Sel.Name == name` on the selector of a call. -/
def CallExpr.named (c : CallExpr) (name : String) : Bool :=
  match c.fun with
  | .selector _ sel => sel == name
  | _ => false

/-- Function `findSpecCall`: the first call with the given selector name. -/
def findSpecCall (funcDecl : FuncDecl) (callMethod : String) : Option CallExpr :=
  (getCallExprList funcDecl).find? (fun callExpr => callExpr.named callMethod)

/-- Function `getFuncParamNames`: `paramNames[arg.Names[0].Name] = i` for each
field of the parameter list; a field without a name panics. -/
def getFuncParamNames (funcDecl : FuncDecl) : Except GenError (List (String × Nat)) :=
  forRangeM (fun (arg : Nat × Field) paramNames =>
    match arg.2.names with
    | name :: _ => .ok ((name, arg.1) :: paramNames)
    | [] => .error .fault) funcDecl.params.enum []

/-- Function `astToSQLExpression`. -/
def astToSQLExpression (expr : Expr) (context : parseContext)
    (paramNames : List (String × Nat)) : Except GenError SQLExpression :=
  match expr with
  | .ident name =>
    match paramNames.lookup name with
    | some _ => .ok (.parameter { name := name })
    | none => .error .plain
  | .basicLit _ value => .ok (.literal { value := value })
  | .selector x sel =>
    match context.getEntityWithExpr (.selector x sel) with
    | some entity =>
      match entity.getColumn sel with
      | none => .error .plain
      | some col =>
        .ok (.column { source := col, columnName := col.columnName,
                       tableName := entity.tableName })
    | none => .error .plain
  | .paren x =>
    match astToSQLExpression x context paramNames with
    | .error err => .error err
    | .ok sqlExpr => .ok (.parenthesis sqlExpr)
  | .binary x op y =>
    match astToSQLExpression x context paramNames with
    | .error err => .error err
    | .ok left =>
      match astToSQLExpression y context paramNames with
      | .error err => .error err
      | .ok right => .ok (.binary left op right)
  | .other => .error .plain

/-- Function `getTableNameWithExpr`. -/
def getTableNameWithExpr (context : parseContext) (fromExpr : CallExpr) :
    Except GenError String :=
  match fromExpr.args with
  | [.ident entityName] =>
    match context.entity.lookup entityName with
    | some entity => .ok entity.tableName
    | none => .error (newArgError context fromExpr)
  | _ => .error (newArgError context fromExpr)

/-- Function `astToSQLWhereExpression`; a nil `whereExpr` is `none` and gives a
nil predicate. -/
def astToSQLWhereExpression (context : parseContext) (funcDecl : FuncDecl)
    (whereExpr : Option CallExpr) : Except GenError (Option SQLExpression) :=
  match whereExpr with
  | none => .ok none
  | some whereExpr =>
    match whereExpr.args with
    | [arg] =>
      match getFuncParamNames funcDecl with
      | .error err => .error err
      | .ok funcParamNames =>
        match astToSQLExpression arg context funcParamNames with
        | .error _ => .error (newArgError context whereExpr)
        | .ok sqlWhereExpr => .ok (some sqlWhereExpr)
    | _ => .error (newArgError context whereExpr)

/-- Function `genMethodBegin`: the doc comment and the function header, with
the `db` parameter first and `error` last. -/
def genMethodBegin (context : parseContext) (funcName : String)
    (paramList returnList : List Field) (doc : List String) : parseContext :=
  let paramListCopy := newASTField (newASTRefExpr "sqlutil.DbObject") ["db"] :: paramList
  let returnListCopy := returnList ++ [newASTField (newASTRefExpr "error") [""]]
  let generator := context.generator.writeDoc doc
  { context with generator := generator.beginFunc funcName paramListCopy returnListCopy }

def genMethodEnd (context : parseContext) : parseContext :=
  { context with generator := context.generator.endBlock [] }

/-- The value returned by `strconv.Atoi` (64-bit `int`), whose error the
caller discards: 0 on a syntax error, the nearest bound on a range error. -/
def atoi (s : String) : Int :=
  let signed : Bool × List Char :=
    match s.data with
    | '-' :: rest => (true, rest)
    | '+' :: rest => (false, rest)
    | rest => (false, rest)
  let digits := signed.2
  if digits = [] ∨ ¬ digits.all Char.isDigit then 0
  else
    let n : Nat := digits.foldl (fun n ch => n * 10 + (ch.toNat - 48)) 0
    if signed.1 then (if n > 2 ^ 63 then -(2 ^ 63 : Int) else -(n : Int))
    else (if n ≥ 2 ^ 63 then (2 ^ 63 : Int) - 1 else (n : Int))

/-- The local variables of `genSelectFunction` assigned by its first loop. -/
structure SelectScan where
  selectExpr : Option CallExpr := none
  isSelectAll : Bool := false
  fromExpr : Option CallExpr := none
  orderByList : List SQLOrderExpression := []
  whereExpr : Option CallExpr := none
  returnTypeFlag : ReturnType := .ReturnDefault
  chanBufferSize : Int := 0
deriving DecidableEq, Repr

/-- The constant named by the argument of `SetReturnType`. -/
def returnTypeOfName (c : String) : Option ReturnType :=
  if c = "ReturnDefault" then some .ReturnDefault
  else if c = "ReturnExecResult" then some .ReturnExecResult
  else if c = "ReturnScalar" then some .ReturnScalar
  else if c = "ReturnScalarSet" then some .ReturnScalarSet
  else if c = "ReturnRecord" then some .ReturnRecord
  else if c = "ReturnRecordSet" then some .ReturnRecordSet
  else if c = "ReturnRecordChannel" then some .ReturnRecordChannel
  else none

/-- The body of the loop of `genSelectFunction` over the calls of the function
(the `switch fun.Sel.Name`). -/
def selectScanStep (context : parseContext) (callExpr : CallExpr) (st : SelectScan) :
    Except GenError SelectScan :=
  match callExpr.selName with
  | .error err => .error err
  | .ok name =>
    if name = "Select" then .ok { st with selectExpr := some callExpr }
    else if name = "SelectAll" then
      .ok { st with selectExpr := some callExpr, isSelectAll := true }
    else if name = "From" then .ok { st with fromExpr := some callExpr }
    else if name = "Where" then .ok { st with whereExpr := some callExpr }
    else if name = "OrderBy" ∨ name = "OrderByDescending" then
      match callExpr.args with
      | [] => .error .fault
      | arg :: _ =>
        match context.getEntityWithExpr arg with
        | none => .error (newArgError context callExpr)
        | some entity =>
          match arg with
          | .selector _ sel =>
            match entity.getColumn sel with
            | none => .error (newArgError context callExpr)
            | some col =>
              let sqlColExpr : SQLColumnExpression :=
                { columnName := col.columnName, source := col,
                  tableName := entity.tableName }
              let isDesc : Bool := name = "OrderByDescending"
              .ok { st with orderByList :=
                      st.orderByList ++ [{ column := sqlColExpr, isDescending := isDesc }] }
          | _ => .error (newArgError context callExpr)
    else if name = "SetReturnType" then
      match callExpr.args with
      | [.selector _ c] =>
        match returnTypeOfName c with
        | some flag => .ok { st with returnTypeFlag := flag }
        | none => .error (newArgError context callExpr)
      | [_] => .error .fault
      | _ => .error (newArgError context callExpr)
    else if name = "SetChannelBufferSize" then
      match callExpr.args with
      | [.basicLit _ value] => .ok { st with chanBufferSize := atoi value }
      | _ => .error (newArgError context callExpr)
    else .ok st

/-- The loop `for _, expr := range selectExpr.Args` of `genSelectFunction`
(the branch of `Select`). -/
def selectArgStep (context : parseContext) (selectExpr : CallExpr) (expr : Expr)
    (selectStmt : SQLSelectStatement) : Except GenError SQLSelectStatement :=
  match context.getEntityWithExpr expr with
  | none => .error (newArgError context selectExpr)
  | some entity =>
    match expr with
    | .selector _ sel =>
      match entity.getColumn sel with
      | none => .error (newArgError context selectExpr)
      | some col =>
        let sqlColExpr : SQLColumnExpression :=
          { tableName := entity.tableName, source := col, columnName := col.columnName }
        .ok { selectStmt with selectList := selectStmt.selectList ++ [.column sqlColExpr] }
    | _ => .error (newArgError context selectExpr)

/-- The `if isSelectAll { ... } else { ... }` of `genSelectFunction`: the select
list is every column of the entity of the first argument, or one column per
argument of `Select`. -/
def buildSelectList (context : parseContext) (isSelectAll : Bool) (selectExpr : CallExpr)
    (selectStmt : SQLSelectStatement) : Except GenError SQLSelectStatement :=
  if isSelectAll then
    match selectExpr.args with
    | [] => .error .fault
    | arg :: _ =>
      match context.getEntityWithExpr arg with
      | none => .error (newArgError context selectExpr)
      | some entity =>
        .ok (tableToSelectStatement context.sqlBuilder (some selectStmt) entity)
  else
    forRangeM (selectArgStep context selectExpr) selectExpr.args selectStmt

/-- What `genSelectFunction` has decided when it starts to emit code: the
statement, the return mode after the default is resolved, the result fields
of the signature, the element type and the channel buffer size. -/
structure SelectPlan where
  selectStmt : SQLSelectStatement
  returnTypeFlag : ReturnType
  funcReturnList : List Field
  returnElementType : String
  chanBufferSize : Int
deriving DecidableEq, Repr

/-- The first part of `genSelectFunction` (up to the choice of the result
fields): the interpretation of the function body. A nil `selectExpr` that is
dereferenced is a panic. -/
def interpretSelect (context : parseContext) (funcDecl : FuncDecl) :
    Except GenError SelectPlan := do
  let st ← forRangeM (selectScanStep context) (getCallExprList funcDecl) {}
  let selectStmt : SQLSelectStatement := { orderByList := st.orderByList }
  let selectExpr ← match st.selectExpr with
    | none => .error .fault
    | some selectExpr => .ok selectExpr
  let selectStmt ← buildSelectList context st.isSelectAll selectExpr selectStmt
  let selectStmt ← match st.fromExpr with
    | some fromExpr =>
      match getTableNameWithExpr context fromExpr with
      | .error err => .error err
      | .ok tableName => .ok { selectStmt with table := tableName }
    | none => .ok selectStmt
  let sqlWhereExpr ← astToSQLWhereExpression context funcDecl st.whereExpr
  let selectStmt := { selectStmt with «where» := sqlWhereExpr }
  let returnTypeFlag :=
    if st.returnTypeFlag = .ReturnDefault then .ReturnRecordSet else st.returnTypeFlag
  let entity ← match selectExpr.args with
    | [] => .error .fault
    | arg :: _ =>
      match context.getEntityWithExpr arg with
      | none => .error (newArgError context selectExpr)
      | some entity => .ok entity
  let typed : List Field × String ←
    match returnTypeFlag with
    | .ReturnRecordSet =>
      .ok ([newASTField (newASTRefExpr ("[]*" ++ entity.name)) [""]], entity.name)
    | .ReturnRecordChannel =>
      .ok ([newASTField (newASTRefExpr ("<-chan *" ++ entity.name)) [""]], entity.name)
    | .ReturnRecord =>
      .ok ([newASTField (newASTRefExpr ("*" ++ entity.name)) [""]], entity.name)
    | .ReturnScalar =>
      match selectStmt.getFirstColumnExpression with
      | none => .error (newArgError context selectExpr)
      | some sqlColExpr =>
        .ok ([newASTField (newASTRefExpr sqlColExpr.source.sysType) [""]],
             sqlColExpr.source.sysType)
    | .ReturnScalarSet =>
      match selectStmt.getFirstColumnExpression with
      | none => .error (newArgError context selectExpr)
      | some sqlColExpr =>
        .ok ([newASTField (newASTRefExpr ("[]*" ++ sqlColExpr.source.sysType)) [""]],
             sqlColExpr.source.sysType)
    | _ => .ok ([], "")
  let funcReturnList :=
    if returnTypeFlag = .ReturnRecordChannel then
      typed.1 ++ [newASTField (newASTRefExpr "context.CancelFunc") [""]]
    else typed.1
  return { selectStmt := selectStmt, returnTypeFlag := returnTypeFlag,
           funcReturnList := funcReturnList, returnElementType := typed.2,
           chanBufferSize := st.chanBufferSize }

/-- The loop writing the targets of `rows.Scan(`: `&o.` and the logical name of
each select-list column; the type assertion `selectExpr.(*SQLColumnExpression)`
panics on any other node. -/
def writeScanTargetsFrom : Nat → List SQLExpression → codeGenerator →
    Except GenError codeGenerator
  | _, [], generator => .ok generator
  | i, selectExpr :: rest, generator =>
    let generator := if i > 0 then generator.write ", " else generator
    let generator := generator.write "&o."
    match selectExpr with
    | .column inst => writeScanTargetsFrom (i + 1) rest (generator.write inst.source.name)
    | _ => .error .fault

/-- The type `funcReturnList[0].Type`; an empty list is an index out of range. -/
def firstReturnType (funcReturnList : List Field) : Except GenError Expr :=
  match funcReturnList with
  | field :: _ => .ok field.type
  | [] => .error .fault

/-- The scan body written by the `switch returnTypeFlag` at the end of
`genSelectFunction`. -/
def emitSelectBody (plan : SelectPlan) (generator : codeGenerator) :
    Except GenError codeGenerator :=
  match plan.returnTypeFlag with
  | .ReturnRecordSet => do
    let resultType ← firstReturnType plan.funcReturnList
    let generator := generator.writeVarDeclaration "result" resultType false
    let generator := generator.write "for rows.Next()"
    let generator := generator.beginBlock
    let generator :=
      generator.writeVarDeclaration "o" (newASTRefExpr plan.returnElementType) true
    let generator := generator.write "rows.Scan("
    let generator ← writeScanTargetsFrom 0 plan.selectStmt.selectList generator
    let generator := generator.writeLine [")"]
    let generator := generator.writeLine ["result = append(result, o)"]
    let generator := generator.endBlock []
    return generator.writeLine ["return result, nil"]
  | .ReturnRecord => do
    let generator := generator.write "if rows.Next()"
    let generator := generator.beginBlock
    let generator :=
      generator.writeVarDeclaration "o" (newASTRefExpr plan.returnElementType) true
    let generator := generator.write "rows.Scan("
    let generator ← writeScanTargetsFrom 0 plan.selectStmt.selectList generator
    let generator := generator.writeLine [")"]
    let generator := generator.writeLine ["return o, nil"]
    let generator := generator.endBlock []
    return generator.writeLine ["return nil, nil"]
  | .ReturnScalar => do
    let generator := generator.write "if rows.Next()"
    let generator := generator.beginBlock
    let resultType ← firstReturnType plan.funcReturnList
    let generator := generator.writeVarDeclaration "o" resultType true
    let generator := generator.writeLine ["rows.Scan(o)"]
    let generator := generator.writeLine ["return o, nil"]
    let generator := generator.endBlock []
    return generator.writeLine ["return nil, nil"]
  | .ReturnScalarSet => do
    let resultType ← firstReturnType plan.funcReturnList
    let generator := generator.writeVarDeclaration "result" resultType false
    let generator := generator.write "for rows.Next()"
    let generator := generator.beginBlock
    let generator :=
      generator.writeVarDeclaration "o" (newASTRefExpr plan.returnElementType) true
    let generator := generator.writeLine ["rows.Scan(o)"]
    let generator := generator.writeLine ["result = append(result, o)"]
    let generator := generator.endBlock []
    return generator.writeLine ["return result, nil"]
  | .ReturnRecordChannel => do
    let generator :=
      if plan.chanBufferSize > 0 then
        generator.writeLine ["channel := make(chan *", plan.returnElementType, ", ",
          itoa plan.chanBufferSize, ")"]
      else
        generator.writeLine ["channel := make(chan *", plan.returnElementType, ")"]
    let generator :=
      generator.writeLine ["ctx, cancel := context.WithCancel(context.Background())"]
    let generator := generator.write "go func()"
    let generator := generator.beginBlock
    let generator := generator.writeLine ["defer close(channel)"]
    let generator := generator.writeLine ["defer rows.Close()"]
    let generator := generator.write "for rows.Next()"
    let generator := generator.beginBlock
    let generator :=
      generator.writeVarDeclaration "o" (newASTRefExpr plan.returnElementType) true
    let generator := generator.write "rows.Scan("
    let generator ← writeScanTargetsFrom 0 plan.selectStmt.selectList generator
    let generator := generator.writeLine [")"]
    let generator := generator.writeLine ["select \x7b"]
    let generator := generator.writeLine ["case <-ctx.Done(): "]
    let generator := { generator with indentLevel := generator.indentLevel + 1 }
    let generator := generator.writeLine ["return"]
    let generator := { generator with indentLevel := generator.indentLevel - 1 }
    let generator := generator.writeLine ["case channel <- o:"]
    let generator := generator.writeLine ["\x7d"]
    let generator := generator.endBlock []
    let generator := generator.endBlock ["()"]
    return generator.writeLine ["return channel, cancel, nil"]
  | _ => .ok generator

/-- The second part of `genSelectFunction`: the SQL text, the function header
and the body of the accessor. -/
def emitSelect (context : parseContext) (funcDecl : FuncDecl) (plan : SelectPlan) :
    Except GenError parseContext := do
  let sqlBuilder := context.sqlBuilder.Reset.WriteSelectStatement plan.selectStmt
  let context := { context with sqlBuilder := sqlBuilder }
  let sqlText := sqlBuilder.String'
  let context :=
    genMethodBegin context funcDecl.name funcDecl.params plan.funcReturnList funcDecl.doc
  let generator := context.generator
  let generator := generator.writeConstDeclaration "query" sqlText
  let generator :=
    generator.write "rows, err := db.QueryContext(context.Background(), query"
  let generator := (getSelectStmtSqlParamList plan.selectStmt).foldl
    (fun generator p => (generator.write ", ").write p.name) generator
  let generator := generator.writeLine [")"]
  let generator := generator.write "if err != nil"
  let generator := generator.beginBlock
  let generator :=
    if plan.returnTypeFlag = .ReturnRecordChannel then
      generator.writeLine ["return nil, nil, err"]
    else generator.writeLine ["return nil, err"]
  let generator := generator.endBlock []
  let generator :=
    if plan.returnTypeFlag ≠ .ReturnRecordChannel then
      generator.writeLine ["defer rows.Close()"]
    else generator
  let generator ← emitSelectBody plan generator
  return genMethodEnd { context with generator := generator }

/-- Function `genSelectFunction`: on success the context after the accessor
has been written. -/
def genSelectFunction (context : parseContext) (funcDecl : FuncDecl) :
    Except GenError parseContext := do
  let plan ← interpretSelect context funcDecl
  emitSelect context funcDecl plan

/-- The local variables of `genDeleteFunction` assigned by its loop. -/
structure DeleteScan where
  whereExpr : Option CallExpr := none
  deleteExpr : Option CallExpr := none
deriving DecidableEq, Repr

def deleteScanStep (callExpr : CallExpr) (st : DeleteScan) : Except GenError DeleteScan :=
  match callExpr.selName with
  | .error err => .error err
  | .ok name =>
    if name = "Delete" then .ok { st with deleteExpr := some callExpr }
    else if name = "Where" then .ok { st with whereExpr := some callExpr }
    else .ok st

/-- The first part of `genDeleteFunction`: the delete statement of the body.
A nil `deleteExpr` is dereferenced by `getTableNameWithExpr` (a panic). -/
def interpretDelete (context : parseContext) (funcDecl : FuncDecl) :
    Except GenError SQLDeleteStatement := do
  let st ← forRangeM deleteScanStep (getCallExprList funcDecl) {}
  let deleteExpr ← match st.deleteExpr with
    | none => .error .fault
    | some deleteExpr => .ok deleteExpr
  let tableName ← getTableNameWithExpr context deleteExpr
  let sqlWhereExpr ← astToSQLWhereExpression context funcDecl st.whereExpr
  return { table := tableName, «where» := sqlWhereExpr }

/-- The second part of `genDeleteFunction`: the accessor for the statement. -/
def emitDelete (context : parseContext) (funcDecl : FuncDecl)
    (deleteStmt : SQLDeleteStatement) : parseContext :=
  let funcResultList := [newASTField (newASTRefExpr "sql.Result") [""]]
  let context :=
    genMethodBegin context funcDecl.name funcDecl.params funcResultList funcDecl.doc
  let sqlBuilder := context.sqlBuilder.Reset.WriteDeleteStatement deleteStmt
  let context := { context with sqlBuilder := sqlBuilder }
  let sqlText := sqlBuilder.String'
  let generator := context.generator
  let generator := generator.writeConstDeclaration "query" sqlText
  let generator := generator.write "return db.ExecContext(context.Background(), query"
  let sqlParamList := getDeleteStmtSqlParamList deleteStmt
  let generator := sqlParamList.foldl
    (fun generator p => (generator.write ", ").write p.name) generator
  let generator := generator.writeLine [")"]
  genMethodEnd { context with generator := generator }

/-- Function `genDeleteFunction`. -/
def genDeleteFunction (context : parseContext) (funcDecl : FuncDecl) :
    Except GenError parseContext := do
  let deleteStmt ← interpretDelete context funcDecl
  return emitDelete context funcDecl deleteStmt

/-- The local variables of `genUpdateFunction` assigned by its first loop. -/
structure UpdateScan where
  updateExprList : List CallExpr := []
  whereExpr : Option CallExpr := none
  fromExpr : Option CallExpr := none
deriving DecidableEq, Repr

def updateScanStep (callExpr : CallExpr) (st : UpdateScan) : Except GenError UpdateScan :=
  match callExpr.selName with
  | .error err => .error err
  | .ok name =>
    if name = "Update" then .ok { st with updateExprList := st.updateExprList ++ [callExpr] }
    else if name = "From" then .ok { st with fromExpr := some callExpr }
    else if name = "Where" then .ok { st with whereExpr := some callExpr }
    else .ok st

/-- The body of the loop `for _, updateExpr := range updateExprList` of
`genUpdateFunction`. -/
def updateAssignStep (context : parseContext) (funcDecl : FuncDecl)
    (updateExpr : CallExpr) (updateStmt : SQLUpdateStatement) :
    Except GenError SQLUpdateStatement :=
  match updateExpr.args with
  | [target, value] =>
    match getFuncParamNames funcDecl with
    | .error err => .error err
    | .ok funcFuncNames =>
      match astToSQLExpression target context funcFuncNames with
      | .error _ => .error (newArgError context updateExpr)
      | .ok (.column inst) =>
        match astToSQLExpression value context funcFuncNames with
        | .error _ => .error (newArgError context updateExpr)
        | .ok (.parameter p) =>
          .ok { updateStmt with updateList :=
                  updateStmt.updateList ++ [.binary (.column inst) "=" (.parameter p)] }
        | .ok (.literal l) =>
          .ok { updateStmt with updateList :=
                  updateStmt.updateList ++ [.binary (.column inst) "=" (.literal l)] }
        | .ok _ => .error (newArgError context updateExpr)
      | .ok _ => .error (newArgError context updateExpr)
  | _ => .error (newArgError context updateExpr)

/-- The first part of `genUpdateFunction`: the update statement of the body. -/
def interpretUpdate (context : parseContext) (funcDecl : FuncDecl) :
    Except GenError SQLUpdateStatement := do
  let st ← forRangeM updateScanStep (getCallExprList funcDecl) {}
  let updateStmt : SQLUpdateStatement := {}
  let updateStmt ← match st.fromExpr with
    | some fromExpr =>
      match getTableNameWithExpr context fromExpr with
      | .error err => .error err
      | .ok tableName => .ok { updateStmt with table := tableName }
    | none => .ok updateStmt
  let sqlWhereExpr ← astToSQLWhereExpression context funcDecl st.whereExpr
  let updateStmt := { updateStmt with «where» := sqlWhereExpr }
  forRangeM (updateAssignStep context funcDecl) st.updateExprList updateStmt

/-- The second part of `genUpdateFunction`: the accessor for the statement. -/
def emitUpdate (context : parseContext) (funcDecl : FuncDecl)
    (updateStmt : SQLUpdateStatement) : Except GenError parseContext := do
  let funcResultList := [newASTField (newASTRefExpr "sql.Result") [""]]
  let context :=
    genMethodBegin context funcDecl.name funcDecl.params funcResultList funcDecl.doc
  let sqlBuilder ← context.sqlBuilder.Reset.WriteUpdateStatement updateStmt
  let context := { context with sqlBuilder := sqlBuilder }
  let sqlText := sqlBuilder.String'
  let generator := context.generator
  let generator := generator.writeConstDeclaration "query" sqlText
  let generator := generator.write "return db.ExecContext(context.Background(), query"
  let sqlParamList ← getUpdateStmtSqlParamList updateStmt
  let generator := sqlParamList.foldl
    (fun generator p => (generator.write ", ").write p.name) generator
  let generator := generator.writeLine [")"]
  return genMethodEnd { context with generator := generator }

/-- Function `genUpdateFunction`. -/
def genUpdateFunction (context : parseContext) (funcDecl : FuncDecl) :
    Except GenError parseContext := do
  let updateStmt ← interpretUpdate context funcDecl
  emitUpdate context funcDecl updateStmt

/-- The loop of `genInsertFunction` writing one execution argument per
column that is not an identity column. -/
def writeInsertArgs (columns : List column) (generator : codeGenerator) : codeGenerator :=
  forRange columns (fun _ col generator =>
    if col.isIdentity then generator
    else ((generator.write ",").write "o.").write col.name) generator

/-- Function `genInsertFunction`: nothing is written when the body has no
`InsertAll` call. -/
def genInsertFunction (context : parseContext) (funcDecl : FuncDecl) :
    Except GenError parseContext :=
  match findSpecCall funcDecl "InsertAll" with
  | none => .ok context
  | some insertModelCall =>
    match insertModelCall.args with
    | [] => .error .fault
    | .ident argName :: _ =>
      match context.entity.lookup argName with
      | none => .error (newArgError context insertModelCall)
      | some entity =>
        let generator := context.generator
        let paramList :=
          [newASTField (newASTRefExpr "sqlutil.DbObject") ["db"],
           newASTField (newASTRefExpr ("*" ++ entity.name)) ["o"]]
        let returnList :=
          [newASTField (newASTRefExpr "sql.Result") [""],
           newASTField (newASTRefExpr "error") [""]]
        let generator := generator.beginFunc funcDecl.name paramList returnList
        let sqlBuilder := context.sqlBuilder.Reset.WriteInsertStatement
          (tableToInsertStatement context.sqlBuilder none entity)
        let sqlText := sqlBuilder.String'
        let generator := generator.writeConstDeclaration "query" sqlText
        let generator :=
          generator.write "return db.ExecContext(context.Background(), query"
        let generator := writeInsertArgs entity.columns generator
        let generator := generator.write ")"
        let generator := generator.writeLine []
        let generator := generator.endBlock []
        .ok { context with generator := generator, sqlBuilder := sqlBuilder }
    | _ :: _ => .error (newArgError context insertModelCall)

/-! ## The example package (`example/account/account.go`) -/

/-- The table extracted from `type User struct { UserID string; UserName string;
Sex byte }`: no annotations, so each physical name is the logical name. -/
def exampleUser : table :=
  { name := "User", tableName := "User", doc := ["// 定义模型"],
    columns := [
      { name := "UserID", columnName := "UserID", tag := "", sysType := "string",
        isNull := false, isIdentity := false },
      { name := "UserName", columnName := "UserName", tag := "", sysType := "string",
        isNull := false, isIdentity := false },
      { name := "Sex", columnName := "Sex", tag := "", sysType := "byte",
        isNull := false, isIdentity := false }] }

/-- The context of the example after the declarations are read: the entity
`user` bound to `User`, nothing emitted yet. -/
def exampleContext : parseContext :=
  { entity := [("user", exampleUser)], tables := [exampleUser],
    generator := newGenerator, sqlBuilder := newDefaultSQLBuilder }

/-- The call statement `sqlcodegen.<name>(args)` at position `pos`. -/
def dslCall (pos : Nat) (name : String) (args : List Expr) : Stmt :=
  .exprCall { pos := pos, «fun» := .selector (.ident "sqlcodegen") name, args := args }

/-- The member access `user.<field>`. -/
def userField (field : String) : Expr := .selector (.ident "user") field

/-- The function `DeleteUser` of the example: `Delete(user)` and
`Where(user.UserID == userID && user.Sex == 0)`. -/
def exampleDeleteUser : FuncDecl :=
  { name := "DeleteUser", doc := [],
    params := [{ names := ["userID"], type := .ident "string" }],
    body := [
      dslCall 1 "Delete" [.ident "user"],
      dslCall 2 "Where" [.binary (.binary (userField "UserID") "==" (.ident "userID")) "&&"
        (.binary (userField "Sex") "==" (.basicLit .INT "0"))]] }

/-- The predicate `user.UserID == userID`. -/
def userIDEquals : Expr := .binary (userField "UserID") "==" (.ident "userID")

/-- The column expression of the column `name` of `User`. -/
def userColumn (name sysType : String) : SQLExpression :=
  .column { tableName := "User", columnName := name,
            source := { name := name, columnName := name, tag := "", sysType := sysType,
                        isNull := false, isIdentity := false } }

/-- The function `DeleteUser` with its predicate in parentheses:
`Delete(user)` and `Where((user.UserID == userID))`. -/
def parenDeleteUser : FuncDecl :=
  { name := "DeleteUser", doc := [],
    params := [{ names := ["userID"], type := .ident "string" }],
    body := [dslCall 1 "Delete" [.ident "user"],
             dslCall 2 "Where" [.paren userIDEquals]] }

/-- A select function with its predicate in parentheses: `From(user)`,
`SelectAll(user)` and `Where((user.UserID == userID))`. -/
def parenGetUser : FuncDecl :=
  { name := "GetUser", doc := [],
    params := [{ names := ["userID"], type := .ident "string" }],
    body := [dslCall 1 "From" [.ident "user"],
             dslCall 2 "SelectAll" [.ident "user"],
             dslCall 3 "Where" [.paren userIDEquals]] }

/-- The parameters of `UpdateUser(userID string, userName string, sex byte)`. -/
def updateUserParams : List Field :=
  [{ names := ["userID"], type := .ident "string" },
   { names := ["userName"], type := .ident "string" },
   { names := ["sex"], type := .ident "byte" }]

/-- The function `UpdateUser` of the example: `From(user)`,
`Update(user.UserName, userName)`, `Update(user.Sex, sex)` and
`Where(user.UserID == userID)`. -/
def exampleUpdateUser : FuncDecl :=
  { name := "UpdateUser", doc := [], params := updateUserParams,
    body := [dslCall 1 "From" [.ident "user"],
             dslCall 2 "Update" [userField "UserName", .ident "userName"],
             dslCall 3 "Update" [userField "Sex", .ident "sex"],
             dslCall 4 "Where" [userIDEquals]] }

/-- The function `UpdateUser` with its predicate in parentheses:
`Where((user.UserID == userID))`. -/
def parenUpdateUser : FuncDecl :=
  { exampleUpdateUser with
    body := [dslCall 1 "From" [.ident "user"],
             dslCall 2 "Update" [userField "UserName", .ident "userName"],
             dslCall 3 "Update" [userField "Sex", .ident "sex"],
             dslCall 4 "Where" [.paren userIDEquals]] }

/-! ## Specification-side definitions -/

/-- The `Parameter` nodes met in a left-to-right depth-first walk of the whole
expression tree, as the specification words it (written from the
specification, to be compared with `getSqlParamListFromExpression`). -/
def parameterNodes : SQLExpression → List SQLParameterExpression
  | .parameter inst => [inst]
  | .binary left _ right => parameterNodes left ++ parameterNodes right
  | .parenthesis target => parameterNodes target
  | .literal _ => []
  | .column _ => []
  | .order _ => []

/-- The `Parameter` nodes of a possibly absent predicate. -/
def predicateParameterNodes : Option SQLExpression → List SQLParameterExpression
  | none => []
  | some e => parameterNodes e

/-- The right-hand side of an assignment of an update list. -/
def assignmentValue : SQLExpression → Option SQLExpression
  | .binary _ _ right => some right
  | _ => none

/-- The parameter order the specification gives for an update statement: the
`Parameter` nodes of the assignment right-hand sides, then those of the
predicate. -/
def updateParameterNodes (stmt : SQLUpdateStatement) : List SQLParameterExpression :=
  (stmt.updateList.filterMap assignmentValue).flatMap parameterNodes
    ++ predicateParameterNodes stmt.where

/-- No `Parenthesis` node occurs in the tree. -/
def parenFree : SQLExpression → Bool
  | .binary left _ right => parenFree left && parenFree right
  | .parenthesis _ => false
  | _ => true

/-- The number of `?` characters of an SQL text. -/
def placeholderCount (sql : String) : Nat :=
  sql.data.count '?'

/-- The operator mapping of the specification: `!=` to `<>`, `&&` to `AND`,
`||` to `OR`, `==` to `=`, every other operator unchanged. -/
def mappedOperator (op : String) : String :=
  if op = "!=" then "<>"
  else if op = "&&" then "AND"
  else if op = "||" then "OR"
  else if op = "==" then "="
  else op

/-- The text the default builder writes for an expression, from an empty
buffer. -/
def render (e : SQLExpression) : String :=
  (newDefaultSQLBuilder.WriteSQLExpression e).String'

/-- The text of an expression, by structural recursion (proved equal to what
`WriteSQLExpression` appends to the buffer). -/
def expressionText : SQLExpression → String
  | .literal inst => escapeQuotes inst.value
  | .parenthesis target => "(" ++ expressionText target ++ ")"
  | .column inst => inst.columnName
  | .parameter _ => "?"
  | .binary left op right =>
    expressionText left ++ " " ++ mappedOperator op ++ " " ++ expressionText right
  | .order inst => inst.column.columnName ++ (if inst.isDescending then " DESC" else "")

/-- The select function of the end-to-end scenario: `From(user)`,
`SelectAll(user)` and `Where(user.UserID == userID)`, with the parameter
`userID string` and no `SetReturnType` call. -/
def scenarioGetUser : FuncDecl :=
  { name := "GetUser", doc := [],
    params := [{ names := ["userID"], type := .ident "string" }],
    body := [dslCall 1 "From" [.ident "user"],
             dslCall 2 "SelectAll" [.ident "user"],
             dslCall 3 "Where" [userIDEquals]] }

/-- The SQL text of the select statement a select function is interpreted to. -/
def selectSqlText (context : parseContext) (funcDecl : FuncDecl) : Except GenError String :=
  (interpretSelect context funcDecl).map
    (fun plan => (context.sqlBuilder.Reset.WriteSelectStatement plan.selectStmt).String')

/-- The SQL text of the delete statement a delete function is interpreted to. -/
def deleteSqlText (context : parseContext) (funcDecl : FuncDecl) : Except GenError String :=
  (interpretDelete context funcDecl).map
    (fun stmt => (context.sqlBuilder.Reset.WriteDeleteStatement stmt).String')

/-- The column expression of a column of a table, as the interpreters build it. -/
def columnExpression (entity : table) (col : column) : SQLExpression :=
  .column { tableName := entity.tableName, columnName := col.columnName, source := col }

/-- A member access `entity.Column` resolving to a column of a bound entity,
as the specification words it: the entity name is bound to a table and the
field is the logical name of one of its columns. -/
def resolveColumn (context : parseContext) : Expr → Option SQLExpression
  | .selector (.ident entityName) field =>
    match context.entity.lookup entityName with
    | some entity =>
      match entity.getColumn field with
      | some col => some (columnExpression entity col)
      | none => none
    | none => none
  | _ => none

/-- The function `GetUserList` of the example: `From(user)`,
`Select(user.UserID, user.UserName)` and `Where(user.Sex == 0)`. -/
def exampleGetUserList : FuncDecl :=
  { name := "GetUserList", doc := [], params := [],
    body := [dslCall 1 "From" [.ident "user"],
             dslCall 2 "Select" [userField "UserID", userField "UserName"],
             dslCall 3 "Where" [.binary (userField "Sex") "==" (.basicLit .INT "0")]] }

/-- A select function with calls around `SelectAll`: `OrderBy(user.Sex)`,
`Where(user.UserID == userID)`, `SelectAll(user)`, `From(user)` and
`OrderByDescending(user.UserID)`. -/
def selectAllAmongCalls : FuncDecl :=
  { name := "GetSorted", doc := [],
    params := [{ names := ["userID"], type := .ident "string" }],
    body := [dslCall 1 "OrderBy" [userField "Sex"],
             dslCall 2 "Where" [userIDEquals],
             dslCall 3 "SelectAll" [.ident "user"],
             dslCall 4 "From" [.ident "user"],
             dslCall 5 "OrderByDescending" [userField "UserID"]] }

/-- The function `InsertUser` of the example: `InsertAll(user)`. -/
def exampleInsertUser : FuncDecl :=
  { name := "InsertUser", doc := [], params := [],
    body := [dslCall 1 "InsertAll" [.ident "user"]] }

/-- The call `sqlcodegen.<name>(args)` at position `pos`. -/
def dslCallExpr (pos : Nat) (name : String) (args : List Expr) : CallExpr :=
  { pos := pos, «fun» := .selector (.ident "sqlcodegen") name, args := args }

/-- The plan `interpretSelect` returns for `selectAllAmongCalls`. -/
def selectAllAmongCallsPlan : SelectPlan :=
  { selectStmt :=
      { selectList := [userColumn "UserID" "string", userColumn "UserName" "string",
                       userColumn "Sex" "byte"],
        table := "User",
        «where» := some (.binary (userColumn "UserID" "string") "==" (.parameter ⟨"userID"⟩)),
        orderByList :=
          [{ column := { tableName := "User", columnName := "Sex",
                         source := { name := "Sex", columnName := "Sex", tag := "",
                                     sysType := "byte", isNull := false,
                                     isIdentity := false } },
             isDescending := false },
           { column := { tableName := "User", columnName := "UserID",
                         source := { name := "UserID", columnName := "UserID", tag := "",
                                     sysType := "string", isNull := false,
                                     isIdentity := false } },
             isDescending := true }] },
    returnTypeFlag := .ReturnRecordSet,
    funcReturnList := [{ names := [], type := .ident "[]*User" }],
    returnElementType := "User",
    chanBufferSize := 0 }

/-- The plan `interpretSelect` returns for `exampleGetUserList`. -/
def exampleGetUserListPlan : SelectPlan :=
  { selectStmt :=
      { selectList := [userColumn "UserID" "string", userColumn "UserName" "string"],
        table := "User",
        «where» := some (.binary (userColumn "Sex" "byte") "==" (.literal ⟨"0"⟩)) },
    returnTypeFlag := .ReturnRecordSet,
    funcReturnList := [{ names := [], type := .ident "[]*User" }],
    returnElementType := "User",
    chanBufferSize := 0 }

/-- The indentation written at the start of a line at a given level. -/
def indentText (level : Int) (settings : generatorSettings) : String :=
  String.join (List.replicate level.toNat settings.indent)

/-- What `write` puts before its text: the indentation when the generator is
at the start of a line, nothing otherwise. -/
def lineStart (g : codeGenerator) : String :=
  if g.newLine then indentText g.indentLevel g.settings else ""

/-- The failure condition of the translator as the specification words it: the
expression holds, at any depth under parentheses and binary operators, an
identifier that is not a parameter name, a member access that does not resolve
to a column of a bound entity, or a node that is none of identifier, literal,
member access, parenthesis and binary expression. -/
def hasUntranslatableNode (context : parseContext) (paramNames : List (String × Nat)) :
    Expr → Bool
  | .ident name => (paramNames.lookup name).isNone
  | .basicLit _ _ => false
  | .selector x sel => (resolveColumn context (.selector x sel)).isNone
  | .paren x => hasUntranslatableNode context paramNames x
  | .binary x _ y =>
    hasUntranslatableNode context paramNames x || hasUntranslatableNode context paramNames y
  | .other => true

/-- A delete function whose predicate names an identifier that is not a
parameter: `Delete(user)` and `Where(user.UserID == someID)`. -/
def whereUnknownIdentifier : FuncDecl :=
  { name := "DeleteUser", doc := [],
    params := [{ names := ["userID"], type := .ident "string" }],
    body := [dslCall 1 "Delete" [.ident "user"],
             dslCall 2 "Where" [.binary (userField "UserID") "==" (.ident "someID")]] }

/-- The statement `sqlcodegen.SetReturnType(sqlcodegen.<mode>)` at position `pos`. -/
def setReturnTypeStmt (pos : Nat) (x y : Expr) (mode : String) : Stmt :=
  .exprCall { pos := pos, «fun» := .selector x "SetReturnType", args := [.selector y mode] }

/-- The scan state with another return mode. -/
def SelectScan.withReturnType (st : SelectScan) (flag : ReturnType) : SelectScan :=
  { st with returnTypeFlag := flag }

/-- The text `genSelectFunction` emits for the scenario function `GetUser`
without `SetReturnType`. -/
def scenarioGetUserText : String :=
  "func GetUser(db sqlutil.DbObject, userID string) ([]*User, error) \x7b\r\n"
    ++ "\tconst query = \"SELECT UserID, UserName, Sex\\nFROM User\\nWHERE UserID = ?\\n\"\r\n"
    ++ "\trows, err := db.QueryContext(context.Background(), query, userID)\r\n"
    ++ "\tif err != nil \x7b\r\n"
    ++ "\t\treturn nil, err\r\n"
    ++ "\t\x7d\r\n"
    ++ "\tdefer rows.Close()\r\n"
    ++ "\tvar result []*User\r\n"
    ++ "\tfor rows.Next() \x7b\r\n"
    ++ "\t\tvar o = new(User)\r\n"
    ++ "\t\trows.Scan(&o.UserID, &o.UserName, &o.Sex)\r\n"
    ++ "\t\tresult = append(result, o)\r\n"
    ++ "\t\x7d\r\n"
    ++ "\treturn result, nil\r\n"
    ++ "\x7d\r\n"

/-- The parameter names a function declares, as the specification words it:
every name of every field of the parameter list. -/
def declaredParameterNames (funcDecl : FuncDecl) : List String :=
  funcDecl.params.flatMap (fun field => field.names)

/-- A select function whose two parameters share one type:
`func GetUser(a, b string)` with `From(user)`, `SelectAll(user)` and
`Where(user.UserID == b)`. -/
def sharedTypeGetUser : FuncDecl :=
  { name := "GetUser", doc := [],
    params := [{ names := ["a", "b"], type := .ident "string" }],
    body := [dslCall 1 "From" [.ident "user"],
             dslCall 2 "SelectAll" [.ident "user"],
             dslCall 3 "Where" [.binary (userField "UserID") "==" (.ident "b")]] }

/-- A select function with the given argument list of `SetReturnType`:
`From(user)`, `SelectAll(user)` and `SetReturnType(args)`. -/
def selectWithReturnType (args : List Expr) : FuncDecl :=
  { name := "GetUsers", doc := [], params := [],
    body := [dslCall 1 "From" [.ident "user"],
             dslCall 2 "SelectAll" [.ident "user"],
             dslCall 3 "SetReturnType" args] }

/-- A select function in channel mode with the given argument list of
`SetChannelBufferSize`: `From(user)`, `SelectAll(user)`,
`SetReturnType(ReturnRecordChannel)` and `SetChannelBufferSize(args)`. -/
def selectWithBufferSize (args : List Expr) : FuncDecl :=
  { name := "StreamUsers", doc := [], params := [],
    body := [dslCall 1 "From" [.ident "user"],
             dslCall 2 "SelectAll" [.ident "user"],
             dslCall 3 "SetReturnType" [.selector (.ident "sqlcodegen") "ReturnRecordChannel"],
             dslCall 4 "SetChannelBufferSize" args] }

/-- The return mode and the channel buffer size a select function is
interpreted to. -/
def selectModeAndBuffer (context : parseContext) (funcDecl : FuncDecl) :
    Except GenError (ReturnType × Int) :=
  (interpretSelect context funcDecl).map
    (fun plan => (plan.returnTypeFlag, plan.chanBufferSize))

/-! ## The generator dispatch of `Compile` (`gen.go`) -/

/-- The call `strings.HasPrefix(s, start)`. -/
def stringsHasPrefix (s start : String) : Bool :=
  start.data.isPrefixOf s.data

/-- The loop `CheckSqlMethodLoop` of `Compile` over the calls of one function
declaration: the first call whose name starts with `Insert`, `Select`,
`Delete` or `Update` runs its generator and ends the loop; every other call
is skipped. -/
def checkSqlMethodLoop (context : parseContext) (inst : FuncDecl) :
    List CallExpr → Except GenError parseContext
  | [] => .ok context
  | callExpr :: rest =>
    match callExpr.selName with
    | .error err => .error err
    | .ok methodName =>
      if stringsHasPrefix methodName "Insert" then genInsertFunction context inst
      else if stringsHasPrefix methodName "Select" then genSelectFunction context inst
      else if stringsHasPrefix methodName "Delete" then genDeleteFunction context inst
      else if stringsHasPrefix methodName "Update" then genUpdateFunction context inst
      else checkSqlMethodLoop context inst rest

/-- The body of the last loop of `Compile` for one function declaration. -/
def compileFuncDecl (context : parseContext) (inst : FuncDecl) :
    Except GenError parseContext :=
  checkSqlMethodLoop context inst (getCallExprList inst)

/-- The four kinds of statement. -/
inductive StatementKind where
  | insert | select | update | delete
deriving DecidableEq, Repr

/-- The kind named by the start of an operation name, as the specification
words it: `Insert`, `Select`, `Update` or `Delete`. -/
def kindNamedBy (methodName : String) : Option StatementKind :=
  ([("Insert", StatementKind.insert), ("Select", .select), ("Update", .update),
    ("Delete", .delete)].find? (fun entry => stringsHasPrefix methodName entry.1)).map
    (fun entry => entry.2)

/-- The kind named by the operation name of a call. -/
def CallExpr.kind (c : CallExpr) : Option StatementKind :=
  match c.fun with
  | .selector _ sel => kindNamedBy sel
  | _ => none

/-- The generator of a kind of statement. -/
def runGenerator (kind : StatementKind) (context : parseContext) (funcDecl : FuncDecl) :
    Except GenError parseContext :=
  match kind with
  | .insert => genInsertFunction context funcDecl
  | .select => genSelectFunction context funcDecl
  | .update => genUpdateFunction context funcDecl
  | .delete => genDeleteFunction context funcDecl

/-- A function whose first call with a statement start is `Delete`, followed
by a `Select`: `Where(user.UserID == userID)`, `Delete(user)` and
`Select(user.UserID)`. -/
def deleteThenSelect : FuncDecl :=
  { name := "DeleteUser", doc := [],
    params := [{ names := ["userID"], type := .ident "string" }],
    body := [dslCall 1 "Where" [userIDEquals],
             dslCall 2 "Delete" [.ident "user"],
             dslCall 3 "Select" [userField "UserID"]] }

/-- A function without a call that starts a statement:
`SetPackageName("account")`. -/
def noStatementCall : FuncDecl :=
  { name := "init", doc := [], params := [],
    body := [dslCall 1 "SetPackageName" [.basicLit .STRING "\"account\""]] }

/-! ## Specification-side definitions: update, ordering and clause texts -/

/-- The expression translates to a `Column`. -/
def translatesToColumn (context : parseContext) (paramNames : List (String × Nat))
    (e : Expr) : Bool :=
  match astToSQLExpression e context paramNames with
  | .ok (.column _) => true
  | _ => false

/-- The expression translates to a `Parameter` or to a `Literal`. -/
def translatesToValue (context : parseContext) (paramNames : List (String × Nat))
    (e : Expr) : Bool :=
  match astToSQLExpression e context paramNames with
  | .ok (.parameter _) => true
  | .ok (.literal _) => true
  | _ => false

/-- The acceptance condition of an `Update` call as the specification words
it: exactly two arguments, the first translating to a `Column` and the second
to a `Parameter` or a `Literal`. -/
def acceptableUpdate (context : parseContext) (paramNames : List (String × Nat))
    (call : CallExpr) : Bool :=
  match call.args with
  | [target, value] =>
    translatesToColumn context paramNames target && translatesToValue context paramNames value
  | _ => false

/-- The assignment `column = value` of an acceptable `Update` call. -/
def updateAssignment (context : parseContext) (paramNames : List (String × Nat))
    (call : CallExpr) : Option SQLExpression :=
  if acceptableUpdate context paramNames call then
    match call.args with
    | [target, value] =>
      match astToSQLExpression target context paramNames,
            astToSQLExpression value context paramNames with
      | .ok left, .ok right => some (.binary left "=" right)
      | _, _ => none
    | _ => none
  else none

/-- The text of an assignment of an update list: `<column> = <value>`. -/
def assignmentText : SQLExpression → String
  | .binary left _ right => render left ++ " = " ++ render right
  | _ => ""

/-- The text of the WHERE clause: nothing without a predicate. -/
def whereClauseText : Option SQLExpression → String
  | none => ""
  | some e => "WHERE " ++ render e ++ "\\n"

/-- The text of an entry of the ORDER BY list: the column, then ` DESC` when
the entry is descending. -/
def orderEntryText (o : SQLOrderExpression) : String :=
  o.column.columnName ++ (if o.isDescending then " DESC" else "")

/-- The text of the ORDER BY clause: nothing for an empty list. -/
def orderByClauseText (orderByList : List SQLOrderExpression) : String :=
  if orderByList.length > 0 then
    "ORDER BY " ++ String.intercalate "," (orderByList.map orderEntryText) ++ "\\n"
  else ""

/-- The call is `OrderBy` or `OrderByDescending`. -/
def CallExpr.isOrderCall (c : CallExpr) : Bool :=
  c.named "OrderBy" || c.named "OrderByDescending"

/-- The ORDER BY entry of an `OrderBy` / `OrderByDescending` call as the
specification words it: the column its first argument resolves to, descending
exactly when the call is `OrderByDescending`. -/
def orderEntry (context : parseContext) (call : CallExpr) : Option SQLOrderExpression :=
  match call.args with
  | arg :: _ =>
    match resolveColumn context arg with
    | some (.column inst) =>
      some { column := inst, isDescending := call.named "OrderByDescending" }
    | _ => none
  | [] => none

/-- An update function whose second `Update` assigns a column to a column:
`From(user)`, `Update(user.UserName, userName)` and
`Update(user.Sex, user.UserID)`. -/
def updateColumnWithColumn : FuncDecl :=
  { name := "UpdateUser", doc := [], params := updateUserParams,
    body := [dslCall 1 "From" [.ident "user"],
             dslCall 2 "Update" [userField "UserName", .ident "userName"],
             dslCall 3 "Update" [userField "Sex", userField "UserID"]] }

/-- The function `GetSortedUserList` of the example: `From(user)`,
`SelectAll(user)`, `OrderBy(user.Sex)` and `OrderByDescending(user.UserID)`. -/
def exampleGetSortedUserList : FuncDecl :=
  { name := "GetSortedUserList", doc := [], params := [],
    body := [dslCall 1 "From" [.ident "user"],
             dslCall 2 "SelectAll" [.ident "user"],
             dslCall 3 "OrderBy" [userField "Sex"],
             dslCall 4 "OrderByDescending" [userField "UserID"]] }

/-- The SQL text of the update statement an update function is interpreted to. -/
def updateSqlText (context : parseContext) (funcDecl : FuncDecl) : Except GenError String :=
  (interpretUpdate context funcDecl).bind (fun stmt =>
    (context.sqlBuilder.Reset.WriteUpdateStatement stmt).map (fun builder => builder.String'))

/-- The update statement `UpdateUser` of the example is interpreted to. -/
def exampleUpdateUserStmt : SQLUpdateStatement :=
  { updateList :=
      [.binary (userColumn "UserName" "string") "=" (.parameter ⟨"userName"⟩),
       .binary (userColumn "Sex" "byte") "=" (.parameter ⟨"sex"⟩)],
    table := "User",
    «where» := some (.binary (userColumn "UserID" "string") "==" (.parameter ⟨"userID"⟩)) }

/-- A function without parameters whose body is the given list of calls
`sqlcodegen.<name>(args)`, numbered from position 1. -/
def functionOfCalls (calls : List (String × List Expr)) : FuncDecl :=
  { name := "F", doc := [], params := [],
    body := calls.enum.map (fun entry => dslCall (entry.1 + 1) entry.2.1 entry.2.2) }

/-! ## The declaration extractor (`gen.go`) -/

/-- A field of a struct type: its names, its type and the text of its tag
literal (`none` when `Tag` is nil). -/
structure StructField where
  names : List String
  type : Expr
  tag : Option String
deriving DecidableEq, Repr

/-- The type of a type specification: a struct type literal with its fields
(`*ast.StructType`), or any other type expression, such as the name of a type
(`int64`, or `User` for a struct type declared elsewhere). -/
inductive TypeExpr where
  | structType (fields : List StructField)
  | other (expr : Expr)
deriving DecidableEq, Repr

/-- A node `*ast.TypeSpec`. -/
structure TypeSpec where
  name : String
  type : TypeExpr
deriving DecidableEq, Repr

/-- A node `*ast.GenDecl` with the token `type`: its position, the lines of its
doc comment and its specifications (one, or several in a grouped block). -/
structure TypeDecl where
  pos : Nat
  doc : List String
  specs : List TypeSpec
deriving DecidableEq, Repr

/-- A node `*ast.ValueSpec`: the declared names and the declared type
(`Expr.other` when there is none). -/
structure ValueSpec where
  names : List String
  type : Expr
deriving DecidableEq, Repr

/-- A node `*ast.GenDecl` with the token `var`. -/
structure VarDecl where
  specs : List ValueSpec
deriving DecidableEq, Repr

/-- A top-level declaration of the source unit. -/
inductive Decl where
  | typeDecl (d : TypeDecl)
  | varDecl (d : VarDecl)
  | funcDecl (d : FuncDecl)
  | other
deriving DecidableEq, Repr

/-- Function `getTypeName`. -/
def getTypeName : Expr → String
  | .ident name => name
  | .selector x sel => getTypeName x ++ "." ++ sel
  | _ => ""

/-- The call `strings.HasSuffix(s, ending)`. -/
def stringsHasSuffix (s ending : String) : Bool :=
  ending.data.reverse.isPrefixOf s.data.reverse

/-- The predicate `unicode.IsSpace`. -/
def unicodeIsSpace (c : Char) : Bool :=
  c = ' ' || c = '\t' || c = '\n' || c = '\r' || c.toNat = 0x0B || c.toNat = 0x0C
    || c.toNat = 0x85 || c.toNat = 0xA0 || c.toNat = 0x1680
    || (0x2000 ≤ c.toNat && c.toNat ≤ 0x200A) || c.toNat = 0x2028 || c.toNat = 0x2029
    || c.toNat = 0x202F || c.toNat = 0x205F || c.toNat = 0x3000

/-- The loop of `strings.Fields`: `word` holds, reversed, the characters of the
field being read. -/
def fieldsFrom : List Char → List Char → List (List Char)
  | [], word => if word = [] then [] else [word.reverse]
  | c :: cs, word =>
    if unicodeIsSpace c then
      if word = [] then fieldsFrom cs [] else word.reverse :: fieldsFrom cs []
    else fieldsFrom cs (c :: word)

/-- The call `strings.Fields(code)`: the maximal runs of characters that are
not white space. -/
def stringsFields (code : String) : List (List Char) :=
  fieldsFrom code.data []

/-- The class `\w` of the regular expression: ASCII letters, digits and `_`. -/
def isWordChar (c : Char) : Bool :=
  c.isAlphanum || c = '_'

/-- A match of the regular expression `(\w+):"(.+)"` that starts at the head
of the text: the longest run of word characters, then `:"`, then the longest
non-empty text that is followed by a `"`. The text is a field of
`strings.Fields` and so has no line break, which `.` would not match. -/
def matchTagAt (cs : List Char) : Option (List Char × List Char) :=
  match cs.takeWhile isWordChar, cs.dropWhile isWordChar with
  | _ :: _, ':' :: '"' :: rest =>
    match rest.reverse.dropWhile (fun c => c != '"') with
    | _ :: valueReversed =>
      if valueReversed = [] then none
      else some (cs.takeWhile isWordChar, valueReversed.reverse)
    | [] => none
  | _, _ => none

/-- The call `reg.FindStringSubmatch(t)` for `(\w+):"(.+)"`: the two groups of
the leftmost match, or `none` when there is no match. -/
def findTag : List Char → Option (List Char × List Char)
  | [] => none
  | c :: cs =>
    match matchTagAt (c :: cs) with
    | some kv => some kv
    | none => findTag cs

/-- Function `getTags`: the map from key to value of the fields of the tag text
that match; a later field replaces an earlier one with the same key. -/
def getTags (code : String) : List (String × String) :=
  (stringsFields code).foldl (fun result t =>
    match findTag t with
    | some kv => (String.mk kv.1, String.mk kv.2) :: result
    | none => result) []

/-- The column `addTable` builds for a field with first name `name`. -/
def newColumn (field : StructField) (name : String) : column :=
  let sysType : String :=
    match field.type with
    | .ident typeName => typeName
    | .selector x sel => getTypeName (.selector x sel)
    | _ => ""
  let isNull : Bool :=
    match field.type with
    | .selector _ sel => stringsHasPrefix sel "Null"
    | _ => false
  let isIdentity : Bool :=
    match field.tag with
    | some tag => (getTags tag).lookup "identity" = some "true"
    | none => false
  let columnName : String :=
    match field.tag with
    | some tag => ((getTags tag).lookup "name").getD ""
    | none => ""
  let tag : String := field.tag.getD ""
  { name := name, columnName := if columnName = "" then name else columnName, tag := tag,
    sysType := sysType, isNull := isNull, isIdentity := isIdentity }

/-- The table name a field sets: the `tableName` value of its tag when the
name of its type ends in `TableName` and the field has a tag. -/
def tableNameOfField (field : StructField) : Option String :=
  if stringsHasSuffix (getTypeName field.type) "TableName" then
    match field.tag with
    | some tag => (getTags tag).lookup "tableName"
    | none => none
  else none

/-- The body of the loop of `addTable` over the fields of a struct type;
`field.Names[0]` of a field without names is an index out of range. -/
def tableFieldStep (field : StructField) (t : table) : Except GenError table :=
  match tableNameOfField field with
  | some name => .ok { t with tableName := name }
  | none =>
    match field.names with
    | [] => .error .fault
    | name :: _ => .ok { t with columns := t.columns ++ [newColumn field name] }

/-- The body of the loop of `addTable` over the specifications of the
declaration, on the one `table` value created before the loop. -/
def tableSpecStep (genDecl : TypeDecl) (typeSpec : TypeSpec) (t : table) :
    Except GenError table :=
  let t := { t with name := typeSpec.name, doc := genDecl.doc }
  match typeSpec.type with
  | .other _ => .error (.typeDefError typeSpec.name genDecl.pos)
  | .structType fields =>
    match forRangeM tableFieldStep fields { t with columns := [] } with
    | .error err => .error err
    | .ok t => .ok (if t.tableName = "" then { t with tableName := t.name } else t)

/-- The table `addTable` has built when its loop ends. -/
def buildTable (genDecl : TypeDecl) : Except GenError table :=
  forRangeM (tableSpecStep genDecl) genDecl.specs
    { name := "", tableName := "", doc := [], columns := [] }

/-- Function `addTable`: the context after the call and the error returned
(`none` for nil). The table is appended only when the loop has ended without
error. -/
def addTable (context : parseContext) (genDecl : TypeDecl) : parseContext × Option GenError :=
  match buildTable genDecl with
  | .error err => (context, some err)
  | .ok t => ({ context with tables := context.tables ++ [t] }, none)

/-- The first loop of `Compile`: `addTable` for every type declaration, ended
by the first error. -/
def addTables (context : parseContext) : List Decl → parseContext × Option GenError
  | [] => (context, none)
  | .typeDecl inst :: rest =>
    match addTable context inst with
    | (context, some err) => (context, some err)
    | (context, none) => addTables context rest
  | _ :: rest => addTables context rest

/-- The loop of `addEntity` over the specifications: the first specification
whose type is the name of a table binds its first name and ends the function. -/
def addEntitySpecs (context : parseContext) : List ValueSpec → Except GenError parseContext
  | [] => .ok context
  | varSpec :: rest =>
    match context.tables.find? (fun t => t.name == getTypeName varSpec.type) with
    | some t =>
      match varSpec.names with
      | name :: _ => .ok { context with entity := (name, t) :: context.entity }
      | [] => .error .fault
    | none => addEntitySpecs context rest

/-- Function `addEntity`. -/
def addEntity (context : parseContext) (genDecl : VarDecl) : Except GenError parseContext :=
  addEntitySpecs context genDecl.specs

/-- The loop of `Compile` that calls `addEntity` for every variable
declaration. -/
def addEntities (context : parseContext) : List Decl → Except GenError parseContext
  | [] => .ok context
  | .varDecl inst :: rest =>
    match addEntity context inst with
    | .error err => .error err
    | .ok context => addEntities context rest
  | _ :: rest => addEntities context rest

/-- A context with no table, no entity and nothing emitted. -/
def emptyContext : parseContext :=
  { entity := [], tables := [], generator := newGenerator, sqlBuilder := newDefaultSQLBuilder }

/-- The field `<name> <typeName>` without tag. -/
def plainField (name typeName : String) : StructField :=
  { names := [name], type := .ident typeName, tag := none }

/-- The field `UserID int64` with a tag literal. -/
def taggedField (tag : String) : StructField :=
  { names := ["UserID"], type := .ident "int64", tag := some tag }

/-- The field `_ sqlcodegen.TableName`, with or without a tag literal. -/
def markerField (tag : Option String) : StructField :=
  { names := ["_"], type := .selector (.ident "sqlcodegen") "TableName", tag := tag }

/-- A table value with a name and one column, on which the steps of `addTable`
are evaluated. -/
def startedTable : table :=
  { name := "User", tableName := "", doc := [],
    columns := [newColumn (plainField "UserName" "string") "UserName"] }

/-- The entry a field of the tag text adds to the map of `getTags` under `key`:
the second group of the match of the field when the first group is `key`. -/
def matchedValueOfField (key : String) (t : List Char) : Option String :=
  match findTag t with
  | some kv => if String.mk kv.1 = key then some (String.mk kv.2) else none
  | none => none

/-- The value the map of `getTags` holds under `key`, read off the loop of
`getTags`: the entry of the last field of `strings.Fields` that adds one under
this key. This describes the code; the metadata grammar of the specification
is `annotatedValue`. -/
def matchedValue (tag key : String) : Option String :=
  (stringsFields tag).reverse.findSome? (matchedValueOfField key)

/-- The map `getTags` builds from the fields of a tag text. -/
def tagsOfFields (fields : List (List Char)) (result : List (String × String)) :
    List (String × String) :=
  fields.foldl (fun result t =>
    match findTag t with
    | some kv => (String.mk kv.1, String.mk kv.2) :: result
    | none => result) result

/-- The columns of the fields of a struct type: one column, named by the first
name of the field, for every field that does not set the table name. -/
def columnsOfFields (fields : List StructField) : List column :=
  fields.filterMap (fun field =>
    match tableNameOfField field with
    | some _ => none
    | none => field.names.head?.map (newColumn field))

/-- The table name set by the fields of a struct type: the one of the last
field that sets it, or `init` when no field does. -/
def tableNameOfFields (fields : List StructField) (init : String) : String :=
  fields.foldl (fun acc field => (tableNameOfField field).getD acc) init

/-- Whether a field gives what the loop of `addTable` reads from it: it sets the
table name, or it has a name (an embedded field has none). -/
def fieldNamed (field : StructField) : Bool :=
  (tableNameOfField field).isSome || !field.names.isEmpty

/-- Whether the type of a specification is written as a struct type literal. -/
def isStructSpec (typeSpec : TypeSpec) : Bool :=
  match typeSpec.type with
  | .structType _ => true
  | .other _ => false

/-- Whether a specification has no embedded field among the fields that become
columns. -/
def specNamed (typeSpec : TypeSpec) : Bool :=
  match typeSpec.type with
  | .structType fields => fields.all fieldNamed
  | .other _ => true

/-- The declaration `type User struct` of the example, at position 8. -/
def userType : TypeDecl :=
  { pos := 8, doc := ["// 定义模型"],
    specs := [{ name := "User",
                type := .structType [plainField "UserID" "string",
                  plainField "UserName" "string", plainField "Sex" "byte"] }] }

/-- The declaration `type Role struct { RoleID int64; _ sqlcodegen.TableName }`
with the tags `name:"role_id" identity:"true"` and `tableName:"t_role"`, at
position 20. -/
def roleType : TypeDecl :=
  { pos := 20, doc := [],
    specs := [{ name := "Role",
                type := .structType [
                  { names := ["RoleID"], type := .ident "int64",
                    tag := some "`name:\"role_id\" identity:\"true\"`" },
                  markerField (some "`tableName:\"t_role\"`")] }] }

/-- The declaration `type UserID int64`, at position 30. -/
def aliasType : TypeDecl :=
  { pos := 30, doc := [], specs := [{ name := "UserID", type := .other (.ident "int64") }] }

/-- The grouped declaration `type ( User struct { UserID string }; Role struct
{ RoleID string } )`, at position 8. -/
def groupedTypes : TypeDecl :=
  { pos := 8, doc := [],
    specs := [{ name := "User", type := .structType [plainField "UserID" "string"] },
              { name := "Role", type := .structType [plainField "RoleID" "string"] }] }

/-- The grouped declaration `type ( User struct { UserID string }; UserID int64
)`, at position 8. -/
def groupedWithAlias : TypeDecl :=
  { pos := 8, doc := [],
    specs := [{ name := "User", type := .structType [plainField "UserID" "string"] },
              { name := "UserID", type := .other (.ident "int64") }] }

/-- The declaration `type Admin User`, at position 50: a type defined by the
name of the struct type `User`. -/
def adminType : TypeDecl :=
  { pos := 50, doc := [], specs := [{ name := "Admin", type := .other (.ident "User") }] }

/-- Whether the underlying type of a declared type is a struct, `structNames`
being the names of the struct types of the source unit: the type is written as
a struct type literal, or as the name of one of these struct types. -/
def underlyingIsStruct (structNames : List String) (typeExpr : TypeExpr) : Bool :=
  match typeExpr with
  | .structType _ => true
  | .other (.ident name) => structNames.contains name
  | .other _ => false

/-- The table `addTable` records for the grouped declaration `groupedTypes`. -/
def groupedTypesTable : table :=
  { name := "Role", tableName := "User", doc := [],
    columns := [{ name := "RoleID", columnName := "RoleID", tag := "", sysType := "string",
                  isNull := false, isIdentity := false }] }

/-- The table of the declaration `roleType`. -/
def exampleRole : table :=
  { name := "Role", tableName := "t_role", doc := [],
    columns := [{ name := "RoleID", columnName := "role_id",
                  tag := "`name:\"role_id\" identity:\"true\"`", sysType := "int64",
                  isNull := false, isIdentity := true }] }

/-- The context after the tables `User` and `Role` are extracted, before any
variable declaration is read. -/
def extractedContext : parseContext :=
  { emptyContext with tables := [exampleUser, exampleRole] }

/-- The declaration `var user User`. -/
def userVar : VarDecl := { specs := [{ names := ["user"], type := .ident "User" }] }

/-- The declaration `var role Role`. -/
def roleVar : VarDecl := { specs := [{ names := ["role"], type := .ident "Role" }] }

/-- The declaration `var count int`. -/
def countVar : VarDecl := { specs := [{ names := ["count"], type := .ident "int" }] }

/-- The grouped declaration `var ( user User; role Role )`. -/
def groupedVars : VarDecl :=
  { specs := [{ names := ["user"], type := .ident "User" },
              { names := ["role"], type := .ident "Role" }] }

/-- The columns of a select list: the source column of every entry that is a
column expression. -/
def selectListColumns (selectList : List SQLExpression) : List column :=
  selectList.filterMap (fun e =>
    match e with
    | .column c => some c.source
    | _ => none)

/-- An entry of a select list as the interpreter builds it: a column
expression whose column name is the physical name of its source column. -/
def isSourceColumn (e : SQLExpression) : Prop :=
  match e with
  | .column c => c.columnName = c.source.columnName
  | _ => False

/-- The targets of the call `rows.Scan(`: `&o.` and the logical name of each
column, separated by `, `. -/
def scanTargetsText (cols : List column) : String :=
  String.intercalate ", " (cols.map (fun col => "&o." ++ col.name))

/-- The text `writeFuncType` writes for a field: the first name and a blank
when the field has names, then what `writeExpr` writes for the type. -/
def fieldText (field : Field) : String :=
  (match field.names with
    | name :: _ => name ++ " "
    | [] => "") ++ getTypeName field.type

/-- The text of a type that is a name or a qualified name; `none` for every
other type expression. -/
def typeText : Expr → Option String
  | .ident name => some name
  | .selector x sel => (typeText x).map (fun t => t ++ "." ++ sel)
  | _ => none

/-- The text `name type` of a parameter declaration with one name and a type
that is a name or a qualified name; `none` for every other declaration. -/
def parameterText (field : Field) : Option String :=
  match field.names, typeText field.type with
  | [name], some t => some (name ++ " " ++ t)
  | _, _ => none

/-- The result list of an accessor: the result types followed by `error`, in
parentheses when `error` is not the only result. -/
def resultListText (results : List String) : String :=
  if results = [] then "error"
  else "(" ++ String.intercalate ", " (results ++ ["error"]) ++ ")"

/-- The header of an accessor: `func`, the name, the parameter list that
starts with `db sqlutil.DbObject`, the result list and the opening brace. -/
def headerText (funcName : String) (parameters results : List String) : String :=
  "func " ++ funcName ++ "("
    ++ String.intercalate ", " ("db sqlutil.DbObject" :: parameters) ++ ") "
    ++ resultListText results ++ " \x7b"

/-- The lines of a doc comment written at an indentation level. -/
def docText (doc : List String) (level : Int) (settings : generatorSettings) : String :=
  String.join (doc.map (fun text => indentText level settings ++ text ++ settings.line))

/-- The second generator holds the text of the first and, after it, more text. -/
def codeGenerator.extendedBy (g g' : codeGenerator) : Prop :=
  ∃ more : String, g'.writer = g.writer ++ more

/-- A function `ListUsers(a, b string)` whose body is `From(user)`,
`SelectAll(user)` and `Where(user.UserID == a)`: two parameters declared with
one type. -/
def sharedTypeListUsers : FuncDecl :=
  { name := "ListUsers", doc := [],
    params := [{ names := ["a", "b"], type := .ident "string" }],
    body := [dslCall 1 "From" [.ident "user"], dslCall 2 "SelectAll" [.ident "user"],
             dslCall 3 "Where" [.binary (userField "UserID") "==" (.ident "a")]] }

/-- The declaration `type Pair struct { A, B string; C int }`: one field
declaration with two names and one with one name. -/
def pairType : TypeDecl :=
  { pos := 40, doc := [],
    specs := [{ name := "Pair",
                type := .structType [
                  { names := ["A", "B"], type := .ident "string", tag := none },
                  plainField "C" "int"] }] }

/-- The names a struct type declares for columns: every name of every field
that does not set the table name, in declaration order. -/
def declaredColumnNames (fields : List StructField) : List String :=
  fields.flatMap (fun field =>
    match tableNameOfField field with
    | some _ => []
    | none => field.names)

/-- The first name of every field that does not set the table name, in
declaration order. -/
def firstColumnNames (fields : List StructField) : List String :=
  fields.flatMap (fun field =>
    match tableNameOfField field with
    | some _ => []
    | none => field.names.take 1)

/-- The text of a literal with a backslash put before every double quote, one
character after the other. -/
def escapedText : List Char → List Char
  | [] => []
  | c :: cs => if c = '"' then '\\' :: '"' :: escapedText cs else c :: escapedText cs

/-- A select function whose predicate compares a column with a literal:
`From(user)`, `SelectAll(user)` and `Where(user.UserName == <literal>)`. -/
def selectWhereLiteral (kind : LitKind) (value : String) : FuncDecl :=
  { name := "FindUsers", doc := [], params := [],
    body := [dslCall 1 "From" [.ident "user"],
             dslCall 2 "SelectAll" [.ident "user"],
             dslCall 3 "Where" [.binary (userField "UserName") "==" (.basicLit kind value)]] }

/-- The argument `sqlcodegen.<mode>` of `SetReturnType`. -/
def returnModeArg (mode : String) : Expr := .selector (.ident "sqlcodegen") mode

/-- A context with the tables `User` and `Role` extracted and the entities
`user` and `role` bound to them. -/
def twoEntityContext : parseContext :=
  { entity := [("role", exampleRole), ("user", exampleUser)],
    tables := [exampleUser, exampleRole],
    generator := newGenerator, sqlBuilder := newDefaultSQLBuilder }

/-- The characters of the value of a tag literal, `none` when the text is not
a string literal: a raw literal gives the text between its back quotes, an
interpreted literal the text between its double quotes with the escapes `\"`
and `\\` resolved (other escapes are left as written). -/
def tagLiteralValue (literal : List Char) : Option (List Char) :=
  let resolve : List Char → List Char := fun cs =>
    (cs.foldl (fun (state : List Char × Bool) c =>
      if state.2 then
        (if c = '"' ∨ c = '\\' then c :: state.1 else c :: '\\' :: state.1, false)
      else if c = '\\' then (state.1, true)
      else (c :: state.1, false)) ([], false)).1.reverse
  match literal with
  | '`' :: rest =>
    if rest.getLast? = some '`' then some rest.dropLast else none
  | '"' :: rest =>
    if rest.getLast? = some '"' then some (resolve rest.dropLast) else none
  | _ => none

/-- The tokens of a metadata text: its parts between white space. -/
def metadataTokens (text : List Char) : List (List Char) :=
  (text.splitOnP (fun c => c.isWhitespace)).filter (fun token => token ≠ [])

/-- A token of the form `key:"value"`: the key is the text before the first
colon and is not empty, and the rest is a value without double quote between
two double quotes. -/
def tokenKeyValue (token : List Char) : Option (List Char × List Char) :=
  let key := token.takeWhile (fun c => c != ':')
  match token.dropWhile (fun c => c != ':') with
  | ':' :: '"' :: rest =>
    if key ≠ [] ∧ '"' ∉ key ∧ rest.getLast? = some '"' ∧ '"' ∉ rest.dropLast then
      some (key, rest.dropLast)
    else none
  | _ => none

/-- The value of the annotation with a key in the metadata of a field, as the
metadata grammar words it: the value of the tag literal is split into tokens at
white space, a token `key:"value"` is an annotation, and the last annotation
with the key gives the value. -/
def annotatedValue (literal key : String) : Option String :=
  match tagLiteralValue literal.data with
  | none => none
  | some text =>
    (metadataTokens text).reverse.findSome? (fun token =>
      match tokenKeyValue token with
      | some kv => if String.mk kv.1 = key then some (String.mk kv.2) else none
      | none => none)

/-! ## Theorems: parameter lists -/

set_option maxRecDepth 100000

theorem getSqlParamListFromExpression_of_parenFree (e : SQLExpression)
    (h : parenFree e = true) :
    getSqlParamListFromExpression e = parameterNodes e := by
  induction e with
  | binary left op right ihl ihr =>
    simp only [parenFree, Bool.and_eq_true] at h
    simp [getSqlParamListFromExpression, parameterNodes, ihl h.1, ihr h.2]
  | parenthesis target _ => simp [parenFree] at h
  | parameter inst => simp [getSqlParamListFromExpression, parameterNodes]
  | literal inst => simp [getSqlParamListFromExpression, parameterNodes]
  | order inst => simp [getSqlParamListFromExpression, parameterNodes]
  | column inst => simp [getSqlParamListFromExpression, parameterNodes]

/-- C1 (fails on the code): for `Delete(user); Where((user.UserID == userID))`
the predicate of the delete statement is `Parenthesis(UserID == userID)`; the
walk of the whole tree meets the parameter `userID`, but the parameter list of
the delete statement, and of a select statement with the same predicate, is
empty, because `getSqlParamListFromExpression` does not descend into
`Parenthesis` nodes. -/
theorem paramList_misses_parenthesised_parameter :
    interpretDelete exampleContext parenDeleteUser
      = .ok { table := "User",
              «where» := some (.parenthesis
                (.binary (userColumn "UserID" "string") "==" (.parameter ⟨"userID"⟩))) }
    ∧ getDeleteStmtSqlParamList
        { table := "User",
          «where» := some (.parenthesis
            (.binary (userColumn "UserID" "string") "==" (.parameter ⟨"userID"⟩))) } = []
    ∧ getSelectStmtSqlParamList
        { table := "User",
          «where» := some (.parenthesis
            (.binary (userColumn "UserID" "string") "==" (.parameter ⟨"userID"⟩))) } = []
    ∧ predicateParameterNodes
        (some (.parenthesis
          (.binary (userColumn "UserID" "string") "==" (.parameter ⟨"userID"⟩))))
        = [⟨"userID"⟩] := by
  refine ⟨by rfl, by rfl, by rfl, by rfl⟩

/-- C2 (fails on the code): for `From(user); SelectAll(user);
Where((user.UserID == userID))` the rendered SQL text holds one `?`
placeholder, written for the parameter `userID` inside the parentheses, while
the parameter list of the statement is empty: the emitted query call passes no
value for the placeholder. -/
theorem placeholders_exceed_paramList :
    (interpretSelect exampleContext parenGetUser).map
        (fun plan =>
          ((newDefaultSQLBuilder.Reset.WriteSelectStatement plan.selectStmt).String',
           placeholderCount
             (newDefaultSQLBuilder.Reset.WriteSelectStatement plan.selectStmt).String',
           (getSelectStmtSqlParamList plan.selectStmt).length))
      = .ok ("SELECT UserID, UserName, Sex\\nFROM User\\nWHERE (UserID = ?)\\n", 1, 0)
    ∧ (genSelectFunction exampleContext parenGetUser).map (fun c => c.generator.writer)
      = .ok ("func GetUser(db sqlutil.DbObject, userID string) ([]*User, error) \x7b\r\n"
          ++ "\tconst query = \"SELECT UserID, UserName, Sex\\nFROM User\\nWHERE (UserID = ?)\\n\"\r\n"
          ++ "\trows, err := db.QueryContext(context.Background(), query)\r\n"
          ++ "\tif err != nil \x7b\r\n"
          ++ "\t\treturn nil, err\r\n"
          ++ "\t\x7d\r\n"
          ++ "\tdefer rows.Close()\r\n"
          ++ "\tvar result []*User\r\n"
          ++ "\tfor rows.Next() \x7b\r\n"
          ++ "\t\tvar o = new(User)\r\n"
          ++ "\t\trows.Scan(&o.UserID, &o.UserName, &o.Sex)\r\n"
          ++ "\t\tresult = append(result, o)\r\n"
          ++ "\t\x7d\r\n"
          ++ "\treturn result, nil\r\n"
          ++ "\x7d\r\n") := by
  refine ⟨by rfl, by rfl⟩

/-- C3 (fails on the code): for the `UpdateUser` of the example the parameter
list is `[userName, sex, userID]`, but with the predicate written
`Where((user.UserID == userID))` the list is `[userName, sex]` only, although
the predicate holds the parameter `userID` and the SQL text holds three
placeholders. -/
theorem updateParamList_misses_parenthesised_parameter :
    (interpretUpdate exampleContext exampleUpdateUser).bind getUpdateStmtSqlParamList
      = .ok [⟨"userName"⟩, ⟨"sex"⟩, ⟨"userID"⟩]
    ∧ (interpretUpdate exampleContext parenUpdateUser).bind getUpdateStmtSqlParamList
      = .ok [⟨"userName"⟩, ⟨"sex"⟩]
    ∧ (interpretUpdate exampleContext parenUpdateUser).map updateParameterNodes
      = .ok [⟨"userName"⟩, ⟨"sex"⟩, ⟨"userID"⟩]
    ∧ (genUpdateFunction exampleContext parenUpdateUser).map (fun c => c.generator.writer)
      = .ok ("func UpdateUser(db sqlutil.DbObject, userID string, userName string, sex byte) (sql.Result, error) \x7b\r\n"
          ++ "\tconst query = \"UPDATE User\\nSET UserName = ?,Sex = ?\\nWHERE (UserID = ?)\\n\"\r\n"
          ++ "\treturn db.ExecContext(context.Background(), query, userName, sex)\r\n"
          ++ "\x7d\r\n") := by
  refine ⟨by rfl, by rfl, by rfl, by rfl⟩

/-! ## Theorems: the text written by the default builder -/

set_option maxRecDepth 512

theorem join_cons (x : String) (xs : List String) :
    String.join (x :: xs) = x ++ String.join xs := by
  apply String.ext
  simp [String.data_join]

theorem intercalate_go_eq (sep : String) (xs : List String) (acc : String) :
    String.intercalate.go acc sep xs = acc ++ String.join (xs.map (fun x => sep ++ x)) := by
  induction xs generalizing acc with
  | nil => simp [String.intercalate.go, String.join]
  | cons x xs ih =>
    simp only [String.intercalate.go, ih, List.map_cons, join_cons, String.append_assoc]

theorem intercalate_cons (sep x : String) (xs : List String) :
    String.intercalate sep (x :: xs) = x ++ String.join (xs.map (fun y => sep ++ y)) := by
  simp [String.intercalate, intercalate_go_eq]

@[simp] theorem Write_buffer (b : defaultSQLBuilder) (s : String) :
    (b.Write s).buffer = b.buffer ++ s := rfl

/-- A loop that writes `sep` before every item but the first writes the items
joined by `sep`. -/
theorem forRangeFrom_write_sep {α : Type} (sep : String) (f : α → String) (xs : List α) :
    ∀ (i : Nat) (b : defaultSQLBuilder),
      (forRangeFrom (fun i x b => (if i > 0 then b.Write sep else b).Write (f x)) i xs b).buffer
        = b.buffer ++ (if i > 0 then String.join (xs.map (fun x => sep ++ f x))
                       else String.intercalate sep (xs.map f)) := by
  induction xs with
  | nil => intro i b; by_cases h : i > 0 <;> simp [forRangeFrom, h, String.join, String.intercalate]
  | cons x xs ih =>
    intro i b
    simp only [forRangeFrom]
    rw [ih]
    by_cases h : i > 0
    · simp [h, join_cons, String.append_assoc]
    · simp [h, intercalate_cons, String.append_assoc, List.map_map, Function.comp_def]

/-- What `WriteSQLExpression` appends to the buffer. -/
theorem WriteSQLExpression_buffer (e : SQLExpression) :
    ∀ b : defaultSQLBuilder, (b.WriteSQLExpression e).buffer = b.buffer ++ expressionText e := by
  induction e with
  | parameter inst => intro b; rfl
  | literal inst => intro b; rfl
  | column inst => intro b; rfl
  | order inst =>
    intro b
    cases hd : inst.isDescending <;>
      simp [defaultSQLBuilder.WriteSQLExpression, expressionText, hd, String.append_assoc]
  | parenthesis target ih =>
    intro b
    simp only [defaultSQLBuilder.WriteSQLExpression, Write_buffer, ih, expressionText,
      String.append_assoc]
  | binary left op right ihl ihr =>
    intro b
    simp only [defaultSQLBuilder.WriteSQLExpression, expressionText, mappedOperator, ihr,
      Write_buffer]
    split_ifs <;> simp only [Write_buffer, ihl, String.append_assoc]

theorem render_eq_expressionText (e : SQLExpression) : render e = expressionText e := by
  simp only [render, defaultSQLBuilder.String', WriteSQLExpression_buffer, newDefaultSQLBuilder,
    String.empty_append]

/-- C6: the default builder renders `Binary(l, op, r)` as the text of `l`, a
space, the mapped operator, a space and the text of `r`, where `!=`, `&&`, `||`
and `==` are mapped to `<>`, `AND`, `OR` and `=` and every other operator to
itself; it renders `Parenthesis(e)` as `(`, the text of `e` and `)`; and the
text written for an expression is the same whatever was written before it, so
the parentheses enclose the same sub-expression inside any larger tree. -/
theorem render_binary_and_parenthesis :
    (∀ (l r : SQLExpression) (op : String),
      render (.binary l op r) = render l ++ " " ++ mappedOperator op ++ " " ++ render r)
    ∧ (∀ e : SQLExpression, render (.parenthesis e) = "(" ++ render e ++ ")")
    ∧ (∀ (b : defaultSQLBuilder) (e : SQLExpression),
        (b.WriteSQLExpression e).String' = b.String' ++ render e)
    ∧ mappedOperator "!=" = "<>" ∧ mappedOperator "&&" = "AND"
    ∧ mappedOperator "||" = "OR" ∧ mappedOperator "==" = "="
    ∧ (∀ op : String,
        op = "!=" ∨ op = "&&" ∨ op = "||" ∨ op = "==" ∨ mappedOperator op = op) := by
  refine ⟨?_, ?_, ?_, by decide, by decide, by decide, by decide, ?_⟩
  · intro l r op
    simp only [render_eq_expressionText, expressionText, String.append_assoc]
  · intro e
    simp only [render_eq_expressionText, expressionText, String.append_assoc]
  · intro b e
    simp only [defaultSQLBuilder.String', WriteSQLExpression_buffer, render_eq_expressionText]
  · intro op
    by_cases h1 : op = "!="
    · exact Or.inl h1
    by_cases h2 : op = "&&"
    · exact Or.inr (Or.inl h2)
    by_cases h3 : op = "||"
    · exact Or.inr (Or.inr (Or.inl h3))
    by_cases h4 : op = "=="
    · exact Or.inr (Or.inr (Or.inr (Or.inl h4)))
    · refine Or.inr (Or.inr (Or.inr (Or.inr ?_)))
      unfold mappedOperator
      rw [if_neg h1, if_neg h2, if_neg h3, if_neg h4]

/-! ## Theorems: insert statements -/

theorem tableToInsert_loop (cols : List column) :
    ∀ (i : Nat) (stmt : SQLInsertStatement),
      forRangeFrom (fun _ col (stmt : SQLInsertStatement) =>
          if col.isIdentity then stmt
          else { stmt with columns := stmt.columns ++ [col.columnName] }) i cols stmt
        = { stmt with columns := stmt.columns
              ++ (cols.filter (fun c => !c.isIdentity)).map (fun c => c.columnName) } := by
  induction cols with
  | nil => intro i stmt; simp [forRangeFrom]
  | cons c cols ih =>
    intro i stmt
    simp only [forRangeFrom, ih]
    cases hc : c.isIdentity <;> simp [hc]

theorem tableToInsertStatement_eq (b : defaultSQLBuilder) (t : table) :
    tableToInsertStatement b none t
      = { columns := (t.columns.filter (fun c => !c.isIdentity)).map (fun c => c.columnName),
          table := t.tableName } := by
  simp [tableToInsertStatement, forRange, tableToInsert_loop]

theorem WriteInsertStatement_buffer (b : defaultSQLBuilder) (stmt : SQLInsertStatement) :
    (b.WriteInsertStatement stmt).buffer
      = b.buffer ++ ("INSERT INTO " ++ stmt.table ++ "(" ++ String.intercalate "," stmt.columns
          ++ ")" ++ "\\n" ++ "VALUES("
          ++ String.intercalate "," (List.replicate stmt.columns.length "?") ++ ")") := by
  have h1 := forRangeFrom_write_sep "," (fun x : String => x) stmt.columns 0
  have h2 := forRangeFrom_write_sep "," (fun _ : String => "?") stmt.columns 0
  simp only [gt_iff_lt, lt_self_iff_false, ↓reduceIte, List.map_id', List.map_const'] at h1 h2
  simp only [defaultSQLBuilder.WriteInsertStatement, forRange, defaultSQLBuilder.WriteLine,
    gt_iff_lt, Write_buffer, h1, h2, String.append_assoc]

/-- The columns and the text of the INSERT statement of a table. -/
theorem insertStatement_columns_text (b : defaultSQLBuilder) (t : table) :
    (tableToInsertStatement b none t).columns
        = (t.columns.filter (fun c => !c.isIdentity)).map (fun c => c.columnName)
    ∧ (b.Reset.WriteInsertStatement (tableToInsertStatement b none t)).String'
        = "INSERT INTO " ++ t.tableName ++ "("
          ++ String.intercalate ","
              ((t.columns.filter (fun c => !c.isIdentity)).map (fun c => c.columnName))
          ++ ")" ++ "\\n" ++ "VALUES("
          ++ String.intercalate ","
              (List.replicate (t.columns.filter (fun c => !c.isIdentity)).length "?")
          ++ ")" := by
  refine ⟨?_, ?_⟩
  · rw [tableToInsertStatement_eq]
  · simp only [defaultSQLBuilder.String', WriteInsertStatement_buffer,
      tableToInsertStatement_eq, defaultSQLBuilder.Reset, String.empty_append, List.length_map,
      String.append_assoc]

/-- C4: for every table, the INSERT statement built by `tableToInsertStatement`
(from a nil statement, as `genInsertFunction` calls it) lists the physical
names of exactly the columns that are not identity columns, in declaration
order, and the text written by `WriteInsertStatement` is `INSERT INTO`, the
table, these names joined by commas in parentheses, a line break, and
`VALUES(` with one `?` per listed column joined by commas; for columns
`[A(identity), B, C]` the column list is `[B, C]` and the values are `?,?`. -/
theorem insertStatement_skips_identity_columns :
    (∀ (b : defaultSQLBuilder) (t : table),
      (tableToInsertStatement b none t).columns
          = (t.columns.filter (fun c => !c.isIdentity)).map (fun c => c.columnName)
      ∧ (b.Reset.WriteInsertStatement (tableToInsertStatement b none t)).String'
          = "INSERT INTO " ++ t.tableName ++ "("
            ++ String.intercalate ","
                ((t.columns.filter (fun c => !c.isIdentity)).map (fun c => c.columnName))
            ++ ")" ++ "\\n" ++ "VALUES("
            ++ String.intercalate ","
                (List.replicate (t.columns.filter (fun c => !c.isIdentity)).length "?")
            ++ ")")
    ∧ (∀ (b : defaultSQLBuilder) (name tableName : String) (doc : List String)
        (colA colB colC : column),
      (tableToInsertStatement b none
          { name := name, tableName := tableName, doc := doc,
            columns := [{ colA with isIdentity := true }, { colB with isIdentity := false },
                        { colC with isIdentity := false }] }).columns
          = [colB.columnName, colC.columnName]
      ∧ (b.Reset.WriteInsertStatement (tableToInsertStatement b none
          { name := name, tableName := tableName, doc := doc,
            columns := [{ colA with isIdentity := true }, { colB with isIdentity := false },
                        { colC with isIdentity := false }] })).String'
          = "INSERT INTO " ++ tableName ++ "(" ++ colB.columnName ++ "," ++ colC.columnName
            ++ ")" ++ "\\n" ++ "VALUES(?,?)") := by
  refine ⟨fun b t => insertStatement_columns_text b t,
    fun b name tableName doc colA colB colC => ⟨?_, ?_⟩⟩
  · rw [tableToInsertStatement_eq]; simp
  · simp only [defaultSQLBuilder.String', WriteInsertStatement_buffer,
      tableToInsertStatement_eq, defaultSQLBuilder.Reset, String.empty_append]
    simp [String.intercalate, String.intercalate.go, String.append_assoc]

/-! ## Theorems: the end-to-end scenarios -/

set_option maxRecDepth 100000

/-- C7: for the table `User` with columns `UserID`, `UserName`, `Sex`, the
entity `user` and the body `From(user); SelectAll(user);
Where(user.UserID == userID)` with parameter `userID` and no `SetReturnType`,
the SQL text is `SELECT UserID, UserName, Sex\nFROM User\nWHERE UserID = ?\n`
(each `\n` the two-character token of `WriteLine`), the only result field
before `error` has the type `[]*User`, the parameter list is `[userID]`, and
the emitted accessor declares `([]*User, error)` and passes `query, userID`. -/
theorem scenario_select_all_by_userID :
    selectSqlText exampleContext scenarioGetUser
      = .ok "SELECT UserID, UserName, Sex\\nFROM User\\nWHERE UserID = ?\\n"
    ∧ (interpretSelect exampleContext scenarioGetUser).map (fun plan => plan.funcReturnList)
      = .ok [{ names := [], type := .ident "[]*User" }]
    ∧ (interpretSelect exampleContext scenarioGetUser).map
        (fun plan => getSelectStmtSqlParamList plan.selectStmt)
      = .ok [⟨"userID"⟩]
    ∧ (genSelectFunction exampleContext scenarioGetUser).map (fun c => c.generator.writer)
      = .ok ("func GetUser(db sqlutil.DbObject, userID string) ([]*User, error) \x7b\r\n"
          ++ "\tconst query = \"SELECT UserID, UserName, Sex\\nFROM User\\nWHERE UserID = ?\\n\"\r\n"
          ++ "\trows, err := db.QueryContext(context.Background(), query, userID)\r\n"
          ++ "\tif err != nil \x7b\r\n"
          ++ "\t\treturn nil, err\r\n"
          ++ "\t\x7d\r\n"
          ++ "\tdefer rows.Close()\r\n"
          ++ "\tvar result []*User\r\n"
          ++ "\tfor rows.Next() \x7b\r\n"
          ++ "\t\tvar o = new(User)\r\n"
          ++ "\t\trows.Scan(&o.UserID, &o.UserName, &o.Sex)\r\n"
          ++ "\t\tresult = append(result, o)\r\n"
          ++ "\t\x7d\r\n"
          ++ "\treturn result, nil\r\n"
          ++ "\x7d\r\n") := by
  refine ⟨by rfl, by rfl, by rfl, by rfl⟩

/-- C8, the claim as stated fails: for `Delete(user);
Where(user.UserID == userID && user.Sex == 0)` the generated SQL is not
`DELETE User\nWHERE UserID = ? AND Sex = ?\n`. -/
theorem scenario_delete_sql_is_not_two_placeholders :
    deleteSqlText exampleContext exampleDeleteUser
      ≠ .ok "DELETE User\\nWHERE UserID = ? AND Sex = ?\\n" := by
  have h : deleteSqlText exampleContext exampleDeleteUser
      = .ok "DELETE User\\nWHERE UserID = ? AND Sex = 0\\n" := by rfl
  rw [h]
  intro hne
  injection hne with hs
  exact absurd hs (by decide)

/-- C8, amended: for `Delete(user); Where(user.UserID == userID && user.Sex == 0)`
the generated SQL is `DELETE User\nWHERE UserID = ? AND Sex = 0\n`: the literal
`0` is written inline, the only placeholder is the one of `userID`, the
parameter list is `[userID]`, and the emitted accessor passes `query, userID`. -/
theorem scenario_delete_literal_inline :
    deleteSqlText exampleContext exampleDeleteUser
      = .ok "DELETE User\\nWHERE UserID = ? AND Sex = 0\\n"
    ∧ (interpretDelete exampleContext exampleDeleteUser).map getDeleteStmtSqlParamList
      = .ok [⟨"userID"⟩]
    ∧ (interpretDelete exampleContext exampleDeleteUser).map (fun stmt => stmt.where)
      = .ok (some (.binary
          (.binary (userColumn "UserID" "string") "==" (.parameter ⟨"userID"⟩)) "&&"
          (.binary (userColumn "Sex" "byte") "==" (.literal ⟨"0"⟩))))
    ∧ (genDeleteFunction exampleContext exampleDeleteUser).map (fun c => c.generator.writer)
      = .ok ("func DeleteUser(db sqlutil.DbObject, userID string) (sql.Result, error) \x7b\r\n"
          ++ "\tconst query = \"DELETE User\\nWHERE UserID = ? AND Sex = 0\\n\"\r\n"
          ++ "\treturn db.ExecContext(context.Background(), query, userID)\r\n"
          ++ "\x7d\r\n") := by
  refine ⟨by rfl, by rfl, by rfl, by rfl⟩

set_option maxRecDepth 512

/-! ## Theorems: the select list -/

theorem forRangeM_append {α σ ε : Type} (f : α → σ → Except ε σ) (xs ys : List α) :
    ∀ s : σ, forRangeM f (xs ++ ys) s
      = match forRangeM f xs s with
        | .error e => .error e
        | .ok s' => forRangeM f ys s' := by
  induction xs with
  | nil => intro s; simp [forRangeM]
  | cons x xs ih =>
    intro s
    simp only [List.cons_append, forRangeM]
    cases f x s with
    | error e => rfl
    | ok s' => exact ih s'

theorem selName_of_named (c : CallExpr) (name : String) (h : c.named name = true) :
    c.selName = .ok name := by
  unfold CallExpr.named at h
  unfold CallExpr.selName
  cases hf : c.fun <;> simp_all

theorem named_of_selName (c : CallExpr) (name other : String) (h : c.selName = .ok name) :
    c.named other = decide (name = other) := by
  unfold CallExpr.selName at h
  unfold CallExpr.named
  cases hf : c.fun <;> simp_all
  rfl

/-- A call that is neither `Select` nor `SelectAll` leaves `selectExpr` and
`isSelectAll` as they are. -/
theorem selectScanStep_other (context : parseContext) (c : CallExpr) (st st' : SelectScan)
    (h1 : c.named "Select" = false) (h2 : c.named "SelectAll" = false)
    (h : selectScanStep context c st = .ok st') :
    st'.selectExpr = st.selectExpr ∧ st'.isSelectAll = st.isSelectAll := by
  unfold selectScanStep at h
  cases hn : c.selName with
  | error e => simp [hn] at h
  | ok name =>
    have n1 : name ≠ "Select" := by
      intro heq; rw [named_of_selName c name "Select" hn] at h1; simp [heq] at h1
    have n2 : name ≠ "SelectAll" := by
      intro heq; rw [named_of_selName c name "SelectAll" hn] at h2; simp [heq] at h2
    simp only [hn, n1, n2, if_false] at h
    repeat' split at h
    all_goals first
      | (injection h with h; subst h; exact ⟨rfl, rfl⟩)
      | cases h

/-- A `SelectAll` call sets `selectExpr` and `isSelectAll`. -/
theorem selectScanStep_selectAll (context : parseContext) (c : CallExpr) (st : SelectScan)
    (h : c.named "SelectAll" = true) :
    selectScanStep context c st = .ok { st with selectExpr := some c, isSelectAll := true } := by
  unfold selectScanStep
  simp [selName_of_named c "SelectAll" h]

theorem selectScan_others (context : parseContext) (cs : List CallExpr) :
    ∀ (st st' : SelectScan),
      (∀ c ∈ cs, c.named "Select" = false ∧ c.named "SelectAll" = false) →
      forRangeM (selectScanStep context) cs st = .ok st' →
      st'.selectExpr = st.selectExpr ∧ st'.isSelectAll = st.isSelectAll := by
  induction cs with
  | nil =>
    intro st st' _ h
    simp only [forRangeM] at h
    injection h with h
    subst h
    exact ⟨rfl, rfl⟩
  | cons c cs ih =>
    intro st st' hcs h
    simp only [forRangeM] at h
    cases hstep : selectScanStep context c st with
    | error e => simp [hstep] at h
    | ok s1 =>
      simp only [hstep] at h
      have hc := hcs c (List.mem_cons_self c cs)
      have h1 := selectScanStep_other context c st s1 hc.1 hc.2 hstep
      have h2 := ih s1 st' (fun d hd => hcs d (List.mem_cons_of_mem c hd)) h
      exact ⟨h2.1.trans h1.1, h2.2.trans h1.2⟩

/-- The scan of `pre ++ call :: post` goes through the state after `pre`, the
step of `call` and the scan of `post`. -/
theorem selectScan_split (context : parseContext) (pre post : List CallExpr) (call : CallExpr)
    (st0 st : SelectScan)
    (h : forRangeM (selectScanStep context) (pre ++ call :: post) st0 = .ok st) :
    ∃ s1 s2, forRangeM (selectScanStep context) pre st0 = .ok s1
      ∧ selectScanStep context call s1 = .ok s2
      ∧ forRangeM (selectScanStep context) post s2 = .ok st := by
  rw [forRangeM_append] at h
  cases hpre : forRangeM (selectScanStep context) pre st0 with
  | error e => simp [hpre] at h
  | ok s1 =>
    simp only [hpre, forRangeM] at h
    cases hstep : selectScanStep context call s1 with
    | error e => simp [hstep] at h
    | ok s2 =>
      simp only [hstep] at h
      exact ⟨s1, s2, rfl, hstep, h⟩

/-- When the interpretation of a select function succeeds, its select list is
the one built by `buildSelectList` from the state after the scan: the later
steps assign only the table and the predicate. -/
theorem interpretSelect_selectList (context : parseContext) (funcDecl : FuncDecl)
    (plan : SelectPlan) (h : interpretSelect context funcDecl = .ok plan) :
    ∃ st selectExpr stmt,
      forRangeM (selectScanStep context) (getCallExprList funcDecl) {} = .ok st
      ∧ st.selectExpr = some selectExpr
      ∧ buildSelectList context st.isSelectAll selectExpr { orderByList := st.orderByList }
          = .ok stmt
      ∧ plan.selectStmt.selectList = stmt.selectList := by
  unfold interpretSelect at h
  simp only [bind, Except.bind, pure, Except.pure] at h
  cases hscan : forRangeM (selectScanStep context) (getCallExprList funcDecl) {} with
  | error e => simp [hscan] at h
  | ok st =>
    simp only [hscan] at h
    cases hsel : st.selectExpr with
    | none => simp [hsel] at h
    | some selectExpr =>
      simp only [hsel] at h
      cases hbuild : buildSelectList context st.isSelectAll selectExpr
          { orderByList := st.orderByList } with
      | error e => simp [hbuild] at h
      | ok stmt =>
        simp only [hbuild] at h
        refine ⟨st, selectExpr, stmt, rfl, hsel, hbuild, ?_⟩
        repeat' split at h
        all_goals first
          | (injection h with h; subst h; rfl)
          | cases h

theorem tableToSelect_loop (tableName : String) (cols : List column) :
    ∀ (i : Nat) (stmt : SQLSelectStatement), stmt.table = tableName →
      (forRangeFrom (fun _ col (stmt : SQLSelectStatement) =>
          { stmt with selectList := stmt.selectList ++
              [.column { columnName := col.columnName, source := col,
                         tableName := stmt.table }] }) i cols stmt).selectList
        = stmt.selectList ++ cols.map (fun col =>
            .column { tableName := tableName, columnName := col.columnName, source := col }) := by
  induction cols with
  | nil => intro i stmt _; simp [forRangeFrom]
  | cons c cols ih =>
    intro i stmt hst
    simp only [forRangeFrom]
    rw [ih]
    · simp [hst]
    · exact hst

/-- C9 (amended): when `SelectAll` on an expression naming an entity bound to a
table is the last `Select`/`SelectAll` call of a function body, whatever calls (such as
`Where`, `OrderBy`, `OrderByDescending`) stand before or after it, the select
list of every successful interpretation is exactly the column expressions of
the table's columns, in declaration order. -/
theorem selectAll_selectList_in_declaration_order (context : parseContext)
    (funcDecl : FuncDecl) (pre post : List CallExpr) (call : CallExpr) (arg : Expr)
    (rest : List Expr) (entity : table) (plan : SelectPlan)
    (hcalls : getCallExprList funcDecl = pre ++ call :: post)
    (hcall : call.named "SelectAll" = true)
    (hargs : call.args = arg :: rest)
    (hentity : context.getEntityWithExpr arg = some entity)
    (hpost : ∀ c ∈ post, c.named "Select" = false ∧ c.named "SelectAll" = false)
    (hok : interpretSelect context funcDecl = .ok plan) :
    plan.selectStmt.selectList = entity.columns.map (columnExpression entity) := by
  obtain ⟨st, selectExpr, stmt, hscan, hsel, hbuild, hlist⟩ :=
    interpretSelect_selectList context funcDecl plan hok
  rw [hcalls] at hscan
  obtain ⟨s1, s2, _, hstep, hrest⟩ := selectScan_split context pre post call _ st hscan
  rw [selectScanStep_selectAll context call s1 hcall] at hstep
  injection hstep with hstep
  have hkeep := selectScan_others context post s2 st hpost hrest
  rw [← hstep] at hkeep
  simp only at hkeep
  rw [hkeep.1] at hsel
  injection hsel with hsel
  subst hsel
  rw [hkeep.2] at hbuild
  simp only [buildSelectList, hargs, hentity, if_true] at hbuild
  injection hbuild with hbuild
  rw [hlist, ← hbuild]
  simp only [tableToSelectStatement, forRange, Option.getD_some]
  rw [tableToSelect_loop entity.tableName entity.columns 0 _ rfl]
  simp [columnExpression]

set_option maxRecDepth 100000 in
/-- Witness of C9: `SelectAll(user)` between `OrderBy`, `Where`, `From` and
`OrderByDescending` calls gives the three columns of `User` in declaration
order. -/
theorem selectAll_selectList_witness :
    interpretSelect exampleContext selectAllAmongCalls = .ok selectAllAmongCallsPlan
    ∧ selectAllAmongCallsPlan.selectStmt.selectList
        = exampleUser.columns.map (columnExpression exampleUser) :=
  ⟨by rfl,
   selectAll_selectList_in_declaration_order exampleContext selectAllAmongCalls
    [dslCallExpr 1 "OrderBy" [userField "Sex"], dslCallExpr 2 "Where" [userIDEquals]]
    [dslCallExpr 4 "From" [.ident "user"],
     dslCallExpr 5 "OrderByDescending" [userField "UserID"]]
    (dslCallExpr 3 "SelectAll" [.ident "user"]) (.ident "user") [] exampleUser
    selectAllAmongCallsPlan (by rfl) (by rfl) (by rfl) (by rfl) (by decide) (by rfl)⟩

theorem write_eq (g : codeGenerator) (s : String) :
    g.write s = { g with writer := g.writer ++ lineStart g ++ s, newLine := false } := by
  unfold codeGenerator.write lineStart indentText codeGenerator.writeIndent
  cases h : g.newLine <;> simp [h]

@[simp] theorem write_writer (g : codeGenerator) (s : String) :
    (g.write s).writer = g.writer ++ lineStart g ++ s := by rw [write_eq]

@[simp] theorem write_newLine (g : codeGenerator) (s : String) :
    (g.write s).newLine = false := by rw [write_eq]

@[simp] theorem write_indentLevel (g : codeGenerator) (s : String) :
    (g.write s).indentLevel = g.indentLevel := by rw [write_eq]

@[simp] theorem write_settings (g : codeGenerator) (s : String) :
    (g.write s).settings = g.settings := by rw [write_eq]

theorem write_write (g : codeGenerator) (a b : String) :
    (g.write a).write b = g.write (a ++ b) := by
  rw [write_eq (g.write a) b, write_eq g a, write_eq g (a ++ b)]
  simp [lineStart, String.append_assoc]

theorem writeLine_nil_eq (g : codeGenerator) :
    g.writeLine [] = { g with writer := g.writer ++ g.settings.line, newLine := true } := by
  simp [codeGenerator.writeLine]

/-- Splitting at the dots and joining with dots gives the text back. -/
theorem splitDots_join (cs : List Char) :
    ∃ x rest, splitDots cs = x :: rest
      ∧ x ++ (rest.map (fun part => '.' :: part)).flatten = cs := by
  induction cs with
  | nil => exact ⟨[], [], rfl, rfl⟩
  | cons c cs ih =>
    obtain ⟨x, rest, hsplit, hjoin⟩ := ih
    by_cases hc : c = '.'
    · refine ⟨[], x :: rest, ?_, ?_⟩
      · simp [splitDots, hc, hsplit]
      · simp [hc, hjoin]
    · refine ⟨c :: x, rest, ?_, ?_⟩
      · simp [splitDots, hc, hsplit]
      · simp [hjoin]

theorem writeExpr_selectors (g : codeGenerator) (rest : List (List Char)) :
    ∀ (e : Expr) (s : String), g.writeExpr e = g.write s →
      g.writeExpr (rest.foldl (fun expr part => .selector expr ⟨part⟩) e)
        = g.write (s ++ ⟨(rest.map (fun part => '.' :: part)).flatten⟩) := by
  induction rest with
  | nil =>
    intro e s h
    simp only [List.foldl_nil, List.map_nil, List.flatten_nil, h]
    congr 1
    apply String.ext
    simp
  | cons p rest ih =>
    intro e s h
    simp only [List.foldl_cons]
    rw [ih (.selector e ⟨p⟩) (s ++ "." ++ ⟨p⟩)]
    · congr 1
      apply String.ext
      simp
    · simp only [codeGenerator.writeExpr, h, write_write]

/-- Writing the expression built by `newASTRefExpr` writes the text it was built
from. -/
theorem writeExpr_newASTRefExpr (g : codeGenerator) (code : String) :
    g.writeExpr (newASTRefExpr code) = g.write code := by
  obtain ⟨x, rest, hsplit, hjoin⟩ := splitDots_join code.data
  unfold newASTRefExpr
  simp only [hsplit]
  rw [writeExpr_selectors g rest (.ident ⟨x⟩) ⟨x⟩ (by simp [codeGenerator.writeExpr])]
  congr 1
  apply String.ext
  simp [hjoin]

theorem writeInsertArgs_loop (cols : List column) :
    ∀ (i : Nat) (g : codeGenerator), g.newLine = false →
      forRangeFrom (fun _ col (generator : codeGenerator) =>
          if col.isIdentity then generator
          else ((generator.write ",").write "o.").write col.name) i cols g
        = { g with writer := g.writer ++ (String.join
              ((cols.filter (fun c => !c.isIdentity)).map (fun c => ",o." ++ c.name))) } := by
  induction cols with
  | nil => intro i g _; simp [forRangeFrom, String.join]
  | cons c cols ih =>
    intro i g hg
    simp only [forRangeFrom]
    cases hc : c.isIdentity
    · rw [ih]
      · simp [hc, write_eq, lineStart, hg, join_cons, String.append_assoc]
      · simp
    · rw [ih _ _ (by simpa [hc] using hg)]
      simp [hc]

theorem insert_arguments_follow_placeholders_aux (g : codeGenerator) (funcName sqlText : String)
    (entity : table) :
    ((((writeInsertArgs entity.columns
        (((g.beginFunc funcName
          [newASTField (newASTRefExpr "sqlutil.DbObject") ["db"],
           newASTField (newASTRefExpr ("*" ++ entity.name)) ["o"]]
          [newASTField (newASTRefExpr "sql.Result") [""],
           newASTField (newASTRefExpr "error") [""]]).writeConstDeclaration "query" sqlText).write
        "return db.ExecContext(context.Background(), query")).write ")").writeLine []).endBlock
          []).writer
      = g.writer ++ lineStart g ++ "func " ++ funcName ++ "(db sqlutil.DbObject, o *"
          ++ entity.name ++ ") (sql.Result, error) \x7b" ++ g.settings.line
          ++ indentText (g.indentLevel + 1) g.settings
          ++ "const query = \"" ++ sqlText ++ "\"" ++ g.settings.line
          ++ indentText (g.indentLevel + 1) g.settings
          ++ "return db.ExecContext(context.Background(), query"
          ++ String.join ((entity.columns.filter (fun c => !c.isIdentity)).map
              (fun c => ",o." ++ c.name))
          ++ ")" ++ g.settings.line
          ++ indentText g.indentLevel g.settings ++ "\x7d" ++ g.settings.line := by
  have h1 : newASTRefExpr "sqlutil.DbObject" = .selector (.ident "sqlutil") "DbObject" := by
    rfl
  have h2 : newASTRefExpr "sql.Result" = .selector (.ident "sql") "Result" := by rfl
  have h3 : newASTRefExpr "error" = .ident "error" := by rfl
  simp only [writeInsertArgs, forRange]
  rw [writeInsertArgs_loop _ _ _ (by simp)]
  simp only [codeGenerator.endBlock, codeGenerator.writeLine, codeGenerator.writeConstDeclaration,
    codeGenerator.writeStringValue, codeGenerator.beginFunc, codeGenerator.beginBlock,
    codeGenerator.writeFuncType, forRange, forRangeFrom, newASTField, h1, h2, h3,
    codeGenerator.writeExpr, writeExpr_newASTRefExpr, List.foldl_nil]
  have hs : ∀ x : String,
      "(db sqlutil.DbObject, o " ++ ("*" ++ x) = "(db sqlutil.DbObject, o *" ++ x := by
    intro x; rw [← String.append_assoc]; rfl
  simp [lineStart, String.append_assoc, hs]

/-- C5: when the first `InsertAll` call of a function body has as first
argument an identifier bound to a table, `genInsertFunction` succeeds; the SQL
text is the INSERT statement over the columns that are not identity columns,
with one `?` per such column; and the emitted function is the header, the
`query` constant holding that text, and the call
`db.ExecContext(context.Background(), query` followed by one argument
`,o.<logical name>` for each column that is not an identity column, in
declaration order, and by no other argument. -/
theorem insert_arguments_follow_placeholders (context : parseContext) (funcDecl : FuncDecl)
    (call : CallExpr) (argName : String) (rest : List Expr) (entity : table)
    (hcall : findSpecCall funcDecl "InsertAll" = some call)
    (hargs : call.args = .ident argName :: rest)
    (hentity : context.entity.lookup argName = some entity) :
    ∃ context', genInsertFunction context funcDecl = .ok context'
      ∧ context'.sqlBuilder.String'
          = "INSERT INTO " ++ entity.tableName ++ "("
            ++ String.intercalate ","
                ((entity.columns.filter (fun c => !c.isIdentity)).map (fun c => c.columnName))
            ++ ")" ++ "\\n" ++ "VALUES("
            ++ String.intercalate ","
                (List.replicate (entity.columns.filter (fun c => !c.isIdentity)).length "?")
            ++ ")"
      ∧ context'.generator.writer
          = context.generator.writer ++ lineStart context.generator
            ++ "func " ++ funcDecl.name ++ "(db sqlutil.DbObject, o *" ++ entity.name
            ++ ") (sql.Result, error) \x7b" ++ context.generator.settings.line
            ++ indentText (context.generator.indentLevel + 1) context.generator.settings
            ++ "const query = \"" ++ context'.sqlBuilder.String' ++ "\""
            ++ context.generator.settings.line
            ++ indentText (context.generator.indentLevel + 1) context.generator.settings
            ++ "return db.ExecContext(context.Background(), query"
            ++ String.join ((entity.columns.filter (fun c => !c.isIdentity)).map
                (fun c => ",o." ++ c.name))
            ++ ")" ++ context.generator.settings.line
            ++ indentText context.generator.indentLevel context.generator.settings
            ++ "\x7d" ++ context.generator.settings.line := by
  unfold genInsertFunction
  simp only [hcall, hargs, hentity]
  refine ⟨_, rfl, ?_, ?_⟩
  · exact (insertStatement_columns_text context.sqlBuilder entity).2
  · exact insert_arguments_follow_placeholders_aux context.generator funcDecl.name _ entity

set_option maxRecDepth 100000 in
/-- Witness of C5: for `InsertUser` of the example (`InsertAll(user)`) the SQL
text has three placeholders and the call passes `o.UserID`, `o.UserName` and
`o.Sex` in this order. -/
theorem insert_arguments_witness :
    findSpecCall exampleInsertUser "InsertAll"
        = some (dslCallExpr 1 "InsertAll" [.ident "user"])
    ∧ exampleContext.entity.lookup "user" = some exampleUser
    ∧ ∃ context', genInsertFunction exampleContext exampleInsertUser = .ok context'
      ∧ context'.sqlBuilder.String' = "INSERT INTO User(UserID,UserName,Sex)\\nVALUES(?,?,?)"
      ∧ context'.generator.writer
          = "func InsertUser(db sqlutil.DbObject, o *User) (sql.Result, error) \x7b\r\n"
            ++ "\tconst query = \"INSERT INTO User(UserID,UserName,Sex)\\nVALUES(?,?,?)\"\r\n"
            ++ "\treturn db.ExecContext(context.Background(), query,o.UserID,o.UserName,o.Sex)\r\n"
            ++ "\x7d\r\n" := by
  obtain ⟨c, h1, h2, h3⟩ := insert_arguments_follow_placeholders exampleContext
    exampleInsertUser (dslCallExpr 1 "InsertAll" [.ident "user"]) "user" [] exampleUser
    (by rfl) (by rfl) (by rfl)
  refine ⟨by rfl, by rfl, c, h1, h2.trans (by rfl), h3.trans ?_⟩
  rw [h2]
  rfl

/-! ## Theorems: the expression translator -/

/-- C12: `astToSQLExpression` returns `Parameter(name)` for an identifier that
is a parameter name (and fails for any other identifier); the column
expression with the table's physical name, the column's physical name and the
source column for a member access `entity.Field` whose entity is bound and
whose field is a column of its table (and fails otherwise); `Literal` with the
source text unchanged for a literal; `Parenthesis` of the translation of the
inner expression; and `Binary` of the two translations with the operator
unchanged, a failure of a sub-expression being the failure of the whole. -/
theorem astToSQLExpression_by_cases (context : parseContext)
    (paramNames : List (String × Nat)) :
    (∀ name : String,
      astToSQLExpression (.ident name) context paramNames
        = if (paramNames.lookup name).isSome then .ok (.parameter { name := name })
          else .error .plain)
    ∧ (∀ entityName field : String,
      astToSQLExpression (.selector (.ident entityName) field) context paramNames
        = match context.entity.lookup entityName with
          | some entity =>
            match entity.getColumn field with
            | some col =>
              .ok (.column { tableName := entity.tableName, columnName := col.columnName,
                             source := col })
            | none => .error .plain
          | none => .error .plain)
    ∧ (∀ (kind : LitKind) (value : String),
      astToSQLExpression (.basicLit kind value) context paramNames
        = .ok (.literal { value := value }))
    ∧ (∀ e : Expr,
      astToSQLExpression (.paren e) context paramNames
        = (astToSQLExpression e context paramNames).map .parenthesis)
    ∧ (∀ (l r : Expr) (op : String),
      astToSQLExpression (.binary l op r) context paramNames
        = (astToSQLExpression l context paramNames).bind (fun left =>
            (astToSQLExpression r context paramNames).map (fun right =>
              .binary left op right))) := by
  refine ⟨?_, ?_, ?_, ?_, ?_⟩
  · intro name
    simp only [astToSQLExpression]
    cases paramNames.lookup name <;> rfl
  · intro entityName field
    simp only [astToSQLExpression, parseContext.getEntityWithExpr]
    cases context.entity.lookup entityName with
    | none => rfl
    | some entity =>
      simp only
      cases entity.getColumn field <;> rfl
  · intro kind value
    rfl
  · intro e
    simp only [astToSQLExpression]
    cases astToSQLExpression e context paramNames <;> rfl
  · intro l r op
    simp only [astToSQLExpression]
    cases astToSQLExpression l context paramNames with
    | error err => rfl
    | ok left => cases astToSQLExpression r context paramNames <;> rfl

/-- The translator fails exactly on the expressions that hold an untranslatable
node, and then with the anonymous error. -/
theorem astToSQLExpression_error_iff (context : parseContext)
    (paramNames : List (String × Nat)) (hname : context.entity.lookup "" = none)
    (e : Expr) :
    (astToSQLExpression e context paramNames = .error .plain
        ↔ hasUntranslatableNode context paramNames e = true)
    ∧ (∀ err, astToSQLExpression e context paramNames = .error err → err = .plain) := by
  induction e with
  | ident name =>
    simp only [astToSQLExpression, hasUntranslatableNode]
    cases paramNames.lookup name <;> simp
  | basicLit kind value => simp [astToSQLExpression, hasUntranslatableNode]
  | other => simp [astToSQLExpression, hasUntranslatableNode]
  | selector x sel _ =>
    simp only [astToSQLExpression, hasUntranslatableNode, resolveColumn,
      parseContext.getEntityWithExpr]
    cases x with
    | ident name =>
      simp only
      cases context.entity.lookup name with
      | none => simp
      | some entity =>
        simp only
        cases hcol : entity.getColumn sel <;> simp
    | _ => simp [hname]
  | paren x ih =>
    simp only [astToSQLExpression, hasUntranslatableNode]
    cases hx : astToSQLExpression x context paramNames with
    | error err =>
      have := ih.2 err hx
      subst this
      simp [← ih.1, hx]
    | ok v =>
      have h1 := ih.1
      rw [hx] at h1
      simp at h1
      simp [h1]
  | binary x op y ihx ihy =>
    simp only [astToSQLExpression, hasUntranslatableNode, Bool.or_eq_true]
    cases hx : astToSQLExpression x context paramNames with
    | error err =>
      have := ihx.2 err hx
      subst this
      simp [← ihx.1, hx]
    | ok v =>
      have h1 := ihx.1
      rw [hx] at h1
      simp at h1
      cases hy : astToSQLExpression y context paramNames with
      | error err =>
        have := ihy.2 err hy
        subst this
        simp [← ihy.1, hy]
      | ok w =>
        have h2 := ihy.1
        rw [hy] at h2
        simp at h2
        simp [h1, h2]

/-- C13: in a context whose entity names are not empty, `astToSQLExpression`
fails if and only if the expression holds, at any depth under parentheses and
binary operators, an identifier that is not a parameter name, a member access
that does not resolve to a column of a bound entity, or a node of another
kind; when the parameter names of the function can be read,
`astToSQLWhereExpression` turns every such failure into the argument error of
the `Where` call and otherwise returns the translation; and it fails with the
same argument error when `Where` does not have exactly one argument. -/
theorem where_failure_is_argument_error (context : parseContext)
    (hname : context.entity.lookup "" = none) :
    (∀ (paramNames : List (String × Nat)) (e : Expr),
      (∃ err, astToSQLExpression e context paramNames = .error err)
        ↔ hasUntranslatableNode context paramNames e = true)
    ∧ (∀ (funcDecl : FuncDecl) (whereExpr : CallExpr) (arg : Expr)
        (paramNames : List (String × Nat)),
        whereExpr.args = [arg] → getFuncParamNames funcDecl = .ok paramNames →
        (hasUntranslatableNode context paramNames arg = true →
          astToSQLWhereExpression context funcDecl (some whereExpr)
            = .error (.argError whereExpr.pos))
        ∧ (hasUntranslatableNode context paramNames arg = false →
          ∃ sqlExpr, astToSQLExpression arg context paramNames = .ok sqlExpr
            ∧ astToSQLWhereExpression context funcDecl (some whereExpr)
                = .ok (some sqlExpr)))
    ∧ (∀ (funcDecl : FuncDecl) (whereExpr : CallExpr),
        whereExpr.args.length ≠ 1 →
        astToSQLWhereExpression context funcDecl (some whereExpr)
          = .error (.argError whereExpr.pos)) := by
  refine ⟨?_, ?_, ?_⟩
  · intro paramNames e
    have h := astToSQLExpression_error_iff context paramNames hname e
    constructor
    · rintro ⟨err, herr⟩
      have := h.2 err herr
      subst this
      exact h.1.mp herr
    · intro hbad
      exact ⟨.plain, h.1.mpr hbad⟩
  · intro funcDecl whereExpr arg paramNames hargs hnames
    have h := astToSQLExpression_error_iff context paramNames hname arg
    constructor
    · intro hbad
      simp only [astToSQLWhereExpression, hargs, hnames, h.1.mpr hbad, newArgError]
    · intro hgood
      cases ht : astToSQLExpression arg context paramNames with
      | error err =>
        have := h.2 err ht
        subst this
        rw [h.1.mp ht] at hgood
        cases hgood
      | ok sqlExpr =>
        refine ⟨sqlExpr, rfl, ?_⟩
        simp only [astToSQLWhereExpression, hargs, hnames, ht]
  · intro funcDecl whereExpr hlen
    unfold astToSQLWhereExpression
    match hargs : whereExpr.args with
    | [] => simp only [hargs, newArgError]
    | [arg] => simp [hargs] at hlen
    | _ :: _ :: _ => simp only [hargs, newArgError]

set_option maxRecDepth 100000 in
/-- Witness of C13: in the example context, `Where(user.UserID == someID)`
with the only parameter `userID` and a `Where` call without arguments both
fail with the argument error of the `Where` call. -/
theorem where_failure_witness :
    exampleContext.entity.lookup "" = none
    ∧ hasUntranslatableNode exampleContext [("userID", 0)]
        (.binary (userField "UserID") "==" (.ident "someID")) = true
    ∧ astToSQLWhereExpression exampleContext whereUnknownIdentifier
        (some (dslCallExpr 2 "Where" [.binary (userField "UserID") "==" (.ident "someID")]))
        = .error (.argError 2)
    ∧ astToSQLWhereExpression exampleContext whereUnknownIdentifier
        (some (dslCallExpr 7 "Where" [])) = .error (.argError 7) :=
  ⟨by rfl, by rfl,
   ((where_failure_is_argument_error exampleContext (by rfl)).2.1 whereUnknownIdentifier
      (dslCallExpr 2 "Where" [.binary (userField "UserID") "==" (.ident "someID")])
      (.binary (userField "UserID") "==" (.ident "someID")) [("userID", 0)]
      (by rfl) (by rfl)).1 (by rfl),
   (where_failure_is_argument_error exampleContext (by rfl)).2.2 whereUnknownIdentifier
      (dslCallExpr 7 "Where" []) (by decide)⟩

/-! ## Theorems: the return mode -/

/-- A call other than `SetReturnType` neither reads nor writes the return
mode: the step commutes with a change of the mode. -/
theorem selectScanStep_withReturnType (context : parseContext) (c : CallExpr)
    (st : SelectScan) (flag : ReturnType) (h : c.named "SetReturnType" = false) :
    selectScanStep context c (st.withReturnType flag)
      = (selectScanStep context c st).map (fun s => s.withReturnType flag) := by
  unfold selectScanStep
  cases hn : c.selName with
  | error e => rfl
  | ok name =>
    have n1 : name ≠ "SetReturnType" := by
      intro heq; rw [named_of_selName c name "SetReturnType" hn] at h; simp [heq] at h
    simp only [n1, if_false]
    repeat' split
    all_goals rfl

theorem selectScan_withReturnType (context : parseContext) (cs : List CallExpr)
    (flag : ReturnType) :
    ∀ st : SelectScan, (∀ c ∈ cs, c.named "SetReturnType" = false) →
      forRangeM (selectScanStep context) cs (st.withReturnType flag)
        = (forRangeM (selectScanStep context) cs st).map (fun s => s.withReturnType flag) := by
  induction cs with
  | nil => intro st _; rfl
  | cons c cs ih =>
    intro st hcs
    simp only [forRangeM]
    rw [selectScanStep_withReturnType context c st flag (hcs c (List.mem_cons_self c cs))]
    cases selectScanStep context c st with
    | error e => rfl
    | ok s1 => exact ih s1 (fun d hd => hcs d (List.mem_cons_of_mem c hd))

/-- A call other than `SetReturnType` leaves the return mode as it is. -/
theorem selectScanStep_keeps_returnType (context : parseContext) (c : CallExpr)
    (st st' : SelectScan) (h : c.named "SetReturnType" = false)
    (hstep : selectScanStep context c st = .ok st') :
    st'.returnTypeFlag = st.returnTypeFlag := by
  unfold selectScanStep at hstep
  cases hn : c.selName with
  | error e => simp [hn] at hstep
  | ok name =>
    have n1 : name ≠ "SetReturnType" := by
      intro heq; rw [named_of_selName c name "SetReturnType" hn] at h; simp [heq] at h
    simp only [hn, n1, if_false] at hstep
    repeat' split at hstep
    all_goals first
      | (injection hstep with hstep; subst hstep; rfl)
      | cases hstep

theorem selectScan_keeps_returnType (context : parseContext) (cs : List CallExpr) :
    ∀ (st st' : SelectScan), (∀ c ∈ cs, c.named "SetReturnType" = false) →
      forRangeM (selectScanStep context) cs st = .ok st' →
      st'.returnTypeFlag = st.returnTypeFlag := by
  induction cs with
  | nil =>
    intro st st' _ h
    simp only [forRangeM] at h
    injection h with h
    subst h
    rfl
  | cons c cs ih =>
    intro st st' hcs h
    simp only [forRangeM] at h
    cases hstep : selectScanStep context c st with
    | error e => simp [hstep] at h
    | ok s1 =>
      simp only [hstep] at h
      have h1 := selectScanStep_keeps_returnType context c st s1
        (hcs c (List.mem_cons_self c cs)) hstep
      have h2 := ih s1 st' (fun d hd => hcs d (List.mem_cons_of_mem c hd)) h
      exact h2.trans h1

/-- The step of `SetReturnType(_.ReturnRecordSet)` or `SetReturnType(_.ReturnDefault)`. -/
theorem selectScanStep_setReturnType (context : parseContext) (pos : Nat) (x y : Expr)
    (st : SelectScan) :
    selectScanStep context
        { pos := pos, «fun» := .selector x "SetReturnType", args := [.selector y "ReturnRecordSet"] }
        st = .ok (st.withReturnType .ReturnRecordSet)
    ∧ selectScanStep context
        { pos := pos, «fun» := .selector x "SetReturnType", args := [.selector y "ReturnDefault"] }
        st = .ok (st.withReturnType .ReturnDefault) := by
  constructor <;> rfl

/-- The scan of a body with an added `SetReturnType` call is the scan of the
body, with the mode of the added call. -/
theorem selectScan_added_setReturnType (context : parseContext) (before after : List CallExpr)
    (c : CallExpr) (flag : ReturnType)
    (hstep : ∀ st, selectScanStep context c st = .ok (st.withReturnType flag))
    (hafter : ∀ d ∈ after, d.named "SetReturnType" = false) :
    forRangeM (selectScanStep context) (before ++ c :: after) {}
      = (forRangeM (selectScanStep context) (before ++ after) {}).map
          (fun s => s.withReturnType flag) := by
  rw [forRangeM_append, forRangeM_append]
  cases forRangeM (selectScanStep context) before {} with
  | error e => rfl
  | ok s1 =>
    simp only [forRangeM, hstep]
    exact selectScan_withReturnType context after flag s1 hafter

/-- The rest of `genSelectFunction` after its first loop does not distinguish
the mode `ReturnDefault` from `ReturnRecordSet`, and reads only the name, the
parameters and the doc comment of the function. -/
theorem genSelectFunction_added_setReturnType (context : parseContext)
    (funcDecl : FuncDecl) (body : List Stmt) (flag : ReturnType)
    (hflag : flag = .ReturnRecordSet ∨ flag = .ReturnDefault)
    (hnone : ∀ c ∈ getCallExprList funcDecl, c.named "SetReturnType" = false)
    (hscan : forRangeM (selectScanStep context) (getCallExprList { funcDecl with body := body }) {}
      = (forRangeM (selectScanStep context) (getCallExprList funcDecl) {}).map
          (fun s => s.withReturnType flag)) :
    genSelectFunction context { funcDecl with body := body }
      = genSelectFunction context funcDecl := by
  unfold genSelectFunction interpretSelect
  simp only [bind, Except.bind, hscan]
  cases hs : forRangeM (selectScanStep context) (getCallExprList funcDecl) {} with
  | error e => rfl
  | ok st =>
    have hdefault : st.returnTypeFlag = .ReturnDefault :=
      selectScan_keeps_returnType context _ {} st hnone hs
    cases st with
    | mk selectExpr isSelectAll fromExpr orderByList whereExpr returnTypeFlag chanBufferSize =>
      simp only at hdefault
      subst hdefault
      rcases hflag with rfl | rfl <;> rfl

/-- C11: for every select function whose body has no `SetReturnType` call,
adding the statement `SetReturnType(ReturnRecordSet)`, or
`SetReturnType(ReturnDefault)`, at any place of the body leaves the outcome
of `genSelectFunction` unchanged: the same error, or the same emitted text
(signature, SQL text, arguments and scan body) and the same builder state. -/
theorem omitted_returnType_is_recordSet (context : parseContext) (funcDecl : FuncDecl)
    (pre post : List Stmt) (pos : Nat) (x y : Expr) (mode : String)
    (hbody : funcDecl.body = pre ++ post)
    (hnone : ∀ c ∈ getCallExprList funcDecl, c.named "SetReturnType" = false)
    (hmode : mode = "ReturnRecordSet" ∨ mode = "ReturnDefault") :
    genSelectFunction context
        { funcDecl with body := pre ++ setReturnTypeStmt pos x y mode :: post }
      = genSelectFunction context funcDecl := by
  have hafter : ∀ d ∈ getCallExprList { funcDecl with body := post },
      d.named "SetReturnType" = false := by
    intro d hd
    apply hnone d
    simp only [getCallExprList, hbody, List.filterMap_append, List.mem_append]
    exact Or.inr hd
  have hsplit : getCallExprList funcDecl
      = getCallExprList { funcDecl with body := pre }
        ++ getCallExprList { funcDecl with body := post } := by
    simp only [getCallExprList, hbody, List.filterMap_append]
  have hadded : getCallExprList
        { funcDecl with body := pre ++ setReturnTypeStmt pos x y mode :: post }
      = getCallExprList { funcDecl with body := pre }
        ++ { pos := pos, «fun» := .selector x "SetReturnType", args := [.selector y mode] }
          :: getCallExprList { funcDecl with body := post } := by
    simp only [getCallExprList, List.filterMap_append, List.filterMap_cons, setReturnTypeStmt]
  rcases hmode with hm | hm
  · subst hm
    apply genSelectFunction_added_setReturnType context funcDecl _ .ReturnRecordSet
      (Or.inl rfl) hnone
    rw [hadded, hsplit]
    exact selectScan_added_setReturnType context _ _ _ .ReturnRecordSet
      (fun st => (selectScanStep_setReturnType context pos x y st).1) hafter
  · subst hm
    apply genSelectFunction_added_setReturnType context funcDecl _ .ReturnDefault
      (Or.inr rfl) hnone
    rw [hadded, hsplit]
    exact selectScan_added_setReturnType context _ _ _ .ReturnDefault
      (fun st => (selectScanStep_setReturnType context pos x y st).2) hafter

set_option maxRecDepth 100000 in
/-- Witness of C11: the scenario function `GetUser` with
`SetReturnType(ReturnRecordSet)` added before its `Where` call is emitted as
the function without it, with the result type `[]*User`. -/
theorem omitted_returnType_witness :
    (genSelectFunction exampleContext
        { scenarioGetUser with
          body := [dslCall 1 "From" [.ident "user"], dslCall 2 "SelectAll" [.ident "user"]]
            ++ setReturnTypeStmt 9 (.ident "sqlcodegen") (.ident "sqlcodegen") "ReturnRecordSet"
              :: [dslCall 3 "Where" [userIDEquals]] }).map (fun c => c.generator.writer)
      = .ok scenarioGetUserText
    ∧ (genSelectFunction exampleContext scenarioGetUser).map (fun c => c.generator.writer)
      = .ok scenarioGetUserText := by
  have h := omitted_returnType_is_recordSet exampleContext scenarioGetUser
    [dslCall 1 "From" [.ident "user"], dslCall 2 "SelectAll" [.ident "user"]]
    [dslCall 3 "Where" [userIDEquals]] 9 (.ident "sqlcodegen") (.ident "sqlcodegen")
    "ReturnRecordSet" (by rfl) (by decide) (Or.inl rfl)
  refine ⟨?_, by rfl⟩
  rw [h]
  rfl

/-! ## Theorems: parameter names, return mode and buffer size at concrete bodies -/

set_option maxRecDepth 100000

/-- C14 (fails on the code): for `func GetUser(a, b string)` the declared
parameter names are `a` and `b`, but `getFuncParamNames` records only `a`, the
first name of the field; the identifier `b` is then not translated to a
parameter, and the function with `Where(user.UserID == b)` fails with the
argument error of its `Where` call. -/
theorem sharedType_parameter_is_not_a_parameter :
    declaredParameterNames sharedTypeGetUser = ["a", "b"]
    ∧ getFuncParamNames sharedTypeGetUser = .ok [("a", 0)]
    ∧ astToSQLExpression (.ident "a") exampleContext [("a", 0)] = .ok (.parameter ⟨"a"⟩)
    ∧ astToSQLExpression (.ident "b") exampleContext [("a", 0)] = .error .plain
    ∧ genSelectFunction exampleContext sharedTypeGetUser = .error (.argError 3) := by
  refine ⟨by rfl, by rfl, by rfl, by rfl, by rfl⟩

/-- C19 (fails on the code): `SetReturnType(ReturnRecord)` with a bare
identifier, and `SetReturnType(1)` with a literal, end in a run-time panic of
the compiler (the unchecked type assertion on the argument), not in an
argument error; the qualified name `sqlcodegen.ReturnRecord` selects the mode,
and an unknown qualified name, no argument and two arguments give the argument
error of the call. -/
theorem setReturnType_unqualified_argument_faults :
    genSelectFunction exampleContext (selectWithReturnType [.ident "ReturnRecord"])
      = .error .fault
    ∧ genSelectFunction exampleContext (selectWithReturnType [.basicLit .INT "1"])
      = .error .fault
    ∧ selectModeAndBuffer exampleContext
        (selectWithReturnType [.selector (.ident "sqlcodegen") "ReturnRecord"])
      = .ok (.ReturnRecord, 0)
    ∧ genSelectFunction exampleContext
        (selectWithReturnType [.selector (.ident "sqlcodegen") "ReturnAll"])
      = .error (.argError 3)
    ∧ genSelectFunction exampleContext (selectWithReturnType []) = .error (.argError 3)
    ∧ genSelectFunction exampleContext
        (selectWithReturnType [.selector (.ident "sqlcodegen") "ReturnRecord",
                               .selector (.ident "sqlcodegen") "ReturnRecord"])
      = .error (.argError 3) := by
  refine ⟨by rfl, by rfl, by rfl, by rfl, by rfl, by rfl⟩

/-- C20 (fails on the code): `SetChannelBufferSize("8")` with a string literal
and `SetChannelBufferSize(1.5)` with a floating-point literal are accepted,
with the buffer size 0, and the integer literal `0x10` is accepted with the
buffer size 0 instead of 16; the integer literal `8` gives the size 8, and an
identifier, no argument and two arguments give the argument error of the
call. -/
theorem setChannelBufferSize_accepts_any_literal :
    selectModeAndBuffer exampleContext (selectWithBufferSize [.basicLit .STRING "\"8\""])
      = .ok (.ReturnRecordChannel, 0)
    ∧ selectModeAndBuffer exampleContext (selectWithBufferSize [.basicLit .FLOAT "1.5"])
      = .ok (.ReturnRecordChannel, 0)
    ∧ selectModeAndBuffer exampleContext (selectWithBufferSize [.basicLit .INT "0x10"])
      = .ok (.ReturnRecordChannel, 0)
    ∧ selectModeAndBuffer exampleContext (selectWithBufferSize [.basicLit .INT "8"])
      = .ok (.ReturnRecordChannel, 8)
    ∧ genSelectFunction exampleContext (selectWithBufferSize [.ident "n"])
      = .error (.argError 4)
    ∧ genSelectFunction exampleContext (selectWithBufferSize []) = .error (.argError 4)
    ∧ genSelectFunction exampleContext
        (selectWithBufferSize [.basicLit .INT "8", .basicLit .INT "9"])
      = .error (.argError 4)
    ∧ (genSelectFunction exampleContext
        (selectWithBufferSize [.basicLit .STRING "\"8\""])).map (fun c => c.generator.writer)
      = .ok ("func StreamUsers(db sqlutil.DbObject) (<-chan *User, context.CancelFunc, error) \x7b\r\n"
          ++ "\tconst query = \"SELECT UserID, UserName, Sex\\nFROM User\\n\"\r\n"
          ++ "\trows, err := db.QueryContext(context.Background(), query)\r\n"
          ++ "\tif err != nil \x7b\r\n"
          ++ "\t\treturn nil, nil, err\r\n"
          ++ "\t\x7d\r\n"
          ++ "\tchannel := make(chan *User)\r\n"
          ++ "\tctx, cancel := context.WithCancel(context.Background())\r\n"
          ++ "\tgo func() \x7b\r\n"
          ++ "\t\tdefer close(channel)\r\n"
          ++ "\t\tdefer rows.Close()\r\n"
          ++ "\t\tfor rows.Next() \x7b\r\n"
          ++ "\t\t\tvar o = new(User)\r\n"
          ++ "\t\t\trows.Scan(&o.UserID, &o.UserName, &o.Sex)\r\n"
          ++ "\t\t\tselect \x7b\r\n"
          ++ "\t\t\tcase <-ctx.Done(): \r\n"
          ++ "\t\t\t\treturn\r\n"
          ++ "\t\t\tcase channel <- o:\r\n"
          ++ "\t\t\t\x7d\r\n"
          ++ "\t\t\x7d\r\n"
          ++ "\t\x7d()\r\n"
          ++ "\treturn channel, cancel, nil\r\n"
          ++ "\x7d\r\n") := by
  refine ⟨by rfl, by rfl, by rfl, by rfl, by rfl, by rfl, by rfl, by rfl⟩

set_option maxRecDepth 512

/-! ## Theorems: the generator dispatch -/

theorem fun_is_selector_of_mem_getCallExprList (funcDecl : FuncDecl) (c : CallExpr)
    (h : c ∈ getCallExprList funcDecl) : ∃ x sel, c.fun = .selector x sel := by
  simp only [getCallExprList, List.mem_filterMap] at h
  obtain ⟨stmt, _, hstmt⟩ := h
  cases stmt with
  | exprCall call =>
    simp only at hstmt
    cases hf : call.fun with
    | selector x sel =>
      simp only [hf] at hstmt
      injection hstmt with hstmt
      subst hstmt
      exact ⟨x, sel, hf⟩
    | _ => simp [hf] at hstmt
  | _ => simp at hstmt

theorem kindNamedBy_eq (sel : String) :
    kindNamedBy sel
      = if stringsHasPrefix sel "Insert" then some .insert
        else if stringsHasPrefix sel "Select" then some .select
        else if stringsHasPrefix sel "Update" then some .update
        else if stringsHasPrefix sel "Delete" then some .delete
        else none := by
  unfold kindNamedBy
  simp only [List.find?_cons, List.find?_nil]
  cases stringsHasPrefix sel "Insert" <;> cases stringsHasPrefix sel "Select" <;>
    cases stringsHasPrefix sel "Update" <;> cases stringsHasPrefix sel "Delete" <;> rfl

/-- A name does not start with both `Delete` and `Update`. -/
theorem not_delete_and_update (sel : String) (h : stringsHasPrefix sel "Delete" = true) :
    stringsHasPrefix sel "Update" = false := by
  unfold stringsHasPrefix at h ⊢
  cases hd : sel.data with
  | nil => rfl
  | cons ch rest =>
    rw [hd] at h
    have hD : ('D' == ch) = true := by
      have : (('D' :: "elete".data).isPrefixOf (ch :: rest)) = true := h
      simp only [List.isPrefixOf, Bool.and_eq_true] at this
      exact this.1
    have hch : ch = 'D' := by
      have := eq_of_beq hD
      exact this.symm
    subst hch
    rfl

/-- One round of the loop: a call whose name starts a statement runs the
generator of its kind, any other call is skipped. -/
theorem checkSqlMethodLoop_cons (context : parseContext) (inst : FuncDecl) (c : CallExpr)
    (cs : List CallExpr) (x : Expr) (sel : String) (hf : c.fun = .selector x sel) :
    checkSqlMethodLoop context inst (c :: cs)
      = match c.kind with
        | some kind => runGenerator kind context inst
        | none => checkSqlMethodLoop context inst cs := by
  simp only [checkSqlMethodLoop, CallExpr.selName, hf, CallExpr.kind, kindNamedBy_eq]
  cases h1 : stringsHasPrefix sel "Insert"
  · cases h2 : stringsHasPrefix sel "Select"
    · cases h3 : stringsHasPrefix sel "Delete"
      · cases h4 : stringsHasPrefix sel "Update" <;> simp [runGenerator]
      · simp [not_delete_and_update sel h3, runGenerator]
    · simp [runGenerator]
  · simp [runGenerator]

/-- The loop runs the generator of the first call whose name starts a
statement. -/
theorem checkSqlMethodLoop_eq (context : parseContext) (inst : FuncDecl) (cs : List CallExpr)
    (hsel : ∀ c ∈ cs, ∃ x sel, c.fun = .selector x sel) :
    checkSqlMethodLoop context inst cs
      = match cs.findSome? (fun c => c.kind) with
        | none => .ok context
        | some kind => runGenerator kind context inst := by
  induction cs with
  | nil => rfl
  | cons c cs ih =>
    obtain ⟨x, sel, hf⟩ := hsel c (List.mem_cons_self c cs)
    have ih' := ih (fun d hd => hsel d (List.mem_cons_of_mem c hd))
    rw [checkSqlMethodLoop_cons context inst c cs x sel hf, List.findSome?_cons]
    cases c.kind with
    | none => exact ih'
    | some kind => rfl

set_option maxRecDepth 512

/-! ## Theorems: update functions -/

/-- The step of the assignment loop in terms of the acceptance condition. -/
theorem updateAssignStep_eq (context : parseContext) (funcDecl : FuncDecl)
    (paramNames : List (String × Nat)) (hnames : getFuncParamNames funcDecl = .ok paramNames)
    (call : CallExpr) (stmt : SQLUpdateStatement) :
    updateAssignStep context funcDecl call stmt
      = match updateAssignment context paramNames call with
        | some a => .ok { stmt with updateList := stmt.updateList ++ [a] }
        | none => .error (.argError call.pos) := by
  unfold updateAssignStep updateAssignment acceptableUpdate translatesToColumn
    translatesToValue newArgError
  match hargs : call.args with
  | [] => simp
  | [_] => simp
  | _ :: _ :: _ :: _ => simp
  | [target, value] =>
    simp only [hnames]
    cases ht : astToSQLExpression target context paramNames with
    | error e => simp
    | ok left =>
      cases left <;> simp
      cases hv : astToSQLExpression value context paramNames with
      | error e => simp
      | ok right => cases right <;> simp

theorem acceptableUpdate_iff (context : parseContext) (paramNames : List (String × Nat))
    (call : CallExpr) :
    acceptableUpdate context paramNames call = true
      ↔ ∃ a, updateAssignment context paramNames call = some a := by
  unfold updateAssignment
  cases hacc : acceptableUpdate context paramNames call with
  | false => simp
  | true =>
    simp only [if_true, true_iff]
    unfold acceptableUpdate translatesToColumn translatesToValue at hacc
    match hargs : call.args with
    | [] => simp [hargs] at hacc
    | [_] => simp [hargs] at hacc
    | _ :: _ :: _ :: _ => simp [hargs] at hacc
    | [target, value] =>
      simp only [hargs] at hacc
      cases ht : astToSQLExpression target context paramNames with
      | error e => simp [ht] at hacc
      | ok left =>
        cases hv : astToSQLExpression value context paramNames with
        | error e => simp [ht, hv] at hacc
        | ok right => exact ⟨.binary left "=" right, by simp [ht, hv]⟩

/-- The first loop of `genUpdateFunction` never fails on the calls of a body,
and collects the `Update` calls in body order. -/
theorem updateScan_ok (cs : List CallExpr) :
    ∀ st : UpdateScan, (∀ c ∈ cs, ∃ x sel, c.fun = .selector x sel) →
      ∃ st', forRangeM updateScanStep cs st = .ok st'
        ∧ st'.updateExprList = st.updateExprList ++ cs.filter (fun c => c.named "Update") := by
  induction cs with
  | nil => intro st _; exact ⟨st, rfl, by simp⟩
  | cons c cs ih =>
    intro st hsel
    obtain ⟨x, sel, hf⟩ := hsel c (List.mem_cons_self c cs)
    have hrest := fun s => ih s (fun d hd => hsel d (List.mem_cons_of_mem c hd))
    have hn : c.named "Update" = decide (sel = "Update") := by
      simp only [CallExpr.named, hf]
      rfl
    simp only [forRangeM, updateScanStep, CallExpr.selName, hf, List.filter_cons, hn]
    by_cases h1 : sel = "Update"
    · obtain ⟨st', hst', hl⟩ := hrest { st with updateExprList := st.updateExprList ++ [c] }
      refine ⟨st', ?_, ?_⟩
      · simpa [h1] using hst'
      · simp [h1, hl]
    · by_cases h2 : sel = "From"
      · obtain ⟨st', hst', hl⟩ := hrest { st with fromExpr := some c }
        exact ⟨st', by simpa [h1, h2] using hst', by simp [h1, hl]⟩
      · by_cases h3 : sel = "Where"
        · obtain ⟨st', hst', hl⟩ := hrest { st with whereExpr := some c }
          exact ⟨st', by simpa [h1, h2, h3] using hst', by simp [h1, hl]⟩
        · obtain ⟨st', hst', hl⟩ := hrest st
          exact ⟨st', by simpa [h1, h2, h3] using hst', by simp [h1, hl]⟩

/-- A successful assignment loop appends one assignment per call, in order,
and leaves the table and the predicate. -/
theorem updateAssign_ok (context : parseContext) (funcDecl : FuncDecl)
    (paramNames : List (String × Nat)) (hnames : getFuncParamNames funcDecl = .ok paramNames)
    (calls : List CallExpr) :
    ∀ (stmt stmt' : SQLUpdateStatement),
      forRangeM (updateAssignStep context funcDecl) calls stmt = .ok stmt' →
      stmt'.updateList.map some
          = stmt.updateList.map some ++ calls.map (updateAssignment context paramNames)
      ∧ stmt'.table = stmt.table ∧ stmt'.where = stmt.where := by
  induction calls with
  | nil =>
    intro stmt stmt' h
    simp only [forRangeM] at h
    injection h with h
    subst h
    simp
  | cons c calls ih =>
    intro stmt stmt' h
    simp only [forRangeM, updateAssignStep_eq context funcDecl paramNames hnames] at h
    cases ha : updateAssignment context paramNames c with
    | none => simp [ha] at h
    | some a =>
      simp only [ha] at h
      obtain ⟨h1, h2, h3⟩ := ih _ _ h
      refine ⟨?_, h2, h3⟩
      rw [h1]
      simp [ha]

/-- The assignment loop fails with an argument error as soon as one call is
not acceptable. -/
theorem updateAssign_error (context : parseContext) (funcDecl : FuncDecl)
    (paramNames : List (String × Nat)) (hnames : getFuncParamNames funcDecl = .ok paramNames)
    (calls : List CallExpr) :
    ∀ stmt : SQLUpdateStatement,
      (∃ c ∈ calls, updateAssignment context paramNames c = none) →
      ∃ pos, forRangeM (updateAssignStep context funcDecl) calls stmt
        = .error (.argError pos) := by
  induction calls with
  | nil => intro stmt h; simp at h
  | cons c calls ih =>
    intro stmt h
    simp only [forRangeM, updateAssignStep_eq context funcDecl paramNames hnames]
    cases ha : updateAssignment context paramNames c with
    | none => exact ⟨c.pos, rfl⟩
    | some a =>
      simp only
      apply ih
      obtain ⟨d, hmem, hnone⟩ := h
      rcases List.mem_cons.mp hmem with heq | htail
      · subst heq; rw [ha] at hnone; cases hnone
      · exact ⟨d, htail, hnone⟩

theorem getTableNameWithExpr_error (context : parseContext) (fromExpr : CallExpr)
    (err : GenError) (h : getTableNameWithExpr context fromExpr = .error err) :
    err = .argError fromExpr.pos := by
  unfold getTableNameWithExpr newArgError at h
  repeat' split at h
  all_goals first
    | (injection h with h; exact h.symm)
    | cases h

theorem astToSQLWhereExpression_error (context : parseContext) (funcDecl : FuncDecl)
    (paramNames : List (String × Nat)) (hnames : getFuncParamNames funcDecl = .ok paramNames)
    (whereExpr : Option CallExpr) (err : GenError)
    (h : astToSQLWhereExpression context funcDecl whereExpr = .error err) :
    ∃ pos, err = .argError pos := by
  unfold astToSQLWhereExpression newArgError at h
  simp only [hnames] at h
  repeat' split at h
  all_goals first
    | (injection h with h; exact ⟨_, h.symm⟩)
    | cases h

/-- A successful interpretation of an update function is the assignment loop
over the `Update` calls of the body, started from an empty assignment list. -/
theorem interpretUpdate_ok (context : parseContext) (funcDecl : FuncDecl)
    (stmt : SQLUpdateStatement) (h : interpretUpdate context funcDecl = .ok stmt) :
    ∃ stmt0 : SQLUpdateStatement, stmt0.updateList = []
      ∧ forRangeM (updateAssignStep context funcDecl)
          ((getCallExprList funcDecl).filter (fun c => c.named "Update")) stmt0 = .ok stmt := by
  obtain ⟨st, hscan, hlist⟩ := updateScan_ok (getCallExprList funcDecl) {}
    (fun c hc => fun_is_selector_of_mem_getCallExprList funcDecl c hc)
  simp only [List.nil_append] at hlist
  unfold interpretUpdate at h
  simp only [bind, Except.bind, hscan, hlist] at h
  repeat' split at h
  all_goals first
    | cases h
    | exact ⟨_, rfl, h⟩

/-- With readable parameter names, an update function with an `Update` call
that is not acceptable fails with an argument error. -/
theorem interpretUpdate_error (context : parseContext) (funcDecl : FuncDecl)
    (paramNames : List (String × Nat)) (hnames : getFuncParamNames funcDecl = .ok paramNames)
    (hbad : ∃ call ∈ getCallExprList funcDecl,
      call.named "Update" = true ∧ acceptableUpdate context paramNames call = false) :
    ∃ pos, interpretUpdate context funcDecl = .error (.argError pos) := by
  obtain ⟨st, hscan, hlist⟩ := updateScan_ok (getCallExprList funcDecl) {}
    (fun c hc => fun_is_selector_of_mem_getCallExprList funcDecl c hc)
  simp only [List.nil_append] at hlist
  have hloop : ∀ stmt : SQLUpdateStatement,
      ∃ pos, forRangeM (updateAssignStep context funcDecl) st.updateExprList stmt
        = .error (.argError pos) := by
    intro stmt
    apply updateAssign_error context funcDecl paramNames hnames
    obtain ⟨call, hmem, hupd, hacc⟩ := hbad
    refine ⟨call, ?_, ?_⟩
    · rw [hlist]
      exact List.mem_filter.mpr ⟨hmem, hupd⟩
    · cases ha : updateAssignment context paramNames call with
      | none => rfl
      | some a =>
        have := (acceptableUpdate_iff context paramNames call).mpr ⟨a, ha⟩
        rw [this] at hacc
        cases hacc
  unfold interpretUpdate
  simp only [bind, Except.bind, hscan]
  cases hfrom : st.fromExpr with
  | none =>
    simp only
    cases hw : astToSQLWhereExpression context funcDecl st.whereExpr with
    | error err =>
      obtain ⟨pos, hpos⟩ :=
        astToSQLWhereExpression_error context funcDecl paramNames hnames _ err hw
      exact ⟨pos, by rw [hpos]⟩
    | ok w => exact hloop _
  | some fromExpr =>
    simp only
    cases hf : getTableNameWithExpr context fromExpr with
    | error err =>
      exact ⟨fromExpr.pos, by rw [getTableNameWithExpr_error context fromExpr err hf]⟩
    | ok tableName =>
      simp only
      cases hw : astToSQLWhereExpression context funcDecl st.whereExpr with
      | error err =>
        obtain ⟨pos, hpos⟩ :=
          astToSQLWhereExpression_error context funcDecl paramNames hnames _ err hw
        exact ⟨pos, by rw [hpos]⟩
      | ok w => exact hloop _

/-- C15: when the parameter names of the function can be read, the step of
`genUpdateFunction` for an `Update` call succeeds if and only if the call has
exactly two arguments, the first translating to a `Column` and the second to a
`Parameter` or a `Literal`; in every other case the step fails with the
argument error of the call, and a function whose body holds such an `Update`
call fails with an argument error. -/
theorem update_call_accepted_iff (context : parseContext) (funcDecl : FuncDecl)
    (paramNames : List (String × Nat))
    (hnames : getFuncParamNames funcDecl = .ok paramNames) :
    (∀ (call : CallExpr) (stmt : SQLUpdateStatement),
      (∃ stmt', updateAssignStep context funcDecl call stmt = .ok stmt')
        ↔ acceptableUpdate context paramNames call = true)
    ∧ (∀ (call : CallExpr) (stmt : SQLUpdateStatement),
      acceptableUpdate context paramNames call = false →
      updateAssignStep context funcDecl call stmt = .error (.argError call.pos))
    ∧ ((∃ call ∈ getCallExprList funcDecl,
          call.named "Update" = true ∧ acceptableUpdate context paramNames call = false) →
        ∃ pos, genUpdateFunction context funcDecl = .error (.argError pos)) := by
  have hstep := updateAssignStep_eq context funcDecl paramNames hnames
  have hnone : ∀ call, acceptableUpdate context paramNames call = false →
      updateAssignment context paramNames call = none := by
    intro call hacc
    cases ha : updateAssignment context paramNames call with
    | none => rfl
    | some a =>
      have := (acceptableUpdate_iff context paramNames call).mpr ⟨a, ha⟩
      rw [this] at hacc
      cases hacc
  refine ⟨?_, ?_, ?_⟩
  · intro call stmt
    rw [hstep, acceptableUpdate_iff]
    cases updateAssignment context paramNames call with
    | none => simp
    | some a => simp
  · intro call stmt hacc
    rw [hstep, hnone call hacc]
  · intro hbad
    obtain ⟨pos, hpos⟩ := interpretUpdate_error context funcDecl paramNames hnames hbad
    exact ⟨pos, by simp only [genUpdateFunction, bind, Except.bind, hpos]⟩

set_option maxRecDepth 100000 in
/-- Witness of C15: in `UpdateUser`, `Update(user.UserName, userName)` is
acceptable, `Update(user.Sex, user.UserID)` is not, and the function holding
it fails with an argument error. -/
theorem update_call_accepted_witness :
    getFuncParamNames updateColumnWithColumn
        = .ok [("sex", 2), ("userName", 1), ("userID", 0)]
    ∧ acceptableUpdate exampleContext [("sex", 2), ("userName", 1), ("userID", 0)]
        (dslCallExpr 2 "Update" [userField "UserName", .ident "userName"]) = true
    ∧ updateAssignStep exampleContext updateColumnWithColumn
        (dslCallExpr 3 "Update" [userField "Sex", userField "UserID"]) {}
        = .error (.argError 3)
    ∧ ∃ pos, genUpdateFunction exampleContext updateColumnWithColumn
        = .error (.argError pos) :=
  ⟨by rfl, by rfl,
   (update_call_accepted_iff exampleContext updateColumnWithColumn
      [("sex", 2), ("userName", 1), ("userID", 0)] (by rfl)).2.1
      (dslCallExpr 3 "Update" [userField "Sex", userField "UserID"]) {} (by rfl),
   (update_call_accepted_iff exampleContext updateColumnWithColumn
      [("sex", 2), ("userName", 1), ("userID", 0)] (by rfl)).2.2
      ⟨dslCallExpr 3 "Update" [userField "Sex", userField "UserID"],
        by decide, by rfl, by rfl⟩⟩

theorem WriteWhere_buffer (b : defaultSQLBuilder) (w : Option SQLExpression) :
    (b.WriteWhere w).buffer = b.buffer ++ whereClauseText w := by
  cases w with
  | none => simp [defaultSQLBuilder.WriteWhere, whereClauseText]
  | some e =>
    simp only [defaultSQLBuilder.WriteWhere, defaultSQLBuilder.WriteLine, Write_buffer,
      WriteSQLExpression_buffer, whereClauseText, render_eq_expressionText,
      String.append_assoc]

/-- The loop over an update list of assignments writes their texts joined by
commas. -/
theorem writeUpdateListFrom_buffer (l : List SQLExpression) :
    ∀ (i : Nat) (b : defaultSQLBuilder),
      (∀ e ∈ l, ∃ left op right, e = SQLExpression.binary left op right) →
      ∃ b', writeUpdateListFrom i l b = .ok b'
        ∧ b'.buffer = b.buffer
            ++ (if i > 0 then String.join (l.map (fun e => "," ++ assignmentText e))
                else String.intercalate "," (l.map assignmentText)) := by
  induction l with
  | nil =>
    intro i b _
    refine ⟨b, rfl, ?_⟩
    by_cases h : i > 0 <;> simp [h, String.join, String.intercalate]
  | cons e l ih =>
    intro i b hall
    obtain ⟨left, op, right, he⟩ := hall e (List.mem_cons_self e l)
    subst he
    obtain ⟨b', hb', hbuf⟩ := ih (i + 1)
      ((((if i > 0 then b.Write "," else b).WriteSQLExpression left).Write " = ").WriteSQLExpression
        right)
      (fun d hd => hall d (List.mem_cons_of_mem _ hd))
    refine ⟨b', ?_, ?_⟩
    · simp only [writeUpdateListFrom, writeUpdateItem]
      exact hb'
    · rw [hbuf]
      by_cases h : i > 0
      · simp [h, join_cons, assignmentText, WriteSQLExpression_buffer,
          render_eq_expressionText, String.append_assoc]
      · simp [h, intercalate_cons, assignmentText, WriteSQLExpression_buffer,
          render_eq_expressionText, String.append_assoc, List.map_map, Function.comp_def]

/-- The text of an update statement whose update list holds assignments. -/
theorem WriteUpdateStatement_text (b : defaultSQLBuilder) (stmt : SQLUpdateStatement)
    (hall : ∀ e ∈ stmt.updateList, ∃ left op right, e = SQLExpression.binary left op right) :
    ∃ b', b.Reset.WriteUpdateStatement stmt = .ok b'
      ∧ b'.String' = "UPDATE " ++ stmt.table ++ "\\n" ++ "SET "
          ++ String.intercalate "," (stmt.updateList.map assignmentText) ++ "\\n"
          ++ whereClauseText stmt.where := by
  obtain ⟨b1, hb1, hbuf⟩ := writeUpdateListFrom_buffer stmt.updateList 0
    ((((b.Reset.Write "UPDATE ").Write stmt.table).WriteLine).Write "SET ") hall
  refine ⟨b1.WriteLine.WriteWhere stmt.where, ?_, ?_⟩
  · simp only [defaultSQLBuilder.WriteUpdateStatement, hb1]
  · simp only [defaultSQLBuilder.String', WriteWhere_buffer, defaultSQLBuilder.WriteLine,
      Write_buffer, hbuf, defaultSQLBuilder.Reset, gt_iff_lt, lt_self_iff_false, if_false,
      String.empty_append, String.append_assoc]

theorem updateAssignment_binary (context : parseContext) (paramNames : List (String × Nat))
    (call : CallExpr) (a : SQLExpression)
    (h : updateAssignment context paramNames call = some a) :
    ∃ left op right, a = SQLExpression.binary left op right := by
  unfold updateAssignment at h
  repeat' split at h
  all_goals first
    | (injection h with h; exact ⟨_, _, _, h.symm⟩)
    | cases h

set_option maxRecDepth 100000

/-- C16: for every update function whose interpretation succeeds (its
parameter names being readable), the assignment list holds exactly one
assignment per `Update` call, in the order of the calls in the body, each the
assignment `column = value` of its call; and the text written for the
statement is `UPDATE `, the table, a line break, `SET `, the assignment texts
`<column> = <value>` joined by `,`, a line break, and the WHERE clause when a
predicate is present. For `UpdateUser` of the example the text is
`UPDATE User\nSET UserName = ?,Sex = ?\nWHERE UserID = ?\n`. -/
theorem update_assignments_in_call_order :
    (∀ (context : parseContext) (funcDecl : FuncDecl) (paramNames : List (String × Nat))
        (stmt : SQLUpdateStatement),
      getFuncParamNames funcDecl = .ok paramNames →
      interpretUpdate context funcDecl = .ok stmt →
      stmt.updateList.map some
          = ((getCallExprList funcDecl).filter (fun c => c.named "Update")).map
              (updateAssignment context paramNames)
      ∧ ∃ builder, context.sqlBuilder.Reset.WriteUpdateStatement stmt = .ok builder
          ∧ builder.String' = "UPDATE " ++ stmt.table ++ "\\n" ++ "SET "
              ++ String.intercalate "," (stmt.updateList.map assignmentText) ++ "\\n"
              ++ whereClauseText stmt.where)
    ∧ updateSqlText exampleContext exampleUpdateUser
        = .ok "UPDATE User\\nSET UserName = ?,Sex = ?\\nWHERE UserID = ?\\n" := by
  refine ⟨?_, by rfl⟩
  intro context funcDecl paramNames stmt hnames hok
  obtain ⟨stmt0, hempty, hloop⟩ := interpretUpdate_ok context funcDecl stmt hok
  have hlist := (updateAssign_ok context funcDecl paramNames hnames _ stmt0 stmt hloop).1
  rw [hempty] at hlist
  simp only [List.map_nil, List.nil_append] at hlist
  refine ⟨hlist, WriteUpdateStatement_text context.sqlBuilder stmt ?_⟩
  intro e he
  have hmem : some e ∈ stmt.updateList.map some := List.mem_map_of_mem _ he
  rw [hlist] at hmem
  obtain ⟨call, _, hcall⟩ := List.mem_map.mp hmem
  exact updateAssignment_binary context paramNames call e hcall

/-- Witness of C16: `UpdateUser` of the example has the assignments
`UserName = userName` and `Sex = sex`, in the order of its `Update` calls. -/
theorem update_assignments_witness :
    getFuncParamNames exampleUpdateUser = .ok [("sex", 2), ("userName", 1), ("userID", 0)]
    ∧ interpretUpdate exampleContext exampleUpdateUser = .ok exampleUpdateUserStmt
    ∧ exampleUpdateUserStmt.updateList.map some
        = ((getCallExprList exampleUpdateUser).filter (fun c => c.named "Update")).map
            (updateAssignment exampleContext [("sex", 2), ("userName", 1), ("userID", 0)]) :=
  ⟨by rfl, by rfl,
   (update_assignments_in_call_order.1 exampleContext exampleUpdateUser
      [("sex", 2), ("userName", 1), ("userID", 0)] exampleUpdateUserStmt
      (by rfl) (by rfl)).1⟩

set_option maxRecDepth 512

/-! ## Theorems: the ORDER BY list -/

/-- A successful step of an `OrderBy` / `OrderByDescending` call appends the
entry of the call. -/
theorem selectScanStep_order (context : parseContext)
    (hname : context.entity.lookup "" = none) (c : CallExpr) (st st' : SelectScan)
    (hc : c.isOrderCall = true) (h : selectScanStep context c st = .ok st') :
    ∃ o, orderEntry context c = some o ∧ st'.orderByList = st.orderByList ++ [o] := by
  obtain ⟨x, name, hf, hcase⟩ :
      ∃ x name, c.fun = .selector x name ∧ (name = "OrderBy" ∨ name = "OrderByDescending") := by
    unfold CallExpr.isOrderCall CallExpr.named at hc
    cases hf : c.fun <;> simp [hf] at hc
    exact ⟨_, _, rfl, hc⟩
  have hdesc : c.named "OrderByDescending" = decide (name = "OrderByDescending") := by
    simp only [CallExpr.named, hf]
    rfl
  have hne : name ≠ "Select" ∧ name ≠ "SelectAll" ∧ name ≠ "From" ∧ name ≠ "Where" := by
    rcases hcase with rfl | rfl <;> decide
  unfold selectScanStep at h
  simp only [CallExpr.selName, hf, hne.1, hne.2.1, hne.2.2.1, hne.2.2.2, if_false, hcase,
    if_true] at h
  unfold orderEntry resolveColumn
  cases hargs : c.args with
  | nil => simp [hargs] at h
  | cons arg rest =>
    simp only [hargs, parseContext.getEntityWithExpr, newArgError] at h ⊢
    cases arg with
    | selector y sel =>
      cases y with
      | ident e =>
        simp only at h ⊢
        cases hl : context.entity.lookup e with
        | none => simp [hl] at h
        | some entity =>
          simp only [hl] at h ⊢
          cases hcol : entity.getColumn sel with
          | none => simp [hcol] at h
          | some col =>
            simp only [hcol] at h ⊢
            injection h with h
            subst h
            exact ⟨_, by simp [columnExpression, hdesc], rfl⟩
      | _ => simp [hname] at h
    | ident e =>
      simp only at h
      cases hl : context.entity.lookup e <;> simp [hl] at h
    | _ => simp [hname] at h

/-- A call that is neither `OrderBy` nor `OrderByDescending` leaves the ORDER
BY list. -/
theorem selectScanStep_not_order (context : parseContext) (c : CallExpr)
    (st st' : SelectScan) (hc : c.isOrderCall = false)
    (h : selectScanStep context c st = .ok st') :
    st'.orderByList = st.orderByList := by
  unfold selectScanStep at h
  cases hn : c.selName with
  | error e => simp [hn] at h
  | ok name =>
    have hno : ¬ (name = "OrderBy" ∨ name = "OrderByDescending") := by
      unfold CallExpr.isOrderCall at hc
      rw [named_of_selName c name "OrderBy" hn,
        named_of_selName c name "OrderByDescending" hn] at hc
      simpa using hc
    simp only [hn, hno, if_false] at h
    repeat' split at h
    all_goals first
      | (injection h with h; subst h; rfl)
      | cases h

/-- The ORDER BY list after the scan: one entry per `OrderBy` /
`OrderByDescending` call, in the order of the calls. -/
theorem selectScan_orderByList (context : parseContext)
    (hname : context.entity.lookup "" = none) (cs : List CallExpr) :
    ∀ (st st' : SelectScan), forRangeM (selectScanStep context) cs st = .ok st' →
      st'.orderByList.map some
        = st.orderByList.map some
          ++ (cs.filter (fun c => c.isOrderCall)).map (orderEntry context) := by
  induction cs with
  | nil =>
    intro st st' h
    simp only [forRangeM] at h
    injection h with h
    subst h
    simp
  | cons c cs ih =>
    intro st st' h
    simp only [forRangeM] at h
    cases hstep : selectScanStep context c st with
    | error e => simp [hstep] at h
    | ok s1 =>
      simp only [hstep] at h
      rw [ih s1 st' h]
      cases hc : c.isOrderCall with
      | false =>
        rw [selectScanStep_not_order context c st s1 hc hstep]
        simp [hc]
      | true =>
        obtain ⟨o, ho, hl⟩ := selectScanStep_order context hname c st s1 hc hstep
        simp [hc, hl, ho]

theorem tableToSelect_loop_orderByList (cols : List column) :
    ∀ (i : Nat) (stmt : SQLSelectStatement),
      (forRangeFrom (fun _ col (stmt : SQLSelectStatement) =>
          { stmt with selectList := stmt.selectList ++
              [.column { columnName := col.columnName, source := col,
                         tableName := stmt.table }] }) i cols stmt).orderByList
        = stmt.orderByList := by
  induction cols with
  | nil => intro i stmt; rfl
  | cons c cols ih =>
    intro i stmt
    simp only [forRangeFrom]
    rw [ih]

theorem selectArgs_orderByList (context : parseContext) (selectExpr : CallExpr)
    (args : List Expr) :
    ∀ (stmt stmt' : SQLSelectStatement),
      forRangeM (selectArgStep context selectExpr) args stmt = .ok stmt' →
      stmt'.orderByList = stmt.orderByList := by
  induction args with
  | nil =>
    intro stmt stmt' h
    simp only [forRangeM] at h
    injection h with h
    subst h
    rfl
  | cons a args ih =>
    intro stmt stmt' h
    simp only [forRangeM] at h
    cases hstep : selectArgStep context selectExpr a stmt with
    | error e => simp [hstep] at h
    | ok s1 =>
      simp only [hstep] at h
      rw [ih s1 stmt' h]
      unfold selectArgStep at hstep
      repeat' split at hstep
      all_goals first
        | (injection hstep with hstep; subst hstep; rfl)
        | cases hstep

theorem buildSelectList_orderByList (context : parseContext) (isSelectAll : Bool)
    (selectExpr : CallExpr) (stmt stmt' : SQLSelectStatement)
    (h : buildSelectList context isSelectAll selectExpr stmt = .ok stmt') :
    stmt'.orderByList = stmt.orderByList := by
  unfold buildSelectList at h
  cases isSelectAll with
  | false =>
    simp only [Bool.false_eq_true, if_false] at h
    exact selectArgs_orderByList context selectExpr _ stmt stmt' h
  | true =>
    simp only [if_true] at h
    repeat' split at h
    all_goals
      cases h
      try (simp only [tableToSelectStatement, forRange, Option.getD_some]
           rw [tableToSelect_loop_orderByList])

/-- When the interpretation of a select function succeeds, its ORDER BY list is
the one collected by the scan of the calls. -/
theorem interpretSelect_orderByList (context : parseContext) (funcDecl : FuncDecl)
    (plan : SelectPlan) (h : interpretSelect context funcDecl = .ok plan) :
    ∃ st, forRangeM (selectScanStep context) (getCallExprList funcDecl) {} = .ok st
      ∧ plan.selectStmt.orderByList = st.orderByList := by
  unfold interpretSelect at h
  simp only [bind, Except.bind, pure, Except.pure] at h
  cases hscan : forRangeM (selectScanStep context) (getCallExprList funcDecl) {} with
  | error e => simp [hscan] at h
  | ok st =>
    simp only [hscan] at h
    cases hsel : st.selectExpr with
    | none => simp [hsel] at h
    | some selectExpr =>
      simp only [hsel] at h
      cases hbuild : buildSelectList context st.isSelectAll selectExpr
          { orderByList := st.orderByList } with
      | error e => simp [hbuild] at h
      | ok stmt =>
        simp only [hbuild] at h
        have hkeep := buildSelectList_orderByList context _ _ _ stmt hbuild
        simp only at hkeep
        refine ⟨st, rfl, ?_⟩
        rw [← hkeep]
        repeat' split at h
        all_goals first
          | (injection h with h; subst h; rfl)
          | cases h

/-- A loop that writes `sep` before every item but the first, each item with a
writer that appends its text, writes the texts joined by `sep`. -/
theorem forRangeFrom_sep_writer {α : Type} (sep : String) (f : α → String)
    (w : α → defaultSQLBuilder → defaultSQLBuilder)
    (hw : ∀ x b, (w x b).buffer = b.buffer ++ f x) (xs : List α) :
    ∀ (i : Nat) (b : defaultSQLBuilder),
      (forRangeFrom (fun i x b => w x (if i > 0 then b.Write sep else b)) i xs b).buffer
        = b.buffer ++ (if i > 0 then String.join (xs.map (fun x => sep ++ f x))
                       else String.intercalate sep (xs.map f)) := by
  induction xs with
  | nil => intro i b; by_cases h : i > 0 <;> simp [forRangeFrom, h, String.join, String.intercalate]
  | cons x xs ih =>
    intro i b
    simp only [forRangeFrom]
    rw [ih]
    by_cases h : i > 0
    · simp [h, hw, join_cons, String.append_assoc]
    · simp [h, hw, intercalate_cons, String.append_assoc, List.map_map, Function.comp_def]

/-- The text of a select statement: the SELECT line with the select list
joined by `, `, the FROM line when the table is not empty, the WHERE clause,
the ORDER BY clause when the list is not empty, and the LIMIT line when the
limit is positive. -/
theorem WriteSelectStatement_text (b : defaultSQLBuilder) (stmt : SQLSelectStatement) :
    (b.Reset.WriteSelectStatement stmt).String'
      = "SELECT " ++ String.intercalate ", " (stmt.selectList.map render) ++ "\\n"
        ++ (if stmt.table ≠ "" then "FROM " ++ stmt.table ++ "\\n" else "")
        ++ whereClauseText stmt.where
        ++ orderByClauseText stmt.orderByList
        ++ (if stmt.limitRows > 0 then "LIMIT " ++ itoa stmt.limitRows ++ "\\n" else "") := by
  have h1 := forRangeFrom_sep_writer ", " render
    (fun expr (b : defaultSQLBuilder) => b.WriteSQLExpression expr)
    (fun x b => by rw [WriteSQLExpression_buffer, render_eq_expressionText]) stmt.selectList 0
  have h2 := forRangeFrom_sep_writer "," orderEntryText
    (fun o (b : defaultSQLBuilder) => b.WriteSQLExpression (.order o))
    (fun x b => by rw [WriteSQLExpression_buffer]; rfl) stmt.orderByList 0
  simp only [gt_iff_lt, lt_self_iff_false, if_false] at h1 h2
  simp only [defaultSQLBuilder.WriteSelectStatement, defaultSQLBuilder.String', forRange,
    orderByClauseText]
  by_cases ht : stmt.table = "" <;> by_cases ho : stmt.orderByList.length > 0 <;>
    by_cases hl : stmt.limitRows > 0 <;>
    simp only [ht, ho, hl, h1, h2, WriteWhere_buffer, defaultSQLBuilder.WriteLine,
      defaultSQLBuilder.Reset, String.append_assoc, Write_buffer, if_true, if_false, ne_eq,
      not_true_eq_false, not_false_eq_true, String.append_empty, String.empty_append,
      gt_iff_lt]

set_option maxRecDepth 100000

/-- C17: in a context whose entity names are not empty, the ORDER BY list of
every successfully interpreted select function holds exactly one entry per
`OrderBy` / `OrderByDescending` call, in the order of the calls in the body,
each with the column its call names and descending exactly when its call is
`OrderByDescending`; the text of a select statement has no ORDER BY clause for
an empty list and otherwise `ORDER BY `, the entries joined by `,` with
` DESC` after each descending column, and a line break. For
`OrderBy(user.Sex); OrderByDescending(user.UserID)` the clause is
`ORDER BY Sex,UserID DESC`. -/
theorem orderBy_entries_in_call_order :
    (∀ (context : parseContext) (funcDecl : FuncDecl) (plan : SelectPlan),
      context.entity.lookup "" = none →
      interpretSelect context funcDecl = .ok plan →
      plan.selectStmt.orderByList.map some
        = ((getCallExprList funcDecl).filter (fun c => c.isOrderCall)).map
            (orderEntry context))
    ∧ (∀ (context : parseContext) (call : CallExpr) (o : SQLOrderExpression),
      orderEntry context call = some o →
      o.isDescending = call.named "OrderByDescending")
    ∧ (∀ (b : defaultSQLBuilder) (stmt : SQLSelectStatement),
      (b.Reset.WriteSelectStatement stmt).String'
        = "SELECT " ++ String.intercalate ", " (stmt.selectList.map render) ++ "\\n"
          ++ (if stmt.table ≠ "" then "FROM " ++ stmt.table ++ "\\n" else "")
          ++ whereClauseText stmt.where
          ++ orderByClauseText stmt.orderByList
          ++ (if stmt.limitRows > 0 then "LIMIT " ++ itoa stmt.limitRows ++ "\\n" else ""))
    ∧ orderByClauseText [] = ""
    ∧ (∀ (o : SQLOrderExpression) (rest : List SQLOrderExpression),
      orderByClauseText (o :: rest)
        = "ORDER BY " ++ String.intercalate "," ((o :: rest).map orderEntryText) ++ "\\n")
    ∧ (∀ c : SQLColumnExpression,
      orderEntryText { column := c, isDescending := false } = c.columnName
      ∧ orderEntryText { column := c, isDescending := true } = c.columnName ++ " DESC")
    ∧ selectSqlText exampleContext exampleGetSortedUserList
        = .ok "SELECT UserID, UserName, Sex\\nFROM User\\nORDER BY Sex,UserID DESC\\n" := by
  refine ⟨?_, ?_, WriteSelectStatement_text, by rfl, ?_, ?_, by rfl⟩
  · intro context funcDecl plan hname hok
    obtain ⟨st, hscan, hlist⟩ := interpretSelect_orderByList context funcDecl plan hok
    rw [hlist, selectScan_orderByList context hname _ {} st hscan]
    simp
  · intro context call o ho
    unfold orderEntry at ho
    repeat' split at ho
    all_goals first
      | (injection ho with ho; subst ho; rfl)
      | cases ho
  · intro o rest
    simp [orderByClauseText]
  · intro c
    constructor
    · simp [orderEntryText]
    · simp [orderEntryText]

/-- Witness of C17: `OrderBy(user.Sex)` before and
`OrderByDescending(user.UserID)` after the other calls give the entries `Sex`
and `UserID` descending, in this order. -/
theorem orderBy_entries_witness :
    exampleContext.entity.lookup "" = none
    ∧ interpretSelect exampleContext selectAllAmongCalls = .ok selectAllAmongCallsPlan
    ∧ selectAllAmongCallsPlan.selectStmt.orderByList.map some
        = ((getCallExprList selectAllAmongCalls).filter (fun c => c.isOrderCall)).map
            (orderEntry exampleContext) :=
  ⟨by rfl, by rfl,
   orderBy_entries_in_call_order.1 exampleContext selectAllAmongCalls selectAllAmongCallsPlan
     (by rfl) (by rfl)⟩

set_option maxRecDepth 512

/-! ## Theorems: the table of `From` and `Delete`, and faults of the interpreters -/

set_option maxRecDepth 100000

/-- C21: `getTableNameWithExpr` returns a name if and only if the call has
exactly one argument, that argument is a plain identifier, and the identifier
is bound as an entity, the name being the physical name of the bound table; in
every other case it fails with the argument error of the call. So `From(user)`
gives `User`, and `From()`, `From(user, user)`, `From(user.UserID)` and
`From(nobody)` fail with the argument error. -/
theorem getTableNameWithExpr_iff_bound_identifier :
    (∀ (context : parseContext) (fromExpr : CallExpr) (tableName : String),
      getTableNameWithExpr context fromExpr = .ok tableName
        ↔ ∃ entityName entity, fromExpr.args = [.ident entityName]
            ∧ context.entity.lookup entityName = some entity
            ∧ entity.tableName = tableName)
    ∧ (∀ (context : parseContext) (fromExpr : CallExpr),
      (∃ entityName entity, fromExpr.args = [.ident entityName]
          ∧ context.entity.lookup entityName = some entity
          ∧ getTableNameWithExpr context fromExpr = .ok entity.tableName)
      ∨ ((¬ ∃ entityName entity, fromExpr.args = [.ident entityName]
            ∧ context.entity.lookup entityName = some entity)
          ∧ getTableNameWithExpr context fromExpr = .error (.argError fromExpr.pos)))
    ∧ getTableNameWithExpr exampleContext (dslCallExpr 1 "From" [.ident "user"]) = .ok "User"
    ∧ getTableNameWithExpr exampleContext (dslCallExpr 1 "From" []) = .error (.argError 1)
    ∧ getTableNameWithExpr exampleContext (dslCallExpr 1 "From" [.ident "user", .ident "user"])
        = .error (.argError 1)
    ∧ getTableNameWithExpr exampleContext (dslCallExpr 1 "From" [userField "UserID"])
        = .error (.argError 1)
    ∧ getTableNameWithExpr exampleContext (dslCallExpr 1 "From" [.ident "nobody"])
        = .error (.argError 1) := by
  have hcases : ∀ (context : parseContext) (fromExpr : CallExpr),
      (∃ entityName entity, fromExpr.args = [.ident entityName]
          ∧ context.entity.lookup entityName = some entity
          ∧ getTableNameWithExpr context fromExpr = .ok entity.tableName)
      ∨ ((¬ ∃ entityName entity, fromExpr.args = [.ident entityName]
            ∧ context.entity.lookup entityName = some entity)
          ∧ getTableNameWithExpr context fromExpr = .error (.argError fromExpr.pos)) := by
    intro context fromExpr
    unfold getTableNameWithExpr newArgError
    split
    · next entityName hargs =>
      split
      · next entity hl => exact Or.inl ⟨entityName, entity, hargs, hl, rfl⟩
      · next hl =>
        refine Or.inr ⟨?_, rfl⟩
        rintro ⟨e, t, he, ht⟩
        rw [hargs] at he
        injection he with he _
        injection he with he
        subst he
        rw [hl] at ht
        cases ht
    · next hne =>
      refine Or.inr ⟨?_, rfl⟩
      rintro ⟨e, t, he, _⟩
      exact hne e he
  refine ⟨?_, hcases, by rfl, by rfl, by rfl, by rfl, by rfl⟩
  intro context fromExpr tableName
  constructor
  · intro hok
    rcases hcases context fromExpr with ⟨e, t, he, ht, hr⟩ | ⟨_, hr⟩
    · rw [hr] at hok
      injection hok with hok
      exact ⟨e, t, he, ht, hok⟩
    · rw [hr] at hok
      cases hok
  · rintro ⟨e, t, he, ht, hn⟩
    rcases hcases context fromExpr with ⟨e', t', he', ht', hr⟩ | ⟨hno, _⟩
    · rw [he] at he'
      injection he' with he' _
      injection he' with he'
      subst he'
      rw [ht] at ht'
      injection ht' with ht'
      subst ht'
      rw [hr, hn]
    · exact absurd ⟨e, t, he, ht⟩ hno

/-- C30 (fails on the code): `Select()`, `SelectAll()`, `OrderBy()`,
`OrderByDescending()` and `InsertAll()` without arguments, and bodies whose
deciding call is `SelectFoo` or `DeleteFoo`, end in a run-time panic of the
compiler (an index out of range or a nil dereference), not in a statement or
an argument error; `Delete()` without arguments does give the argument error
of the call. -/
theorem interpreter_faults_on_missing_arguments :
    genSelectFunction exampleContext (functionOfCalls [("Select", [])]) = .error .fault
    ∧ genSelectFunction exampleContext (functionOfCalls [("SelectAll", [])]) = .error .fault
    ∧ genSelectFunction exampleContext
        (functionOfCalls [("SelectAll", [.ident "user"]), ("OrderBy", [])]) = .error .fault
    ∧ genSelectFunction exampleContext
        (functionOfCalls [("SelectAll", [.ident "user"]), ("OrderByDescending", [])])
        = .error .fault
    ∧ genInsertFunction exampleContext (functionOfCalls [("InsertAll", [])]) = .error .fault
    ∧ compileFuncDecl exampleContext (functionOfCalls [("SelectFoo", [.ident "user"])])
        = .error .fault
    ∧ compileFuncDecl exampleContext (functionOfCalls [("DeleteFoo", [.ident "user"])])
        = .error .fault
    ∧ genDeleteFunction exampleContext (functionOfCalls [("Delete", [])])
        = .error (.argError 1) := by
  refine ⟨by rfl, by rfl, by rfl, by rfl, by rfl, by rfl, by rfl, by rfl⟩

set_option maxRecDepth 512

/-! ## Theorems: the metadata of fields -/

theorem matchTagAt_value_ne_nil (cs key value : List Char)
    (h : matchTagAt cs = some (key, value)) : value ≠ [] := by
  unfold matchTagAt at h
  repeat' split at h
  all_goals
    cases h
    try exact fun hr => ‹¬ _ = []› (by simpa using hr)

theorem findTag_value_ne_nil (cs key value : List Char)
    (h : findTag cs = some (key, value)) : value ≠ [] := by
  induction cs with
  | nil => simp [findTag] at h
  | cons c cs ih =>
    simp only [findTag] at h
    cases hm : matchTagAt (c :: cs) with
    | none =>
      simp only [hm] at h
      exact ih h
    | some kv =>
      simp only [hm] at h
      injection h with h
      subst h
      exact matchTagAt_value_ne_nil _ _ _ hm

theorem takeWhile_append_stop {α : Type} (p : α → Bool) (l : List α) (c : α) (r : List α)
    (hl : ∀ x ∈ l, p x = true) (hc : p c = false) :
    (l ++ c :: r).takeWhile p = l ∧ (l ++ c :: r).dropWhile p = c :: r := by
  induction l with
  | nil => simp [List.takeWhile, List.dropWhile, hc]
  | cons x l ih =>
    have hx := hl x (List.mem_cons_self x l)
    have ih' := ih (fun y hy => hl y (List.mem_cons_of_mem x hy))
    simp [List.takeWhile, List.dropWhile, hx, ih'.1, ih'.2]

theorem findTag_of_matchTagAt (cs : List Char) (kv : List Char × List Char)
    (h : matchTagAt cs = some kv) : findTag cs = some kv := by
  cases cs with
  | nil => simp [matchTagAt] at h
  | cons c cs => simp only [findTag, h]

theorem findTag_cons_of_not_word (c : Char) (cs : List Char) (hc : isWordChar c = false) :
    findTag (c :: cs) = findTag cs := by
  have : matchTagAt (c :: cs) = none := by
    simp [matchTagAt, List.takeWhile, hc]
  simp only [findTag, this]

/-- The match of a field `key:"value"`, possibly between other characters: when
no word character stands before the key, the key is a non-empty word, the
value is not empty, and no double quote follows the closing one, the two groups
are the key and the value. -/
theorem findTag_key_value (before key value after : List Char)
    (hbefore : ∀ c ∈ before, isWordChar c = false)
    (hkey : key ≠ []) (hword : ∀ c ∈ key, isWordChar c = true)
    (hvalue : value ≠ [])
    (hafter : ∀ c ∈ after, c ≠ '"') :
    findTag (before ++ (key ++ ':' :: '"' :: (value ++ '"' :: after))) = some (key, value) := by
  induction before with
  | nil =>
    have hsplit := takeWhile_append_stop isWordChar key ':' ('"' :: (value ++ '"' :: after))
      hword (by decide)
    have hrev : ((value ++ '"' :: after).reverse).dropWhile (fun c => c != '"')
        = '"' :: value.reverse := by
      have := takeWhile_append_stop (fun c => c != '"') after.reverse '"' value.reverse
        (by intro x hx; simpa using hafter x (List.mem_reverse.mp hx)) (by decide)
      simpa using this.2
    have hne : value.reverse ≠ [] := by simpa using hvalue
    obtain ⟨k, ks, hk⟩ : ∃ k ks, key = k :: ks := by
      cases key with
      | nil => exact absurd rfl hkey
      | cons k ks => exact ⟨k, ks, rfl⟩
    apply findTag_of_matchTagAt
    rw [List.nil_append]
    unfold matchTagAt
    rw [hsplit.1, hsplit.2, hk]
    simp only [hrev, hne, if_false, List.reverse_reverse]
  | cons b before ih =>
    have hb := hbefore b (List.mem_cons_self b before)
    have ih' := ih (fun c hc => hbefore c (List.mem_cons_of_mem b hc))
    rw [List.cons_append, findTag_cons_of_not_word b _ hb]
    exact ih'

theorem getTags_eq_tagsOfFields (code : String) :
    getTags code = tagsOfFields (stringsFields code) [] := rfl

theorem lookup_tagsOfFields (fields : List (List Char)) (result : List (String × String))
    (key : String) :
    (tagsOfFields fields result).lookup key
      = (fields.reverse.findSome? (matchedValueOfField key)).or (result.lookup key) := by
  induction fields generalizing result with
  | nil => simp [tagsOfFields]
  | cons t fields ih =>
    have hstep : tagsOfFields (t :: fields) result
        = tagsOfFields fields (match findTag t with
            | some kv => (String.mk kv.1, String.mk kv.2) :: result
            | none => result) := rfl
    rw [hstep, ih, List.reverse_cons, List.findSome?_append, Option.or_assoc]
    congr 1
    cases hf : findTag t with
    | none => simp [matchedValueOfField, hf]
    | some kv =>
      by_cases hk : String.mk kv.1 = key
      · simp [matchedValueOfField, hf, hk, List.lookup]
      · have hk' : (key == String.mk kv.1) = false := by
          simpa using fun h => hk h.symm
        simp [matchedValueOfField, hf, hk, List.lookup, hk']

theorem getTags_lookup (code key : String) :
    (getTags code).lookup key = matchedValue code key := by
  rw [getTags_eq_tagsOfFields, lookup_tagsOfFields]
  simp [matchedValue]

theorem matchedValue_ne_empty (code key value : String)
    (h : matchedValue code key = some value) : value ≠ "" := by
  unfold matchedValue at h
  obtain ⟨t, _, ht⟩ := List.exists_of_findSome?_eq_some h
  unfold matchedValueOfField at ht
  cases hf : findTag t with
  | none => simp [hf] at ht
  | some kv =>
    simp only [hf] at ht
    split at ht
    · injection ht with ht
      subst ht
      have := findTag_value_ne_nil t kv.1 kv.2 hf
      intro hv
      apply this
      have := congrArg String.data hv
      simpa using this
    · cases ht

theorem newColumn_columnName (field : StructField) (name : String) :
    (newColumn field name).columnName
      = (field.tag.bind (fun tag => matchedValue tag "name")).getD name := by
  unfold newColumn
  cases htag : field.tag with
  | none => simp
  | some tag =>
    simp only [getTags_lookup, Option.bind]
    cases hv : matchedValue tag "name" with
    | none => simp
    | some value =>
      have := matchedValue_ne_empty tag "name" value hv
      simp [this]

theorem newColumn_isIdentity (field : StructField) (name : String) :
    (newColumn field name).isIdentity = true
      ↔ field.tag.bind (fun tag => matchedValue tag "identity") = some "true" := by
  unfold newColumn
  cases htag : field.tag with
  | none => simp
  | some tag => simp [getTags_lookup]

theorem tableNameOfField_eq (field : StructField) :
    tableNameOfField field
      = if stringsHasSuffix (getTypeName field.type) "TableName" = true then
          field.tag.bind (fun tag => matchedValue tag "tableName")
        else none := by
  unfold tableNameOfField
  cases htag : field.tag with
  | none => simp
  | some tag => simp [getTags_lookup]

/-! ## Theorems: the tables and entities of the declarations -/

theorem tableFieldStep_error (field : StructField) (t : table) (e : GenError)
    (h : tableFieldStep field t = .error e) : e = .fault := by
  unfold tableFieldStep at h
  repeat' split at h
  all_goals first
    | (injection h with h; exact h.symm)
    | cases h

theorem tableFields_error (fields : List StructField) (t : table) (e : GenError)
    (h : forRangeM tableFieldStep fields t = .error e) : e = .fault := by
  induction fields generalizing t with
  | nil => simp [forRangeM] at h
  | cons field fields ih =>
    simp only [forRangeM] at h
    cases hstep : tableFieldStep field t with
    | error e' =>
      rw [hstep] at h
      injection h with h
      subst h
      exact tableFieldStep_error field t _ hstep
    | ok t' =>
      rw [hstep] at h
      exact ih t' h

theorem tableFields_ok (fields : List StructField) (hnamed : fields.all fieldNamed = true)
    (t : table) :
    forRangeM tableFieldStep fields t
      = .ok { t with tableName := tableNameOfFields fields t.tableName,
                     columns := t.columns ++ columnsOfFields fields } := by
  induction fields generalizing t with
  | nil => simp [forRangeM, tableNameOfFields, columnsOfFields]
  | cons field fields ih =>
    simp only [List.all_cons, Bool.and_eq_true] at hnamed
    simp only [forRangeM]
    cases hname : tableNameOfField field with
    | some name =>
      have hstep : tableFieldStep field t = .ok { t with tableName := name } := by
        unfold tableFieldStep
        rw [hname]
      rw [hstep]
      simp only []
      rw [ih hnamed.2]
      simp [tableNameOfFields, columnsOfFields, hname, List.filterMap_cons]
    | none =>
      cases hnames : field.names with
      | nil => simp [fieldNamed, hname, hnames] at hnamed
      | cons name rest =>
        have hstep : tableFieldStep field t
            = .ok { t with columns := t.columns ++ [newColumn field name] } := by
          unfold tableFieldStep
          rw [hname, hnames]
        rw [hstep]
        simp only []
        rw [ih hnamed.2]
        simp [tableNameOfFields, columnsOfFields, hname, hnames, List.filterMap_cons]

theorem tableSpecStep_struct (genDecl : TypeDecl) (typeSpec : TypeSpec) (t : table)
    (fields : List StructField) (htype : typeSpec.type = .structType fields)
    (hnamed : fields.all fieldNamed = true) :
    tableSpecStep genDecl typeSpec t
      = .ok { name := typeSpec.name,
              tableName :=
                if tableNameOfFields fields t.tableName = "" then typeSpec.name
                else tableNameOfFields fields t.tableName,
              doc := genDecl.doc,
              columns := columnsOfFields fields } := by
  unfold tableSpecStep
  simp only [htype]
  rw [tableFields_ok fields hnamed]
  simp only [List.nil_append]
  split <;> rfl

theorem tableSpecs_error (genDecl : TypeDecl) (specs : List TypeSpec) (t : table)
    (e : GenError) (h : forRangeM (tableSpecStep genDecl) specs t = .error e) :
    e = .fault
      ∨ ∃ typeSpec ∈ specs, isStructSpec typeSpec = false
          ∧ e = .typeDefError typeSpec.name genDecl.pos := by
  induction specs generalizing t with
  | nil => simp [forRangeM] at h
  | cons typeSpec specs ih =>
    simp only [forRangeM] at h
    cases hstep : tableSpecStep genDecl typeSpec t with
    | error e' =>
      rw [hstep] at h
      injection h with h
      subst h
      unfold tableSpecStep at hstep
      cases htype : typeSpec.type with
      | other expr =>
        simp only [htype] at hstep
        injection hstep with hstep
        exact Or.inr ⟨typeSpec, List.mem_cons_self _ _, by simp [isStructSpec, htype],
          hstep.symm⟩
      | structType fields =>
        simp only [htype] at hstep
        cases hfields : forRangeM tableFieldStep fields
            { name := typeSpec.name, tableName := t.tableName, doc := genDecl.doc,
              columns := [] } with
        | error e'' =>
          rw [hfields] at hstep
          injection hstep with hstep
          subst hstep
          exact Or.inl (tableFields_error _ _ _ hfields)
        | ok t' =>
          rw [hfields] at hstep
          cases hstep
    | ok t' =>
      rw [hstep] at h
      rcases ih t' h with hfault | ⟨s, hs, hother, he⟩
      · exact Or.inl hfault
      · exact Or.inr ⟨s, List.mem_cons_of_mem _ hs, hother, he⟩

theorem tableSpecs_named (genDecl : TypeDecl) (specs : List TypeSpec)
    (hnamed : specs.all specNamed = true) (t : table) :
    match specs.find? (fun typeSpec => !isStructSpec typeSpec) with
    | some typeSpec =>
      forRangeM (tableSpecStep genDecl) specs t
        = .error (.typeDefError typeSpec.name genDecl.pos)
    | none => ∃ t', forRangeM (tableSpecStep genDecl) specs t = .ok t' := by
  induction specs generalizing t with
  | nil => exact ⟨t, rfl⟩
  | cons typeSpec specs ih =>
    simp only [List.all_cons, Bool.and_eq_true] at hnamed
    cases htype : typeSpec.type with
    | other expr =>
      have hfind : (typeSpec :: specs).find? (fun typeSpec => !isStructSpec typeSpec)
          = some typeSpec := by
        simp [List.find?, isStructSpec, htype]
      rw [hfind]
      simp only [forRangeM, tableSpecStep, htype]
    | structType fields =>
      have hfind : (typeSpec :: specs).find? (fun typeSpec => !isStructSpec typeSpec)
          = specs.find? (fun typeSpec => !isStructSpec typeSpec) := by
        simp [List.find?, isStructSpec, htype]
      rw [hfind]
      have hfields : fields.all fieldNamed = true := by
        simpa [specNamed, htype] using hnamed.1
      simp only [forRangeM, tableSpecStep_struct genDecl typeSpec t fields htype hfields]
      exact ih hnamed.2 _

theorem addTable_of_error (context : parseContext) (genDecl : TypeDecl) (e : GenError)
    (h : buildTable genDecl = .error e) : addTable context genDecl = (context, some e) := by
  unfold addTable
  rw [h]

theorem addTable_of_ok (context : parseContext) (genDecl : TypeDecl) (t : table)
    (h : buildTable genDecl = .ok t) :
    addTable context genDecl = ({ context with tables := context.tables ++ [t] }, none) := by
  unfold addTable
  rw [h]

set_option maxRecDepth 100000

/-- C23 (amended): when `addTable` returns an error the context is the one it
was given, so no table is added; a type-definition error carries the position
of the declaration and the name of one of its specifications whose type is not
written as a struct type literal; and, for a declaration whose struct types
have no embedded field among the fields that become columns, `addTable` returns
a type-definition error if and only if a specification of the declaration is
not written as a struct type literal, whatever its underlying type is: the
error names the first such specification, and without one the call succeeds
and appends one table. So `type UserID int64` and `type Admin User` fail with
the error of `UserID` and of `Admin`, and `type User struct` of the example
succeeds. -/
theorem addTable_typeDefError_iff_not_struct (context : parseContext) (genDecl : TypeDecl) :
    (∀ err, (addTable context genDecl).2 = some err → (addTable context genDecl).1 = context)
    ∧ (∀ typeName pos, (addTable context genDecl).2 = some (.typeDefError typeName pos) →
        pos = genDecl.pos
          ∧ ∃ typeSpec ∈ genDecl.specs,
              isStructSpec typeSpec = false ∧ typeSpec.name = typeName)
    ∧ (genDecl.specs.all specNamed = true →
        ((∃ typeName pos, (addTable context genDecl).2 = some (.typeDefError typeName pos))
          ↔ ∃ typeSpec ∈ genDecl.specs, isStructSpec typeSpec = false)
        ∧ (∀ typeSpec,
            genDecl.specs.find? (fun typeSpec => !isStructSpec typeSpec) = some typeSpec →
            addTable context genDecl
              = (context, some (.typeDefError typeSpec.name genDecl.pos)))
        ∧ (genDecl.specs.find? (fun typeSpec => !isStructSpec typeSpec) = none →
            ∃ t, addTable context genDecl
              = ({ context with tables := context.tables ++ [t] }, none)))
    ∧ addTable exampleContext aliasType
        = (exampleContext, some (.typeDefError "UserID" 30))
    ∧ addTable exampleContext groupedWithAlias
        = (exampleContext, some (.typeDefError "UserID" 8))
    ∧ addTable exampleContext adminType
        = (exampleContext, some (.typeDefError "Admin" 50))
    ∧ addTable emptyContext userType = ({ emptyContext with tables := [exampleUser] }, none) := by
  have herror : ∀ typeName pos,
      (addTable context genDecl).2 = some (.typeDefError typeName pos) →
      pos = genDecl.pos
        ∧ ∃ typeSpec ∈ genDecl.specs,
            isStructSpec typeSpec = false ∧ typeSpec.name = typeName := by
    intro typeName pos h
    cases hb : buildTable genDecl with
    | ok t =>
      rw [addTable_of_ok context genDecl t hb] at h
      cases h
    | error e =>
      rw [addTable_of_error context genDecl e hb] at h
      injection h with h
      subst h
      rcases tableSpecs_error genDecl genDecl.specs _ _ hb with hfault | ⟨s, hs, hother, he⟩
      · cases hfault
      · injection he with hname hpos
        exact ⟨hpos, s, hs, hother, hname.symm⟩
  refine ⟨?_, herror, ?_, by rfl, by rfl, by rfl, by rfl⟩
  · intro err h
    cases hb : buildTable genDecl with
    | ok t =>
      rw [addTable_of_ok context genDecl t hb] at h
      cases h
    | error e => rw [addTable_of_error context genDecl e hb]
  · intro hnamed
    have hloop := tableSpecs_named genDecl genDecl.specs hnamed
      { name := "", tableName := "", doc := [], columns := [] }
    have hfirst : ∀ typeSpec,
        genDecl.specs.find? (fun typeSpec => !isStructSpec typeSpec) = some typeSpec →
        addTable context genDecl
          = (context, some (.typeDefError typeSpec.name genDecl.pos)) := by
      intro typeSpec hfind
      rw [hfind] at hloop
      exact addTable_of_error context genDecl _ hloop
    refine ⟨⟨?_, ?_⟩, hfirst, ?_⟩
    · rintro ⟨typeName, pos, h⟩
      obtain ⟨_, s, hs, hother, _⟩ := herror typeName pos h
      exact ⟨s, hs, hother⟩
    · rintro ⟨s, hs, hother⟩
      cases hfind : genDecl.specs.find? (fun typeSpec => !isStructSpec typeSpec) with
      | none =>
        have := List.find?_eq_none.mp hfind s hs
        simp [hother] at this
      | some typeSpec =>
        exact ⟨typeSpec.name, genDecl.pos, by rw [hfirst typeSpec hfind]⟩
    · intro hfind
      rw [hfind] at hloop
      obtain ⟨t, ht⟩ := hloop
      exact ⟨t, addTable_of_ok context genDecl t ht⟩

set_option maxRecDepth 512

set_option maxRecDepth 100000

/-- C22 (fails on the code): a declaration with one struct specification whose
column fields all have a name records one table with the name of the type, the
columns of its fields and, as physical name, the value of its `tableName`
annotation or else its name; but the grouped declaration `type ( User struct
{ UserID string }; Role struct { RoleID string } )` records a
single table, named `Role`, with the physical name `User`, while the same two
types declared one by one give two tables. -/
theorem grouped_type_declaration_records_one_table :
    addTables emptyContext [.typeDecl groupedTypes]
      = ({ emptyContext with tables := [groupedTypesTable] }, none)
    ∧ groupedTypesTable.name = "Role" ∧ groupedTypesTable.tableName = "User"
    ∧ addTables emptyContext [.typeDecl userType, .typeDecl roleType]
      = ({ emptyContext with tables := [exampleUser, exampleRole] }, none)
    ∧ (∀ (context : parseContext) (genDecl : TypeDecl) (typeSpec : TypeSpec)
        (fields : List StructField),
        genDecl.specs = [typeSpec] → typeSpec.type = .structType fields →
        fields.all fieldNamed = true →
        addTable context genDecl
          = ({ context with
                tables := context.tables ++ [
                  { name := typeSpec.name,
                    tableName :=
                      if tableNameOfFields fields "" = "" then typeSpec.name
                      else tableNameOfFields fields "",
                    doc := genDecl.doc,
                    columns := columnsOfFields fields }] }, none)) := by
  refine ⟨by rfl, by rfl, by rfl, by rfl, ?_⟩
  intro context genDecl typeSpec fields hspecs htype hnamed
  apply addTable_of_ok
  unfold buildTable
  rw [hspecs]
  simp only [forRangeM, tableSpecStep_struct genDecl typeSpec _ fields htype hnamed]

/-- C24 (fails on the code): a declaration with one specification binds the
first name of the specification to the first table whose name is the name of
the declared type, and binds nothing when no table has that name; but of the
grouped declaration `var ( user User; role Role )` only `user` is bound, while
the same two variables declared one by one are both bound. -/
theorem grouped_var_declaration_binds_first_only :
    (addEntities extractedContext [.varDecl groupedVars]).map (fun context => context.entity)
      = .ok [("user", exampleUser)]
    ∧ (addEntities extractedContext [.varDecl groupedVars]).map
        (fun context => context.entity.lookup "role") = .ok none
    ∧ (addEntities extractedContext [.varDecl userVar, .varDecl roleVar]).map
        (fun context => context.entity) = .ok [("role", exampleRole), ("user", exampleUser)]
    ∧ addEntities extractedContext [.varDecl countVar] = .ok extractedContext
    ∧ (∀ (context : parseContext) (varSpec : ValueSpec) (name : String) (rest : List String)
        (t : table), varSpec.names = name :: rest →
        context.tables.find? (fun t => t.name == getTypeName varSpec.type) = some t →
        addEntity context { specs := [varSpec] }
          = .ok { context with entity := (name, t) :: context.entity })
    ∧ (∀ (context : parseContext) (varSpec : ValueSpec),
        context.tables.find? (fun t => t.name == getTypeName varSpec.type) = none →
        addEntity context { specs := [varSpec] } = .ok context) := by
  refine ⟨by rfl, by rfl, by rfl, by rfl, ?_, ?_⟩
  · intro context varSpec name rest t hnames hfind
    simp only [addEntity, addEntitySpecs, hfind, hnames]
  · intro context varSpec hfind
    simp only [addEntity, addEntitySpecs, hfind]

set_option maxRecDepth 512

/-! ## Theorems: the scan targets of a select function -/

theorem selectArgs_sourceColumns (context : parseContext) (selectExpr : CallExpr)
    (args : List Expr) :
    ∀ (stmt stmt' : SQLSelectStatement),
      forRangeM (selectArgStep context selectExpr) args stmt = .ok stmt' →
      (∀ e ∈ stmt.selectList, isSourceColumn e) → ∀ e ∈ stmt'.selectList, isSourceColumn e := by
  induction args with
  | nil =>
    intro stmt stmt' h hall
    simp only [forRangeM] at h
    injection h with h
    subst h
    exact hall
  | cons a args ih =>
    intro stmt stmt' h hall
    simp only [forRangeM] at h
    cases hstep : selectArgStep context selectExpr a stmt with
    | error e => simp [hstep] at h
    | ok stmt1 =>
      simp only [hstep] at h
      apply ih stmt1 stmt' h
      unfold selectArgStep at hstep
      repeat' split at hstep
      all_goals cases hstep
      intro e he
      simp only [List.mem_append, List.mem_singleton] at he
      rcases he with he | he
      · exact hall e he
      · subst he
        simp [isSourceColumn]

theorem buildSelectList_sourceColumns (context : parseContext) (isSelectAll : Bool)
    (selectExpr : CallExpr) (stmt stmt' : SQLSelectStatement)
    (h : buildSelectList context isSelectAll selectExpr stmt = .ok stmt')
    (hall : ∀ e ∈ stmt.selectList, isSourceColumn e) :
    ∀ e ∈ stmt'.selectList, isSourceColumn e := by
  unfold buildSelectList at h
  split at h
  · repeat' split at h
    all_goals cases h
    simp only [tableToSelectStatement, Option.getD, forRange]
    rw [tableToSelect_loop _ _ _ _ rfl]
    intro e he
    simp only [List.mem_append, List.mem_map] at he
    rcases he with he | ⟨col, _, he⟩
    · exact hall e he
    · subst he
      simp [isSourceColumn]
  · exact selectArgs_sourceColumns context selectExpr _ stmt stmt' h hall

theorem interpretSelect_sourceColumns (context : parseContext) (funcDecl : FuncDecl)
    (plan : SelectPlan) (h : interpretSelect context funcDecl = .ok plan) :
    ∀ e ∈ plan.selectStmt.selectList, isSourceColumn e := by
  obtain ⟨st, selectExpr, stmt, _, _, hbuild, hlist⟩ :=
    interpretSelect_selectList context funcDecl plan h
  rw [hlist]
  exact buildSelectList_sourceColumns context _ _ _ _ hbuild (by simp)

theorem sourceColumns_render (selectList : List SQLExpression)
    (hall : ∀ e ∈ selectList, isSourceColumn e) :
    selectList.map render = (selectListColumns selectList).map (fun col => col.columnName)
      ∧ (selectListColumns selectList).length = selectList.length := by
  induction selectList with
  | nil => simp [selectListColumns]
  | cons e rest ih =>
    have he := hall e (List.mem_cons_self e rest)
    have ih' := ih (fun x hx => hall x (List.mem_cons_of_mem e hx))
    cases e with
    | column c =>
      simp only [isSourceColumn] at he
      simp only [selectListColumns, List.filterMap_cons, List.map_cons, List.length_cons] at ih' ⊢
      refine ⟨?_, by rw [ih'.2]⟩
      rw [ih'.1, render_eq_expressionText]
      simp [expressionText, he]
    | _ => simp [isSourceColumn] at he

theorem write_empty (g : codeGenerator) (h : g.newLine = false) : g.write "" = g := by
  rw [write_eq]
  cases g
  simp_all [lineStart]

theorem writeScanTargetsFrom_sourceColumns (selectList : List SQLExpression)
    (hall : ∀ e ∈ selectList, isSourceColumn e) :
    ∀ (i : Nat) (g : codeGenerator), g.newLine = false →
      writeScanTargetsFrom i selectList g
        = .ok (g.write (if i > 0 then
            String.join ((selectListColumns selectList).map (fun col => ", &o." ++ col.name))
            else scanTargetsText (selectListColumns selectList))) := by
  induction selectList with
  | nil =>
    intro i g hg
    by_cases hi : i > 0 <;>
      simp [writeScanTargetsFrom, selectListColumns, scanTargetsText, hi, write_empty g hg,
        String.join, String.intercalate]
  | cons e rest ih =>
    intro i g hg
    have he := hall e (List.mem_cons_self e rest)
    have ih' := ih (fun x hx => hall x (List.mem_cons_of_mem e hx))
    cases e with
    | column c =>
      simp only [writeScanTargetsFrom]
      rw [ih' (i + 1) _ (by simp)]
      by_cases hi : i > 0
      · simp only [hi, if_true, Nat.succ_pos, selectListColumns, List.filterMap_cons,
          List.map_cons, join_cons, write_write]
        congr 2
      · simp only [hi, if_false, Nat.succ_pos, if_true, selectListColumns, List.filterMap_cons,
          List.map_cons, scanTargetsText, intercalate_cons, write_write]
        congr 2
        have hs : ∀ x : String, ", &o." ++ x = ", " ++ ("&o." ++ x) := by
          intro x
          rw [← String.append_assoc]
          rfl
        simp [String.append_assoc, List.map_map, Function.comp_def, hs]
    | _ => simp [isSourceColumn] at he

theorem writeLine_single_eq (g : codeGenerator) (s : String) :
    g.writeLine [s]
      = { g with writer := g.writer ++ lineStart g ++ s ++ g.settings.line, newLine := true } := by
  simp [codeGenerator.writeLine, write_eq]

theorem beginBlock_eq (g : codeGenerator) :
    g.beginBlock
      = { g with writer := g.writer ++ lineStart g ++ " \x7b" ++ g.settings.line,
                 indentLevel := g.indentLevel + 1, newLine := true } := by
  simp [codeGenerator.beginBlock, codeGenerator.writeLine, write_eq]

theorem endBlock_eq (g : codeGenerator) (codes : List String) :
    g.endBlock codes
      = { g with writer := g.writer ++ lineStart { g with indentLevel := g.indentLevel - 1 }
                    ++ "\x7d" ++ String.join codes ++ g.settings.line,
                 indentLevel := g.indentLevel - 1, newLine := true } := by
  have hfold : ∀ (codes : List String) (g : codeGenerator), g.newLine = false →
      codes.foldl (fun g code => g.write code) g
        = { g with writer := g.writer ++ String.join codes } := by
    intro codes
    induction codes with
    | nil => intro g _; simp [String.join]
    | cons c codes ih =>
      intro g hg
      simp only [List.foldl_cons]
      rw [ih _ (by simp)]
      simp [write_eq, lineStart, hg, join_cons, String.append_assoc]
  simp only [codeGenerator.endBlock, codeGenerator.writeLine]
  rw [hfold _ _ (by simp)]
  simp [write_eq, String.append_assoc]

/-- The text of the scan body in record mode. -/
theorem emitSelectBody_record (plan : SelectPlan) (g : codeGenerator) (hg : g.newLine = true)
    (hflag : plan.returnTypeFlag = .ReturnRecord)
    (hall : ∀ e ∈ plan.selectStmt.selectList, isSourceColumn e) :
    (emitSelectBody plan g).map (fun g => g.writer)
      = .ok (g.writer
          ++ indentText g.indentLevel g.settings ++ "if rows.Next() \x7b" ++ g.settings.line
          ++ indentText (g.indentLevel + 1) g.settings ++ "var o = new("
            ++ plan.returnElementType ++ ")" ++ g.settings.line
          ++ indentText (g.indentLevel + 1) g.settings ++ "rows.Scan("
            ++ scanTargetsText (selectListColumns plan.selectStmt.selectList) ++ ")"
            ++ g.settings.line
          ++ indentText (g.indentLevel + 1) g.settings ++ "return o, nil" ++ g.settings.line
          ++ indentText g.indentLevel g.settings ++ "\x7d" ++ g.settings.line
          ++ indentText g.indentLevel g.settings ++ "return nil, nil" ++ g.settings.line) := by
  unfold emitSelectBody
  simp only [hflag, bind, Except.bind, pure, Except.pure]
  rw [writeScanTargetsFrom_sourceColumns _ hall 0 _ (by simp)]
  simp only [Except.map, write_write, writeLine_single_eq, beginBlock_eq, endBlock_eq, write_eq,
     codeGenerator.writeVarDeclaration, writeExpr_newASTRefExpr, writeLine_nil_eq]
  simp [lineStart, hg, String.append_assoc, String.join]
theorem interpretSelect_recordSet_returnList (context : parseContext) (funcDecl : FuncDecl)
    (plan : SelectPlan) (h : interpretSelect context funcDecl = .ok plan)
    (hflag : plan.returnTypeFlag = .ReturnRecordSet) :
    plan.funcReturnList = [newASTField (newASTRefExpr ("[]*" ++ plan.returnElementType)) [""]] := by
  unfold interpretSelect at h
  simp only [bind, Except.bind, pure, Except.pure] at h
  repeat' split at h
  all_goals cases h
  all_goals simp_all

/-- The text of the scan body in record-set mode. -/
theorem emitSelectBody_recordSet (plan : SelectPlan) (g : codeGenerator) (hg : g.newLine = true)
    (hflag : plan.returnTypeFlag = .ReturnRecordSet)
    (hreturn : plan.funcReturnList
      = [newASTField (newASTRefExpr ("[]*" ++ plan.returnElementType)) [""]])
    (hall : ∀ e ∈ plan.selectStmt.selectList, isSourceColumn e) :
    (emitSelectBody plan g).map (fun g => g.writer)
      = .ok (g.writer
          ++ indentText g.indentLevel g.settings ++ "var result []*" ++ plan.returnElementType
            ++ g.settings.line
          ++ indentText g.indentLevel g.settings ++ "for rows.Next() \x7b" ++ g.settings.line
          ++ indentText (g.indentLevel + 1) g.settings ++ "var o = new("
            ++ plan.returnElementType ++ ")" ++ g.settings.line
          ++ indentText (g.indentLevel + 1) g.settings ++ "rows.Scan("
            ++ scanTargetsText (selectListColumns plan.selectStmt.selectList) ++ ")"
            ++ g.settings.line
          ++ indentText (g.indentLevel + 1) g.settings ++ "result = append(result, o)"
            ++ g.settings.line
          ++ indentText g.indentLevel g.settings ++ "\x7d" ++ g.settings.line
          ++ indentText g.indentLevel g.settings ++ "return result, nil" ++ g.settings.line) := by
  unfold emitSelectBody
  simp only [hflag, hreturn, firstReturnType, newASTField, bind, Except.bind, pure, Except.pure]
  rw [writeScanTargetsFrom_sourceColumns _ hall 0 _ (by simp)]
  simp only [Except.map, write_write, writeLine_single_eq, beginBlock_eq, endBlock_eq, write_eq,
     codeGenerator.writeVarDeclaration, writeExpr_newASTRefExpr, writeLine_nil_eq]
  have hs : ∀ x : String, "var result " ++ ("[]*" ++ x) = "var result []*" ++ x := by
    intro x
    rw [← String.append_assoc]
    rfl
  simp [lineStart, hg, String.append_assoc, String.join, hs]

/-- The text of the scan body in record-channel mode. -/
theorem emitSelectBody_recordChannel (plan : SelectPlan) (g : codeGenerator)
    (hg : g.newLine = true) (hflag : plan.returnTypeFlag = .ReturnRecordChannel)
    (hall : ∀ e ∈ plan.selectStmt.selectList, isSourceColumn e) :
    (emitSelectBody plan g).map (fun g => g.writer)
      = .ok (g.writer
          ++ indentText g.indentLevel g.settings ++ "channel := make(chan *"
            ++ plan.returnElementType
            ++ (if plan.chanBufferSize > 0 then ", " ++ itoa plan.chanBufferSize else "")
            ++ ")" ++ g.settings.line
          ++ indentText g.indentLevel g.settings
            ++ "ctx, cancel := context.WithCancel(context.Background())" ++ g.settings.line
          ++ indentText g.indentLevel g.settings ++ "go func() \x7b" ++ g.settings.line
          ++ indentText (g.indentLevel + 1) g.settings ++ "defer close(channel)"
            ++ g.settings.line
          ++ indentText (g.indentLevel + 1) g.settings ++ "defer rows.Close()"
            ++ g.settings.line
          ++ indentText (g.indentLevel + 1) g.settings ++ "for rows.Next() \x7b"
            ++ g.settings.line
          ++ indentText (g.indentLevel + 2) g.settings ++ "var o = new("
            ++ plan.returnElementType ++ ")" ++ g.settings.line
          ++ indentText (g.indentLevel + 2) g.settings ++ "rows.Scan("
            ++ scanTargetsText (selectListColumns plan.selectStmt.selectList) ++ ")"
            ++ g.settings.line
          ++ indentText (g.indentLevel + 2) g.settings ++ "select \x7b" ++ g.settings.line
          ++ indentText (g.indentLevel + 2) g.settings ++ "case <-ctx.Done(): "
            ++ g.settings.line
          ++ indentText (g.indentLevel + 3) g.settings ++ "return" ++ g.settings.line
          ++ indentText (g.indentLevel + 2) g.settings ++ "case channel <- o:"
            ++ g.settings.line
          ++ indentText (g.indentLevel + 2) g.settings ++ "\x7d" ++ g.settings.line
          ++ indentText (g.indentLevel + 1) g.settings ++ "\x7d" ++ g.settings.line
          ++ indentText g.indentLevel g.settings ++ "\x7d()" ++ g.settings.line
          ++ indentText g.indentLevel g.settings ++ "return channel, cancel, nil"
            ++ g.settings.line) := by
  unfold emitSelectBody
  simp only [hflag, bind, Except.bind, pure, Except.pure]
  rw [writeScanTargetsFrom_sourceColumns _ hall 0 _ (by simp)]
  have h2 : g.indentLevel + 1 + 1 = g.indentLevel + 2 := by ring
  have h3 : g.indentLevel + 2 + 1 = g.indentLevel + 3 := by ring
  have h4 : g.indentLevel + 2 - 1 = g.indentLevel + 1 := by ring
  have h5 : g.indentLevel + 3 - 1 = g.indentLevel + 2 := by ring
  by_cases hsize : plan.chanBufferSize > 0
  · simp only [hsize, if_true, Except.map, write_write, writeLine_single_eq, beginBlock_eq,
      endBlock_eq, write_eq, codeGenerator.writeVarDeclaration, writeExpr_newASTRefExpr,
      writeLine_nil_eq, codeGenerator.writeLine, List.foldl_cons, List.foldl_nil]
    simp [lineStart, hg, String.append_assoc, String.join, h2, h3, h4, h5]
  · simp only [hsize, if_false, Except.map, write_write, writeLine_single_eq, beginBlock_eq,
      endBlock_eq, write_eq, codeGenerator.writeVarDeclaration, writeExpr_newASTRefExpr,
      writeLine_nil_eq, codeGenerator.writeLine, List.foldl_cons, List.foldl_nil]
    simp [lineStart, hg, String.append_assoc, String.join, h2, h3, h4, h5]

/-- C27: for every successfully interpreted select function, each entry of the
select list is a column; the SELECT line of the SQL text lists the physical
names of these columns, in the order of the list, joined by `, `; and in
record, record-set and record-channel mode the emitted body holds one call
`rows.Scan(` whose targets are `&o.` followed by the logical names of the same
columns, in the same order, joined by `, `. Both lists are read from the same
list of columns, so they have the same length and agree position by position. -/
theorem scan_targets_follow_select_list (context : parseContext) (funcDecl : FuncDecl)
    (plan : SelectPlan) (g : codeGenerator)
    (hplan : interpretSelect context funcDecl = .ok plan) (hg : g.newLine = true) :
    (selectListColumns plan.selectStmt.selectList).length = plan.selectStmt.selectList.length
    ∧ (context.sqlBuilder.Reset.WriteSelectStatement plan.selectStmt).String'
        = "SELECT " ++ String.intercalate ", "
            ((selectListColumns plan.selectStmt.selectList).map (fun col => col.columnName))
          ++ "\\n"
          ++ (if plan.selectStmt.table ≠ "" then "FROM " ++ plan.selectStmt.table ++ "\\n"
              else "")
          ++ whereClauseText plan.selectStmt.where
          ++ orderByClauseText plan.selectStmt.orderByList
          ++ (if plan.selectStmt.limitRows > 0 then
                "LIMIT " ++ itoa plan.selectStmt.limitRows ++ "\\n"
              else "")
    ∧ (plan.returnTypeFlag = .ReturnRecord →
        (emitSelectBody plan g).map (fun g => g.writer)
          = .ok (g.writer
            ++ indentText g.indentLevel g.settings ++ "if rows.Next() \x7b" ++ g.settings.line
            ++ indentText (g.indentLevel + 1) g.settings ++ "var o = new("
              ++ plan.returnElementType ++ ")" ++ g.settings.line
            ++ indentText (g.indentLevel + 1) g.settings ++ "rows.Scan("
              ++ scanTargetsText (selectListColumns plan.selectStmt.selectList) ++ ")"
              ++ g.settings.line
            ++ indentText (g.indentLevel + 1) g.settings ++ "return o, nil" ++ g.settings.line
            ++ indentText g.indentLevel g.settings ++ "\x7d" ++ g.settings.line
            ++ indentText g.indentLevel g.settings ++ "return nil, nil" ++ g.settings.line))
    ∧ (plan.returnTypeFlag = .ReturnRecordSet →
        (emitSelectBody plan g).map (fun g => g.writer)
          = .ok (g.writer
            ++ indentText g.indentLevel g.settings ++ "var result []*"
              ++ plan.returnElementType ++ g.settings.line
            ++ indentText g.indentLevel g.settings ++ "for rows.Next() \x7b" ++ g.settings.line
            ++ indentText (g.indentLevel + 1) g.settings ++ "var o = new("
              ++ plan.returnElementType ++ ")" ++ g.settings.line
            ++ indentText (g.indentLevel + 1) g.settings ++ "rows.Scan("
              ++ scanTargetsText (selectListColumns plan.selectStmt.selectList) ++ ")"
              ++ g.settings.line
            ++ indentText (g.indentLevel + 1) g.settings ++ "result = append(result, o)"
              ++ g.settings.line
            ++ indentText g.indentLevel g.settings ++ "\x7d" ++ g.settings.line
            ++ indentText g.indentLevel g.settings ++ "return result, nil"
              ++ g.settings.line))
    ∧ (plan.returnTypeFlag = .ReturnRecordChannel →
        (emitSelectBody plan g).map (fun g => g.writer)
          = .ok (g.writer
            ++ indentText g.indentLevel g.settings ++ "channel := make(chan *"
              ++ plan.returnElementType
              ++ (if plan.chanBufferSize > 0 then ", " ++ itoa plan.chanBufferSize else "")
              ++ ")" ++ g.settings.line
            ++ indentText g.indentLevel g.settings
              ++ "ctx, cancel := context.WithCancel(context.Background())" ++ g.settings.line
            ++ indentText g.indentLevel g.settings ++ "go func() \x7b" ++ g.settings.line
            ++ indentText (g.indentLevel + 1) g.settings ++ "defer close(channel)"
              ++ g.settings.line
            ++ indentText (g.indentLevel + 1) g.settings ++ "defer rows.Close()"
              ++ g.settings.line
            ++ indentText (g.indentLevel + 1) g.settings ++ "for rows.Next() \x7b"
              ++ g.settings.line
            ++ indentText (g.indentLevel + 2) g.settings ++ "var o = new("
              ++ plan.returnElementType ++ ")" ++ g.settings.line
            ++ indentText (g.indentLevel + 2) g.settings ++ "rows.Scan("
              ++ scanTargetsText (selectListColumns plan.selectStmt.selectList) ++ ")"
              ++ g.settings.line
            ++ indentText (g.indentLevel + 2) g.settings ++ "select \x7b" ++ g.settings.line
            ++ indentText (g.indentLevel + 2) g.settings ++ "case <-ctx.Done(): "
              ++ g.settings.line
            ++ indentText (g.indentLevel + 3) g.settings ++ "return" ++ g.settings.line
            ++ indentText (g.indentLevel + 2) g.settings ++ "case channel <- o:"
              ++ g.settings.line
            ++ indentText (g.indentLevel + 2) g.settings ++ "\x7d" ++ g.settings.line
            ++ indentText (g.indentLevel + 1) g.settings ++ "\x7d" ++ g.settings.line
            ++ indentText g.indentLevel g.settings ++ "\x7d()" ++ g.settings.line
            ++ indentText g.indentLevel g.settings ++ "return channel, cancel, nil"
              ++ g.settings.line)) := by
  have hall := interpretSelect_sourceColumns context funcDecl plan hplan
  have hcols := sourceColumns_render plan.selectStmt.selectList hall
  refine ⟨hcols.2, ?_, ?_, ?_, ?_⟩
  · rw [WriteSelectStatement_text, hcols.1]
  · intro hflag
    exact emitSelectBody_record plan g hg hflag hall
  · intro hflag
    exact emitSelectBody_recordSet plan g hg hflag
      (interpretSelect_recordSet_returnList context funcDecl plan hplan hflag) hall
  · intro hflag
    exact emitSelectBody_recordChannel plan g hg hflag hall

set_option maxRecDepth 100000 in
/-- Witness of C27: for `GetUserList` of the example (`Select(user.UserID,
user.UserName)`, record-set mode) the SELECT line is `SELECT UserID, UserName`
and the scan call is `rows.Scan(&o.UserID, &o.UserName)`. -/
theorem scan_targets_witness :
    interpretSelect exampleContext exampleGetUserList = .ok exampleGetUserListPlan
    ∧ newGenerator.newLine = true
    ∧ (exampleContext.sqlBuilder.Reset.WriteSelectStatement
          exampleGetUserListPlan.selectStmt).String'
        = "SELECT UserID, UserName\\nFROM User\\nWHERE Sex = 0\\n"
    ∧ (emitSelectBody exampleGetUserListPlan newGenerator).map (fun g => g.writer)
        = .ok ("var result []*User\r\n"
            ++ "for rows.Next() \x7b\r\n"
            ++ "\tvar o = new(User)\r\n"
            ++ "\trows.Scan(&o.UserID, &o.UserName)\r\n"
            ++ "\tresult = append(result, o)\r\n"
            ++ "\x7d\r\n"
            ++ "return result, nil\r\n") := by
  have h := scan_targets_follow_select_list exampleContext exampleGetUserList
    exampleGetUserListPlan newGenerator (by rfl) (by rfl)
  exact ⟨by rfl, by rfl, h.2.1.trans (by rfl), (h.2.2.2.1 (by rfl)).trans (by rfl)⟩

/-! ## Theorems: the header of an accessor -/

theorem writeExpr_eq_getTypeName (e : Expr) :
    ∀ g : codeGenerator, g.newLine = false → g.writeExpr e = g.write (getTypeName e) := by
  induction e with
  | ident name => intro g _; rfl
  | selector x sel ih =>
    intro g hg
    simp only [codeGenerator.writeExpr, getTypeName, ih g hg, write_write, String.append_assoc]
  | basicLit kind value => intro g hg; simp [codeGenerator.writeExpr, getTypeName, write_empty g hg]
  | paren x _ => intro g hg; simp [codeGenerator.writeExpr, getTypeName, write_empty g hg]
  | binary x op y _ _ =>
    intro g hg; simp [codeGenerator.writeExpr, getTypeName, write_empty g hg]
  | other => intro g hg; simp [codeGenerator.writeExpr, getTypeName, write_empty g hg]

theorem writeField_eq (g : codeGenerator) (field : Field) (hg : g.newLine = false) :
    (match field.names with
      | name :: _ => (g.write name).write " "
      | [] => g).writeExpr field.type = g.write (fieldText field) := by
  unfold fieldText
  cases field.names with
  | nil => simp [writeExpr_eq_getTypeName _ g hg]
  | cons name rest =>
    simp only []
    rw [writeExpr_eq_getTypeName _ _ (by simp), write_write, write_write, String.append_assoc]

theorem forRangeFrom_write_fields (f : Nat → Field → codeGenerator → codeGenerator)
    (hf : ∀ i field (g : codeGenerator), g.newLine = false →
      f i field g = (if i > 0 then g.write ", " else g).write (fieldText field))
    (list : List Field) :
    ∀ (i : Nat) (g : codeGenerator), g.newLine = false →
      forRangeFrom f i list g
        = g.write (if i > 0 then String.join (list.map (fun field => ", " ++ fieldText field))
                   else String.intercalate ", " (list.map fieldText)) := by
  induction list with
  | nil =>
    intro i g hg
    by_cases hi : i > 0 <;>
      simp [forRangeFrom, hi, write_empty g hg, String.join, String.intercalate]
  | cons field list ih =>
    intro i g hg
    simp only [forRangeFrom]
    rw [hf i field g hg]
    by_cases hi : i > 0
    · simp only [hi, if_true]
      rw [ih _ _ (by simp)]
      simp only [Nat.succ_pos, if_true, write_write, List.map_cons, join_cons,
        String.append_assoc]
    · simp only [hi, if_false]
      rw [ih _ _ (by simp)]
      simp only [Nat.succ_pos, if_true, write_write, List.map_cons, intercalate_cons,
        List.map_map, Function.comp_def]
theorem writeDoc_eq (doc : List String) :
    ∀ g : codeGenerator, g.newLine = true →
      g.writeDoc doc = { g with writer := g.writer ++ docText doc g.indentLevel g.settings } := by
  induction doc with
  | nil =>
    intro g _
    cases g
    simp [codeGenerator.writeDoc, docText, String.join]
  | cons text doc ih =>
    intro g hg
    have h := ih (g.writeLine [text]) (by simp [writeLine_single_eq])
    simp only [codeGenerator.writeDoc, List.foldl_cons] at h ⊢
    rw [h]
    simp [writeLine_single_eq, docText, join_cons, lineStart, hg, String.append_assoc]

theorem writeFuncType_eq (g : codeGenerator) (list : List Field) (hasParenthesis : Bool)
    (hg : g.newLine = false) :
    g.writeFuncType list hasParenthesis
      = g.write ((if hasParenthesis then "(" else "")
          ++ String.intercalate ", " (list.map fieldText)
          ++ (if hasParenthesis then ")" else "")) := by
  have hf : ∀ i field (g : codeGenerator), g.newLine = false →
      (match field.names with
        | name :: _ => ((if i > 0 then g.write ", " else g).write name).write " "
        | [] => if i > 0 then g.write ", " else g).writeExpr field.type
      = (if i > 0 then g.write ", " else g).write (fieldText field) := by
    intro i field g hg
    apply writeField_eq
    by_cases hi : i > 0 <;> simp [hi, hg]
  unfold codeGenerator.writeFuncType forRange
  cases hasParenthesis with
  | true =>
    simp only [if_true]
    rw [forRangeFrom_write_fields]
    · simp [write_write, String.append_assoc]
    · exact hf
    · simp
  | false =>
    simp only [Bool.false_eq_true, if_false]
    rw [forRangeFrom_write_fields]
    · simp
    · exact hf
    · exact hg

theorem genMethodBegin_generator (context : parseContext) (funcName : String)
    (paramList returnList : List Field) (doc : List String)
    (hstart : context.generator.newLine = true) :
    (genMethodBegin context funcName paramList returnList doc).generator
      = { context.generator with
          writer := context.generator.writer
            ++ docText doc context.generator.indentLevel context.generator.settings
            ++ indentText context.generator.indentLevel context.generator.settings
            ++ headerText funcName (paramList.map fieldText) (returnList.map fieldText)
            ++ context.generator.settings.line,
          indentLevel := context.generator.indentLevel + 1,
          newLine := true } := by
  have h1 : newASTRefExpr "sqlutil.DbObject" = .selector (.ident "sqlutil") "DbObject" := by
    rfl
  have h3 : newASTRefExpr "error" = .ident "error" := by rfl
  have hdb : fieldText { names := ["db"], type := .selector (.ident "sqlutil") "DbObject" }
      = "db sqlutil.DbObject" := by rfl
  have herr : fieldText { names := [], type := .ident "error" } = "error" := by rfl
  unfold genMethodBegin
  simp only [codeGenerator.beginFunc, writeDoc_eq doc _ hstart, newASTField, h1, h3]
  rw [writeFuncType_eq _ _ _ (by simp)]
  simp only [List.length_append, List.length_singleton, Nat.succ_pos, if_true,
    gt_iff_lt, Nat.lt_add_left_iff_pos, List.length_pos]
  rw [writeFuncType_eq _ _ _ (by simp)]
  cases returnList with
  | nil =>
    simp [beginBlock_eq, write_eq, lineStart, hstart, headerText, resultListText, hdb, herr,
      String.append_assoc, String.intercalate, String.intercalate.go]
  | cons r rs =>
    simp [beginBlock_eq, write_eq, lineStart, hstart, headerText, resultListText, hdb, herr,
      String.append_assoc]

theorem extendedBy_refl (g : codeGenerator) : g.extendedBy g := ⟨"", by simp⟩

theorem extendedBy_trans {a b c : codeGenerator} (h1 : a.extendedBy b) (h2 : b.extendedBy c) :
    a.extendedBy c := by
  obtain ⟨s, hs⟩ := h1
  obtain ⟨t, ht⟩ := h2
  exact ⟨s ++ t, by rw [ht, hs, String.append_assoc]⟩

theorem extendedBy_write {g x : codeGenerator} (h : g.extendedBy x) (s : String) :
    g.extendedBy (x.write s) :=
  extendedBy_trans h ⟨lineStart x ++ s, by rw [write_writer, String.append_assoc]⟩

theorem extendedBy_indent {g x : codeGenerator} (h : g.extendedBy x) (n : Int) :
    g.extendedBy { x with indentLevel := n } := h

theorem extendedBy_writes {g : codeGenerator} (codes : List String) :
    ∀ x : codeGenerator, g.extendedBy x →
      g.extendedBy (codes.foldl (fun g code => g.write code) x) := by
  induction codes with
  | nil => intro x h; exact h
  | cons c codes ih => intro x h; exact ih _ (extendedBy_write h c)

theorem extendedBy_writeLine {g x : codeGenerator} (h : g.extendedBy x) (codes : List String) :
    g.extendedBy (x.writeLine codes) := by
  obtain ⟨s, hs⟩ := extendedBy_writes codes x h
  exact ⟨s ++ (codes.foldl (fun g code => g.write code) x).settings.line, by
    simp only [codeGenerator.writeLine, hs, String.append_assoc]⟩

theorem extendedBy_beginBlock {g x : codeGenerator} (h : g.extendedBy x) :
    g.extendedBy x.beginBlock := by
  unfold codeGenerator.beginBlock
  exact extendedBy_writeLine (extendedBy_indent (extendedBy_write h _) _) []

theorem extendedBy_endBlock {g x : codeGenerator} (h : g.extendedBy x) (codes : List String) :
    g.extendedBy (x.endBlock codes) := by
  unfold codeGenerator.endBlock
  exact extendedBy_writeLine (extendedBy_write (extendedBy_indent h _) _) codes

theorem extendedBy_writeExpr {g : codeGenerator} (e : Expr) :
    ∀ x : codeGenerator, g.extendedBy x → g.extendedBy (x.writeExpr e) := by
  induction e with
  | ident name => intro x h; exact extendedBy_write h name
  | selector y sel ih =>
    intro x h
    exact extendedBy_write (extendedBy_write (ih x h) ".") sel
  | basicLit kind value => intro x h; exact h
  | paren y _ => intro x h; exact h
  | binary y op z _ _ => intro x h; exact h
  | other => intro x h; exact h

theorem extendedBy_writeVarDeclaration {g x : codeGenerator} (h : g.extendedBy x)
    (varName : String) (varType : Expr) (newObj : Bool) :
    g.extendedBy (x.writeVarDeclaration varName varType newObj) := by
  unfold codeGenerator.writeVarDeclaration
  cases newObj with
  | true =>
    exact extendedBy_writeLine (extendedBy_write (extendedBy_writeExpr _ _
      (extendedBy_write (extendedBy_write (extendedBy_write (extendedBy_write h _) _) _) _)) _) []
  | false =>
    exact extendedBy_writeLine (extendedBy_writeExpr _ _
      (extendedBy_write (extendedBy_write (extendedBy_write h _) _) _)) []

theorem extendedBy_writeConstDeclaration {g x : codeGenerator} (h : g.extendedBy x)
    (varName initValue : String) :
    g.extendedBy (x.writeConstDeclaration varName initValue) := by
  unfold codeGenerator.writeConstDeclaration codeGenerator.writeStringValue
  exact extendedBy_writeLine (extendedBy_write (extendedBy_write (extendedBy_write
    (extendedBy_write (extendedBy_write (extendedBy_write h _) _) _) _) _) _) []

theorem extendedBy_arguments {g : codeGenerator} (sqlParamList : List SQLParameterExpression) :
    ∀ x : codeGenerator, g.extendedBy x →
      g.extendedBy (sqlParamList.foldl
        (fun generator p => (generator.write ", ").write p.name) x) := by
  induction sqlParamList with
  | nil => intro x h; exact h
  | cons p rest ih => intro x h; exact ih _ (extendedBy_write (extendedBy_write h _) _)

theorem extendedBy_scanTargets {g : codeGenerator} (selectList : List SQLExpression) :
    ∀ (i : Nat) (x y : codeGenerator), writeScanTargetsFrom i selectList x = .ok y →
      g.extendedBy x → g.extendedBy y := by
  induction selectList with
  | nil =>
    intro i x y hy h
    simp only [writeScanTargetsFrom] at hy
    injection hy with hy
    subst hy
    exact h
  | cons e rest ih =>
    intro i x y hy h
    cases e with
    | column c =>
      simp only [writeScanTargetsFrom] at hy
      apply ih _ _ _ hy
      apply extendedBy_write
      apply extendedBy_write
      by_cases hi : i > 0
      · simp only [hi, if_true]
        exact extendedBy_write h _
      · simp only [hi, if_false]
        exact h
    | _ => simp [writeScanTargetsFrom] at hy

theorem genMethodBegin_generator_sqlBuilder (context : parseContext) (b : defaultSQLBuilder)
    (funcName : String) (paramList returnList : List Field) (doc : List String) :
    (genMethodBegin { context with sqlBuilder := b } funcName paramList returnList doc).generator
      = (genMethodBegin context funcName paramList returnList doc).generator := rfl

theorem emitSelectBody_extendedBy (plan : SelectPlan) (g y : codeGenerator)
    (h : emitSelectBody plan g = .ok y) : g.extendedBy y := by
  unfold emitSelectBody at h
  split at h
  all_goals try simp only [bind, Except.bind, pure, Except.pure] at h
  all_goals repeat' split at h
  all_goals first
    | (injection h with h
       subst h
       with_reducible
         repeat (first
           | exact extendedBy_refl _
           | apply extendedBy_beginBlock
           | apply extendedBy_endBlock
           | apply extendedBy_writeVarDeclaration
           | apply extendedBy_writeLine
           | apply extendedBy_write
           | refine extendedBy_scanTargets _ _ _ _ ‹_› ?_
           | split
           | apply extendedBy_indent))
    | cases h

theorem emitSelect_extendedBy (context context' : parseContext) (funcDecl : FuncDecl)
    (plan : SelectPlan) (h : emitSelect context funcDecl plan = .ok context') :
    (genMethodBegin context funcDecl.name funcDecl.params plan.funcReturnList
      funcDecl.doc).generator.extendedBy context'.generator := by
  unfold emitSelect at h
  simp only [bind, Except.bind, pure, Except.pure, genMethodBegin_generator_sqlBuilder] at h
  split at h
  · cases h
  · next body hbody =>
    injection h with h
    subst h
    simp only [genMethodEnd]
    apply extendedBy_endBlock
    refine extendedBy_trans ?_ (emitSelectBody_extendedBy _ _ _ hbody)
    by_cases hflag : plan.returnTypeFlag = .ReturnRecordChannel
    all_goals simp only [hflag, if_true, if_false, ne_eq, not_true_eq_false, not_false_eq_true]
    all_goals
      with_reducible
        repeat (first
          | exact extendedBy_refl _
          | apply extendedBy_beginBlock
          | apply extendedBy_endBlock
          | apply extendedBy_writeConstDeclaration
          | apply extendedBy_writeLine
          | apply extendedBy_write
          | apply extendedBy_arguments)

theorem emitDelete_extendedBy (context : parseContext) (funcDecl : FuncDecl)
    (deleteStmt : SQLDeleteStatement) :
    (genMethodBegin context funcDecl.name funcDecl.params
      [newASTField (newASTRefExpr "sql.Result") [""]] funcDecl.doc).generator.extendedBy
      (emitDelete context funcDecl deleteStmt).generator := by
  simp only [emitDelete, genMethodEnd, genMethodBegin_generator_sqlBuilder]
  with_reducible
    repeat (first
      | exact extendedBy_refl _
      | apply extendedBy_endBlock
      | apply extendedBy_writeConstDeclaration
      | apply extendedBy_writeLine
      | apply extendedBy_write
      | apply extendedBy_arguments)

theorem emitUpdate_extendedBy (context context' : parseContext) (funcDecl : FuncDecl)
    (updateStmt : SQLUpdateStatement) (h : emitUpdate context funcDecl updateStmt = .ok context') :
    (genMethodBegin context funcDecl.name funcDecl.params
      [newASTField (newASTRefExpr "sql.Result") [""]] funcDecl.doc).generator.extendedBy
      context'.generator := by
  unfold emitUpdate at h
  simp only [bind, Except.bind, pure, Except.pure, genMethodBegin_generator_sqlBuilder] at h
  repeat' split at h
  all_goals first
    | (injection h with h
       subst h
       simp only [genMethodEnd]
       with_reducible
         repeat (first
           | exact extendedBy_refl _
           | apply extendedBy_endBlock
           | apply extendedBy_writeConstDeclaration
           | apply extendedBy_writeLine
           | apply extendedBy_write
           | apply extendedBy_arguments))
    | cases h

theorem getTypeName_of_typeText (e : Expr) :
    ∀ text, typeText e = some text → getTypeName e = text := by
  induction e with
  | ident name =>
    intro text h
    simp only [typeText] at h
    injection h
  | selector x sel ih =>
    intro text h
    simp only [typeText] at h
    cases hx : typeText x with
    | none => simp [hx] at h
    | some t =>
      simp only [hx, Option.map] at h
      injection h with h
      subst h
      simp only [getTypeName, ih t hx]
  | basicLit kind value => intro text h; simp [typeText] at h
  | paren x _ => intro text h; simp [typeText] at h
  | binary x op y _ _ => intro text h; simp [typeText] at h
  | other => intro text h; simp [typeText] at h

theorem fieldText_of_parameterText (field : Field) (text : String)
    (h : parameterText field = some text) : fieldText field = text := by
  unfold parameterText at h
  split at h
  · next name t hnames htype =>
    injection h with h
    subst h
    simp only [fieldText, hnames, getTypeName_of_typeText _ _ htype, String.append_assoc]
  · cases h

theorem map_fieldText_of_parameterText (paramList : List Field) :
    ∀ parameters : List String, paramList.map parameterText = parameters.map some →
      paramList.map fieldText = parameters := by
  induction paramList with
  | nil =>
    intro parameters h
    cases parameters with
    | nil => rfl
    | cons p ps => simp at h
  | cons field rest ih =>
    intro parameters h
    cases parameters with
    | nil => simp at h
    | cons p ps =>
      simp only [List.map_cons, List.cons.injEq] at h
      simp only [List.map_cons, fieldText_of_parameterText field p h.1, ih ps h.2]

theorem join_append (xs ys : List String) :
    String.join (xs ++ ys) = String.join xs ++ String.join ys := by
  apply String.ext
  simp [String.data_join]

theorem resultListText_ends_with_error (results : List String) :
    ∃ start, resultListText results
      = start ++ "error" ++ (if results = [] then "" else ")") := by
  unfold resultListText
  cases results with
  | nil => exact ⟨"", by simp⟩
  | cons r rs =>
    refine ⟨"(" ++ r ++ String.join (rs.map (fun y => ", " ++ y)) ++ ", ", ?_⟩
    have hnil : String.join [] = "" := rfl
    simp only [List.cons_append, intercalate_cons, List.map_append, join_append, List.map_cons,
      List.map_nil, join_cons, hnil, reduceCtorEq, if_false, String.append_assoc,
      String.append_empty]

theorem genMethodBegin_header (context : parseContext) (funcName : String)
    (paramList returnList : List Field) (doc : List String) (parameters : List String)
    (hstart : context.generator.newLine = true)
    (hparams : paramList.map parameterText = parameters.map some)
    (generator : codeGenerator)
    (h : (genMethodBegin context funcName paramList returnList doc).generator.extendedBy
      generator) :
    ∃ rest, generator.writer
      = context.generator.writer
        ++ docText doc context.generator.indentLevel context.generator.settings
        ++ indentText context.generator.indentLevel context.generator.settings
        ++ headerText funcName parameters (returnList.map fieldText)
        ++ context.generator.settings.line ++ rest := by
  obtain ⟨rest, hrest⟩ := h
  refine ⟨rest, ?_⟩
  rw [hrest, genMethodBegin_generator context funcName paramList returnList doc hstart,
    map_fieldText_of_parameterText paramList parameters hparams]

/-- C28 (amended): for a function whose parameters each declare one name with
a type that is a name or a qualified name, the accessor emitted for a select,
an update or a delete function starts with the doc comment and the header
`func <name>(db sqlutil.DbObject, <parameters>) <results> {`, where the
parameters are the declared ones as `name type`, in declared order, and the
result list is the result types followed by `error` (`(sql.Result, error)` for
update and delete); an insert function is emitted with the parameter list
`(db sqlutil.DbObject, o *<Entity>)`, whatever parameters it declares. -/
theorem accessor_header_lists_db_then_parameters (context : parseContext)
    (funcDecl : FuncDecl) (parameters : List String)
    (hstart : context.generator.newLine = true)
    (hparams : funcDecl.params.map parameterText = parameters.map some) :
    (∀ context', genSelectFunction context funcDecl = .ok context' →
      ∃ plan rest, interpretSelect context funcDecl = .ok plan
        ∧ context'.generator.writer
          = context.generator.writer
            ++ docText funcDecl.doc context.generator.indentLevel context.generator.settings
            ++ indentText context.generator.indentLevel context.generator.settings
            ++ headerText funcDecl.name parameters (plan.funcReturnList.map fieldText)
            ++ context.generator.settings.line ++ rest)
    ∧ (∀ context', genUpdateFunction context funcDecl = .ok context' →
      ∃ rest, context'.generator.writer
          = context.generator.writer
            ++ docText funcDecl.doc context.generator.indentLevel context.generator.settings
            ++ indentText context.generator.indentLevel context.generator.settings
            ++ headerText funcDecl.name parameters ["sql.Result"]
            ++ context.generator.settings.line ++ rest)
    ∧ (∀ context', genDeleteFunction context funcDecl = .ok context' →
      ∃ rest, context'.generator.writer
          = context.generator.writer
            ++ docText funcDecl.doc context.generator.indentLevel context.generator.settings
            ++ indentText context.generator.indentLevel context.generator.settings
            ++ headerText funcDecl.name parameters ["sql.Result"]
            ++ context.generator.settings.line ++ rest)
    ∧ (∀ results : List String, ∃ start, resultListText results
        = start ++ "error" ++ (if results = [] then "" else ")"))
    ∧ (∀ (call : CallExpr) (argName : String) (args : List Expr) (entity : table),
        findSpecCall funcDecl "InsertAll" = some call → call.args = .ident argName :: args →
        context.entity.lookup argName = some entity →
        ∃ context' rest, genInsertFunction context funcDecl = .ok context'
          ∧ context'.generator.writer
            = context.generator.writer
              ++ indentText context.generator.indentLevel context.generator.settings
              ++ "func " ++ funcDecl.name ++ "(db sqlutil.DbObject, o *" ++ entity.name
              ++ ") (sql.Result, error) \x7b" ++ context.generator.settings.line ++ rest) := by
  have hresult : [newASTField (newASTRefExpr "sql.Result") [""]].map fieldText
      = ["sql.Result"] := by rfl
  refine ⟨?_, ?_, ?_, resultListText_ends_with_error, ?_⟩
  · intro context' h
    unfold genSelectFunction at h
    simp only [bind, Except.bind] at h
    cases hplan : interpretSelect context funcDecl with
    | error e => simp [hplan] at h
    | ok plan =>
      simp only [hplan] at h
      obtain ⟨rest, hrest⟩ := genMethodBegin_header context funcDecl.name funcDecl.params
        plan.funcReturnList funcDecl.doc parameters hstart hparams _
        (emitSelect_extendedBy context context' funcDecl plan h)
      exact ⟨plan, rest, rfl, hrest⟩
  · intro context' h
    unfold genUpdateFunction at h
    simp only [bind, Except.bind] at h
    cases hstmt : interpretUpdate context funcDecl with
    | error e => simp [hstmt] at h
    | ok stmt =>
      simp only [hstmt] at h
      have := genMethodBegin_header context funcDecl.name funcDecl.params _ funcDecl.doc
        parameters hstart hparams _ (emitUpdate_extendedBy context context' funcDecl stmt h)
      rw [hresult] at this
      exact this
  · intro context' h
    unfold genDeleteFunction at h
    simp only [bind, Except.bind, pure, Except.pure] at h
    cases hstmt : interpretDelete context funcDecl with
    | error e => simp [hstmt] at h
    | ok stmt =>
      simp only [hstmt] at h
      injection h with h
      subst h
      have := genMethodBegin_header context funcDecl.name funcDecl.params _ funcDecl.doc
        parameters hstart hparams _ (emitDelete_extendedBy context funcDecl stmt)
      rw [hresult] at this
      exact this
  · intro call argName args entity hcall hargs hentity
    unfold genInsertFunction
    simp only [hcall, hargs, hentity]
    refine ⟨_, indentText (context.generator.indentLevel + 1) context.generator.settings
      ++ "const query = \"" ++ (context.sqlBuilder.Reset.WriteInsertStatement
          (tableToInsertStatement context.sqlBuilder none entity)).String' ++ "\""
      ++ context.generator.settings.line
      ++ indentText (context.generator.indentLevel + 1) context.generator.settings
      ++ "return db.ExecContext(context.Background(), query"
      ++ String.join ((entity.columns.filter (fun c => !c.isIdentity)).map
          (fun c => ",o." ++ c.name))
      ++ ")" ++ context.generator.settings.line
      ++ indentText context.generator.indentLevel context.generator.settings
      ++ "\x7d" ++ context.generator.settings.line, rfl, ?_⟩
    rw [insert_arguments_follow_placeholders_aux]
    simp only [lineStart, hstart, if_true, String.append_assoc]

set_option maxRecDepth 100000

/-- Witness of C28: `UpdateUser` of the example is emitted with the header
`func UpdateUser(db sqlutil.DbObject, userID string, userName string, sex
byte) (sql.Result, error) {`. -/
theorem accessor_header_witness :
    exampleContext.generator.newLine = true
    ∧ exampleUpdateUser.params.map parameterText
        = ["userID string", "userName string", "sex byte"].map some
    ∧ (∀ context', genUpdateFunction exampleContext exampleUpdateUser = .ok context' →
        ∃ rest, context'.generator.writer
          = "func UpdateUser(db sqlutil.DbObject, userID string, userName string, sex byte) "
            ++ "(sql.Result, error) \x7b\r\n" ++ rest)
    ∧ (genUpdateFunction exampleContext exampleUpdateUser).map (fun c => c.generator.writer)
        = .ok ("func UpdateUser(db sqlutil.DbObject, userID string, userName string, sex byte) "
            ++ "(sql.Result, error) \x7b\r\n"
            ++ "\tconst query = \"UPDATE User\\nSET UserName = ?,Sex = ?\\nWHERE UserID = ?\\n\"\r\n"
            ++ "\treturn db.ExecContext(context.Background(), query, userName, sex, userID)\r\n"
            ++ "\x7d\r\n") := by
  refine ⟨by rfl, by rfl, ?_, by rfl⟩
  intro context' h
  obtain ⟨rest, hrest⟩ := (accessor_header_lists_db_then_parameters exampleContext
    exampleUpdateUser ["userID string", "userName string", "sex byte"] (by rfl) (by rfl)).2.1
    context' h
  exact ⟨rest, hrest.trans (congrArg (fun s => s ++ rest) (by rfl))⟩

/-- C28 (counterexample): `InsertUser` of the example declares no parameter,
and its accessor is emitted with the parameter list `(db sqlutil.DbObject, o
*User)`: the record to insert is a parameter of the accessor although the
function does not declare it. -/
theorem insert_header_adds_record_parameter :
    exampleInsertUser.params = []
    ∧ (genInsertFunction exampleContext exampleInsertUser).map (fun c => c.generator.writer)
        = .ok ("func InsertUser(db sqlutil.DbObject, o *User) (sql.Result, error) \x7b\r\n"
            ++ "\tconst query = \"INSERT INTO User(UserID,UserName,Sex)\\nVALUES(?,?,?)\"\r\n"
            ++ "\treturn db.ExecContext(context.Background(), query,o.UserID,o.UserName,o.Sex)\r\n"
            ++ "\x7d\r\n") := by
  exact ⟨by rfl, by rfl⟩

/-- The header of a function declared as `ListUsers(a, b string)` lists `a
string` only, and a parameter whose type is neither a name nor a qualified
name is written without its type. -/
theorem header_of_other_parameter_declarations :
    (genSelectFunction exampleContext sharedTypeListUsers).map (fun c => c.generator.writer)
        = .ok ("func ListUsers(db sqlutil.DbObject, a string) ([]*User, error) \x7b\r\n"
            ++ "\tconst query = \"SELECT UserID, UserName, Sex\\nFROM User\\nWHERE UserID = ?\\n\"\r\n"
            ++ "\trows, err := db.QueryContext(context.Background(), query, a)\r\n"
            ++ "\tif err != nil \x7b\r\n"
            ++ "\t\treturn nil, err\r\n"
            ++ "\t\x7d\r\n"
            ++ "\tdefer rows.Close()\r\n"
            ++ "\tvar result []*User\r\n"
            ++ "\tfor rows.Next() \x7b\r\n"
            ++ "\t\tvar o = new(User)\r\n"
            ++ "\t\trows.Scan(&o.UserID, &o.UserName, &o.Sex)\r\n"
            ++ "\t\tresult = append(result, o)\r\n"
            ++ "\t\x7d\r\n"
            ++ "\treturn result, nil\r\n"
            ++ "\x7d\r\n")
    ∧ (newGenerator.writeFuncType [{ names := ["ids"], type := .other }] true).writer
        = "(ids )" := by
  exact ⟨by rfl, by rfl⟩

set_option maxRecDepth 512

/-! ## Theorems: the names of columns, literals and the result of a select function -/

theorem columnsOfFields_names (fields : List StructField) :
    (columnsOfFields fields).map (fun col => col.name) = firstColumnNames fields := by
  induction fields with
  | nil => rfl
  | cons field rest ih =>
    simp only [columnsOfFields, firstColumnNames, List.filterMap_cons, List.flatMap_cons] at ih ⊢
    cases hmarker : tableNameOfField field with
    | some name => simpa using ih
    | none =>
      cases hnames : field.names with
      | nil => simpa using ih
      | cons name others =>
        simp only [List.head?_cons, Option.map_some', List.map_cons, List.take_succ_cons,
          List.take_zero, List.singleton_append, ih]
        rfl

theorem firstColumnNames_eq_declared (fields : List StructField)
    (hone : ∀ field ∈ fields, field.names.length ≤ 1) :
    firstColumnNames fields = declaredColumnNames fields := by
  induction fields with
  | nil => rfl
  | cons field rest ih =>
    have hfield := hone field (List.mem_cons_self field rest)
    have ih' := ih (fun f hf => hone f (List.mem_cons_of_mem field hf))
    simp only [firstColumnNames, declaredColumnNames, List.flatMap_cons] at ih' ⊢
    rw [ih']
    congr 1
    cases tableNameOfField field with
    | some name => rfl
    | none =>
      simp only []
      exact List.take_of_length_le hfield

set_option maxRecDepth 100000

/-- C31 (fails on the code): a struct type with one specification whose column
fields all have a name records one column for the first name of every field
that does not set the table name, in declaration order, which is every
declared name when no field declares more than one; but of `type Pair struct {
A, B string; C int }`, which declares the names `A`, `B` and `C`, only the
columns `A` and `C` are recorded. -/
theorem shared_type_fields_record_first_name_only :
    buildTable pairType
      = .ok { name := "Pair", tableName := "Pair", doc := [],
              columns := [newColumn { names := ["A", "B"], type := .ident "string", tag := none }
                            "A",
                          newColumn (plainField "C" "int") "C"] }
    ∧ (buildTable pairType).map (fun t => t.columns.map (fun col => col.name))
        = .ok ["A", "C"]
    ∧ declaredColumnNames
        [{ names := ["A", "B"], type := .ident "string", tag := none }, plainField "C" "int"]
        = ["A", "B", "C"]
    ∧ (∀ (genDecl : TypeDecl) (typeSpec : TypeSpec) (fields : List StructField),
        genDecl.specs = [typeSpec] → typeSpec.type = .structType fields →
        fields.all fieldNamed = true →
        ∃ t, buildTable genDecl = .ok t
          ∧ t.columns.map (fun col => col.name) = firstColumnNames fields
          ∧ ((∀ field ∈ fields, field.names.length ≤ 1) →
              t.columns.map (fun col => col.name) = declaredColumnNames fields)) := by
  refine ⟨by rfl, by rfl, by rfl, ?_⟩
  intro genDecl typeSpec fields hspecs htype hnamed
  refine ⟨{ name := typeSpec.name,
            tableName :=
              if tableNameOfFields fields "" = "" then typeSpec.name
              else tableNameOfFields fields "",
            doc := genDecl.doc,
            columns := columnsOfFields fields }, ?_, columnsOfFields_names fields, ?_⟩
  · unfold buildTable
    rw [hspecs]
    simp only [forRangeM, tableSpecStep_struct genDecl typeSpec _ fields htype hnamed]
  · intro hone
    simp only []
    rw [columnsOfFields_names, firstColumnNames_eq_declared fields hone]

set_option maxRecDepth 512

theorem escapeQuotes_data (s : String) : (escapeQuotes s).data = escapedText s.data := by
  unfold escapeQuotes
  simp only []
  induction s.data with
  | nil => rfl
  | cons c cs ih =>
    simp only [List.flatMap_cons, escapedText, ih]
    by_cases hc : c = '"' <;> simp [hc]

theorem escapedText_of_no_quote (cs : List Char) (h : ∀ c ∈ cs, c ≠ '"') :
    escapedText cs = cs := by
  induction cs with
  | nil => rfl
  | cons c cs ih =>
    have hc := h c (List.mem_cons_self c cs)
    simp only [escapedText, hc, if_false, ih (fun x hx => h x (List.mem_cons_of_mem c hx))]

theorem escapedText_append (xs ys : List Char) :
    escapedText (xs ++ ys) = escapedText xs ++ escapedText ys := by
  induction xs with
  | nil => rfl
  | cons c cs ih =>
    by_cases hc : c = '"' <;> simp [escapedText, hc, ih]

theorem escapedText_length (cs : List Char) :
    (escapedText cs).length = cs.length + cs.count '"' := by
  induction cs with
  | nil => rfl
  | cons c cs ih =>
    by_cases hc : c = '"'
    · subst hc
      simp [escapedText, ih]
      omega
    · have hne : ('"' == c) = false := by simpa using fun h => hc h.symm
      simp [escapedText, hc, ih, List.count_cons, hne]
      omega

set_option maxRecDepth 100000

/-- C32: the translator turns a literal into a literal node holding the text of
the literal as it is; the default builder writes for such a node, after what it
has written so far, the text with a backslash put before every double quote and
every other character as it is (so the text of two joined parts is the two
written texts joined, and the written text is longer by the number of double
quotes); and a text without double quote is written as it is. So
`user.UserName == "bob"` is rendered `UserName = \"bob\"` and `user.Sex == 0`
is rendered `Sex = 0`. -/
theorem literal_text_kept_and_quotes_escaped :
    (∀ (kind : LitKind) (value : String) (context : parseContext)
        (paramNames : List (String × Nat)),
      astToSQLExpression (.basicLit kind value) context paramNames
        = .ok (.literal { value := value }))
    ∧ (∀ (b : defaultSQLBuilder) (value : String),
      (b.WriteSQLExpression (.literal { value := value })).buffer
        = b.buffer ++ String.mk (escapedText value.data))
    ∧ (∀ value : String, render (.literal { value := value })
        = String.mk (escapedText value.data))
    ∧ (∀ value : String, (∀ c ∈ value.data, c ≠ '"') →
        render (.literal { value := value }) = value)
    ∧ (∀ xs ys : List Char, escapedText (xs ++ ys) = escapedText xs ++ escapedText ys)
    ∧ escapedText ['"'] = ['\\', '"']
    ∧ (∀ c : Char, c ≠ '"' → escapedText [c] = [c])
    ∧ (∀ cs : List Char, (escapedText cs).length = cs.length + cs.count '"')
    ∧ selectSqlText exampleContext (selectWhereLiteral .STRING "\"bob\"")
        = .ok "SELECT UserID, UserName, Sex\\nFROM User\\nWHERE UserName = \\\"bob\\\"\\n"
    ∧ selectSqlText exampleContext (selectWhereLiteral .INT "0")
        = .ok "SELECT UserID, UserName, Sex\\nFROM User\\nWHERE UserName = 0\\n" := by
  have hwrite : ∀ (b : defaultSQLBuilder) (value : String),
      (b.WriteSQLExpression (.literal { value := value })).buffer
        = b.buffer ++ String.mk (escapedText value.data) := by
    intro b value
    rw [WriteSQLExpression_buffer]
    congr 1
    apply String.ext
    simp only [expressionText, escapeQuotes_data]
  have hrender : ∀ value : String, render (.literal { value := value })
      = String.mk (escapedText value.data) := by
    intro value
    rw [render_eq_expressionText]
    apply String.ext
    simp only [expressionText, escapeQuotes_data]
  refine ⟨?_, hwrite, hrender, ?_, escapedText_append, by rfl, ?_, escapedText_length,
    by rfl, by rfl⟩
  · intro kind value context paramNames
    rfl
  · intro value h
    rw [hrender, escapedText_of_no_quote _ h]
  · intro c hc
    simp [escapedText, hc]

set_option maxRecDepth 512

theorem interpretSelect_execResult_returnList (context : parseContext) (funcDecl : FuncDecl)
    (plan : SelectPlan) (h : interpretSelect context funcDecl = .ok plan)
    (hflag : plan.returnTypeFlag = .ReturnExecResult) :
    plan.funcReturnList = [] := by
  unfold interpretSelect at h
  simp only [bind, Except.bind, pure, Except.pure] at h
  repeat' split at h
  all_goals cases h
  all_goals simp_all

theorem emitSelectBody_execResult (plan : SelectPlan) (g : codeGenerator)
    (hflag : plan.returnTypeFlag = .ReturnExecResult) : emitSelectBody plan g = .ok g := by
  unfold emitSelectBody
  simp [hflag]

set_option maxRecDepth 100000

/-- C33 (fails on the code): `SetReturnType(sqlcodegen.ReturnExecResult)` is
accepted in a select function, and the function is then emitted with the
result list `error` alone, with `return nil, err` (two values) after the
query, and with nothing after `defer rows.Close()`: the interpretation gives
an empty list of result types and the scan body writes nothing. In scalar mode
the same function has the result list `(string, error)`, returns two values
everywhere and ends with `return nil, nil`. -/
theorem execResult_select_declares_no_result :
    (interpretSelect exampleContext
        (selectWithReturnType [returnModeArg "ReturnExecResult"])).map
        (fun plan => (plan.returnTypeFlag, plan.funcReturnList))
      = .ok (.ReturnExecResult, [])
    ∧ (∀ (context : parseContext) (funcDecl : FuncDecl) (plan : SelectPlan),
        interpretSelect context funcDecl = .ok plan →
        plan.returnTypeFlag = .ReturnExecResult →
        plan.funcReturnList = [] ∧ ∀ g : codeGenerator, emitSelectBody plan g = .ok g)
    ∧ (genSelectFunction exampleContext
        (selectWithReturnType [returnModeArg "ReturnExecResult"])).map
        (fun c => c.generator.writer)
      = .ok ("func GetUsers(db sqlutil.DbObject) error \x7b\r\n"
          ++ "\tconst query = \"SELECT UserID, UserName, Sex\\nFROM User\\n\"\r\n"
          ++ "\trows, err := db.QueryContext(context.Background(), query)\r\n"
          ++ "\tif err != nil \x7b\r\n"
          ++ "\t\treturn nil, err\r\n"
          ++ "\t\x7d\r\n"
          ++ "\tdefer rows.Close()\r\n"
          ++ "\x7d\r\n")
    ∧ (genSelectFunction exampleContext
        (selectWithReturnType [returnModeArg "ReturnScalar"])).map
        (fun c => c.generator.writer)
      = .ok ("func GetUsers(db sqlutil.DbObject) (string, error) \x7b\r\n"
          ++ "\tconst query = \"SELECT UserID, UserName, Sex\\nFROM User\\n\"\r\n"
          ++ "\trows, err := db.QueryContext(context.Background(), query)\r\n"
          ++ "\tif err != nil \x7b\r\n"
          ++ "\t\treturn nil, err\r\n"
          ++ "\t\x7d\r\n"
          ++ "\tdefer rows.Close()\r\n"
          ++ "\tif rows.Next() \x7b\r\n"
          ++ "\t\tvar o = new(string)\r\n"
          ++ "\t\trows.Scan(o)\r\n"
          ++ "\t\treturn o, nil\r\n"
          ++ "\t\x7d\r\n"
          ++ "\treturn nil, nil\r\n"
          ++ "\x7d\r\n") := by
  refine ⟨by rfl, ?_, by rfl, by rfl⟩
  intro context funcDecl plan hplan hflag
  exact ⟨interpretSelect_execResult_returnList context funcDecl plan hplan hflag,
    fun g => emitSelectBody_execResult plan g hflag⟩

set_option maxRecDepth 512

/-! ## Theorems: several `Select` and `SelectAll` calls in one body -/

set_option maxRecDepth 100000

/-- C9 (counterexample): a body that holds `SelectAll(user)` and, after it,
`SelectAll(role)` or `Select(role.RoleID)` has the column of `Role` as select
list, not the columns of `User`: the last `Select`/`SelectAll` call of the body
decides the list. -/
theorem selectAll_is_replaced_by_a_later_call :
    twoEntityContext.entity.lookup "user" = some exampleUser
    ∧ (interpretSelect twoEntityContext
        (functionOfCalls [("From", [.ident "user"]), ("SelectAll", [.ident "user"]),
          ("SelectAll", [.ident "role"])])).map (fun plan => plan.selectStmt.selectList)
      = .ok (exampleRole.columns.map (columnExpression exampleRole))
    ∧ (interpretSelect twoEntityContext
        (functionOfCalls [("From", [.ident "user"]), ("SelectAll", [.ident "user"]),
          ("Select", [.selector (.ident "role") "RoleID"])])).map
          (fun plan => plan.selectStmt.selectList)
      = .ok (exampleRole.columns.map (columnExpression exampleRole))
    ∧ exampleRole.columns.map (columnExpression exampleRole)
      ≠ exampleUser.columns.map (columnExpression exampleUser) := by
  exact ⟨by rfl, by rfl, by rfl, by decide⟩

/-- A `Select` call after a `SelectAll` call does not clear `isSelectAll`: of
`From(user); SelectAll(user); Select(user.UserID)` the select list is every
column of `User`, not the one argument of `Select`. -/
theorem select_after_selectAll_lists_every_column :
    (interpretSelect exampleContext
        (functionOfCalls [("From", [.ident "user"]), ("SelectAll", [.ident "user"]),
          ("Select", [userField "UserID"])])).map (fun plan => plan.selectStmt.selectList)
      = .ok (exampleUser.columns.map (columnExpression exampleUser))
    ∧ selectSqlText exampleContext
        (functionOfCalls [("From", [.ident "user"]), ("SelectAll", [.ident "user"]),
          ("Select", [userField "UserID"])])
      = .ok "SELECT UserID, UserName, Sex\\nFROM User\\n" := by
  exact ⟨by rfl, by rfl⟩

set_option maxRecDepth 512

/-! ## Theorems: the statement each generator writes -/

theorem WriteDeleteStatement_text (b : defaultSQLBuilder) (stmt : SQLDeleteStatement) :
    (b.Reset.WriteDeleteStatement stmt).String'
      = "DELETE " ++ stmt.table ++ "\\n" ++ whereClauseText stmt.where := by
  simp only [defaultSQLBuilder.WriteDeleteStatement, defaultSQLBuilder.String',
    WriteWhere_buffer, defaultSQLBuilder.WriteLine, Write_buffer, defaultSQLBuilder.Reset,
    String.append_assoc, String.empty_append]

theorem writeUpdateListFrom_ok_binary (l : List SQLExpression) :
    ∀ (i : Nat) (b b' : defaultSQLBuilder), writeUpdateListFrom i l b = .ok b' →
      ∀ e ∈ l, ∃ left op right, e = SQLExpression.binary left op right := by
  induction l with
  | nil => intro i b b' _ e he; cases he
  | cons x l ih =>
    intro i b b' h e he
    simp only [writeUpdateListFrom] at h
    cases hitem : writeUpdateItem i x b with
    | error err => simp [hitem] at h
    | ok b1 =>
      simp only [hitem] at h
      rcases List.mem_cons.mp he with hx | hl
      · subst hx
        cases e with
        | binary left op right => exact ⟨left, op, right, rfl⟩
        | _ => simp [writeUpdateItem] at hitem
      · exact ih _ _ _ h e hl

theorem emitSelect_sqlBuilder (context context' : parseContext) (funcDecl : FuncDecl)
    (plan : SelectPlan) (h : emitSelect context funcDecl plan = .ok context') :
    context'.sqlBuilder = context.sqlBuilder.Reset.WriteSelectStatement plan.selectStmt := by
  unfold emitSelect at h
  simp only [bind, Except.bind, pure, Except.pure] at h
  split at h
  · cases h
  · injection h with h
    subst h
    rfl

theorem emitUpdate_sqlBuilder (context context' : parseContext) (funcDecl : FuncDecl)
    (stmt : SQLUpdateStatement) (h : emitUpdate context funcDecl stmt = .ok context') :
    context.sqlBuilder.Reset.WriteUpdateStatement stmt = .ok context'.sqlBuilder := by
  unfold emitUpdate at h
  simp only [bind, Except.bind, pure, Except.pure] at h
  cases hb : (genMethodBegin context funcDecl.name funcDecl.params
      [newASTField (newASTRefExpr "sql.Result") [""]]
      funcDecl.doc).sqlBuilder.Reset.WriteUpdateStatement stmt with
  | error e => simp [hb] at h
  | ok b =>
    simp only [hb] at h
    split at h
    · cases h
    · injection h with h
      subst h
      exact hb

set_option maxRecDepth 100000

/-- C18: for every function declaration, the last loop of `Compile` runs
exactly the generator of the kind named by the first call of the body, in
body order, whose operation name starts with `Insert`, `Select`, `Update` or
`Delete`, whatever calls follow it; with no such call it returns the context
unchanged, with no output and no error. A generator that succeeds has written
the statement of its kind: the select generator a `SELECT` statement, the
delete generator `DELETE <table>` with the WHERE clause, the update generator
`UPDATE <table>` with the `SET` list and the WHERE clause, and the insert
generator `INSERT INTO <table>` with the columns and placeholders, or nothing
when the body has no `InsertAll` call. So `Where; Delete; Select` is emitted as
the delete function `DeleteUser`, and `SetPackageName` alone generates
nothing. -/
theorem statement_kind_is_first_prefixed_call :
    (∀ (context : parseContext) (funcDecl : FuncDecl),
      compileFuncDecl context funcDecl
        = match (getCallExprList funcDecl).findSome? (fun c => c.kind) with
          | none => .ok context
          | some kind => runGenerator kind context funcDecl)
    ∧ (∀ (context context' : parseContext) (funcDecl : FuncDecl),
      runGenerator .select context funcDecl = .ok context' →
      ∃ plan, interpretSelect context funcDecl = .ok plan
        ∧ context'.sqlBuilder.String'
          = "SELECT " ++ String.intercalate ", " (plan.selectStmt.selectList.map render)
            ++ "\\n"
            ++ (if plan.selectStmt.table ≠ "" then "FROM " ++ plan.selectStmt.table ++ "\\n"
                else "")
            ++ whereClauseText plan.selectStmt.where
            ++ orderByClauseText plan.selectStmt.orderByList
            ++ (if plan.selectStmt.limitRows > 0 then
                  "LIMIT " ++ itoa plan.selectStmt.limitRows ++ "\\n"
                else ""))
    ∧ (∀ (context context' : parseContext) (funcDecl : FuncDecl),
      runGenerator .delete context funcDecl = .ok context' →
      ∃ stmt, interpretDelete context funcDecl = .ok stmt
        ∧ context'.sqlBuilder.String'
          = "DELETE " ++ stmt.table ++ "\\n" ++ whereClauseText stmt.where)
    ∧ (∀ (context context' : parseContext) (funcDecl : FuncDecl),
      runGenerator .update context funcDecl = .ok context' →
      ∃ stmt, interpretUpdate context funcDecl = .ok stmt
        ∧ context'.sqlBuilder.String'
          = "UPDATE " ++ stmt.table ++ "\\n" ++ "SET "
            ++ String.intercalate "," (stmt.updateList.map assignmentText) ++ "\\n"
            ++ whereClauseText stmt.where)
    ∧ (∀ (context context' : parseContext) (funcDecl : FuncDecl),
      runGenerator .insert context funcDecl = .ok context' →
      (findSpecCall funcDecl "InsertAll" = none ∧ context' = context)
      ∨ ∃ (call : CallExpr) (argName : String) (rest : List Expr) (entity : table),
          findSpecCall funcDecl "InsertAll" = some call
          ∧ call.args = .ident argName :: rest
          ∧ context.entity.lookup argName = some entity
          ∧ context'.sqlBuilder.String'
          = "INSERT INTO " ++ entity.tableName ++ "("
            ++ String.intercalate ","
                ((entity.columns.filter (fun c => !c.isIdentity)).map (fun c => c.columnName))
            ++ ")" ++ "\\n" ++ "VALUES("
            ++ String.intercalate ","
                (List.replicate (entity.columns.filter (fun c => !c.isIdentity)).length "?")
            ++ ")")
    ∧ kindNamedBy "InsertAll" = some .insert ∧ kindNamedBy "SelectAll" = some .select
    ∧ kindNamedBy "Select" = some .select ∧ kindNamedBy "Update" = some .update
    ∧ kindNamedBy "Delete" = some .delete ∧ kindNamedBy "Where" = none
    ∧ compileFuncDecl exampleContext deleteThenSelect
        = genDeleteFunction exampleContext deleteThenSelect
    ∧ (compileFuncDecl exampleContext deleteThenSelect).map
        (fun c => (c.sqlBuilder.String', c.generator.writer))
      = .ok ("DELETE User\\nWHERE UserID = ?\\n",
          "func DeleteUser(db sqlutil.DbObject, userID string) (sql.Result, error) \x7b\r\n"
          ++ "\tconst query = \"DELETE User\\nWHERE UserID = ?\\n\"\r\n"
          ++ "\treturn db.ExecContext(context.Background(), query, userID)\r\n"
          ++ "\x7d\r\n")
    ∧ (compileFuncDecl exampleContext scenarioGetUser).map
        (fun c => (c.sqlBuilder.String', c.generator.writer))
      = .ok ("SELECT UserID, UserName, Sex\\nFROM User\\nWHERE UserID = ?\\n",
          scenarioGetUserText)
    ∧ (compileFuncDecl exampleContext exampleUpdateUser).map
        (fun c => (c.sqlBuilder.String', c.generator.writer))
      = .ok ("UPDATE User\\nSET UserName = ?,Sex = ?\\nWHERE UserID = ?\\n",
          "func UpdateUser(db sqlutil.DbObject, userID string, userName string, sex byte) "
          ++ "(sql.Result, error) \x7b\r\n"
          ++ "\tconst query = \"UPDATE User\\nSET UserName = ?,Sex = ?\\nWHERE UserID = ?\\n\"\r\n"
          ++ "\treturn db.ExecContext(context.Background(), query, userName, sex, userID)\r\n"
          ++ "\x7d\r\n")
    ∧ (compileFuncDecl exampleContext exampleInsertUser).map
        (fun c => (c.sqlBuilder.String', c.generator.writer))
      = .ok ("INSERT INTO User(UserID,UserName,Sex)\\nVALUES(?,?,?)",
          "func InsertUser(db sqlutil.DbObject, o *User) (sql.Result, error) \x7b\r\n"
          ++ "\tconst query = \"INSERT INTO User(UserID,UserName,Sex)\\nVALUES(?,?,?)\"\r\n"
          ++ "\treturn db.ExecContext(context.Background(), query,o.UserID,o.UserName,o.Sex)\r\n"
          ++ "\x7d\r\n")
    ∧ compileFuncDecl exampleContext noStatementCall = .ok exampleContext := by
  refine ⟨?_, ?_, ?_, ?_, ?_, by rfl, by rfl, by rfl, by rfl, by rfl, by rfl, by rfl, by rfl,
    by rfl, by rfl, by rfl, by rfl⟩
  · intro context funcDecl
    exact checkSqlMethodLoop_eq context funcDecl (getCallExprList funcDecl)
      (fun c hc => fun_is_selector_of_mem_getCallExprList funcDecl c hc)
  · intro context context' funcDecl h
    simp only [runGenerator, genSelectFunction, bind, Except.bind] at h
    cases hplan : interpretSelect context funcDecl with
    | error e => simp [hplan] at h
    | ok plan =>
      simp only [hplan] at h
      refine ⟨plan, rfl, ?_⟩
      rw [emitSelect_sqlBuilder context context' funcDecl plan h, WriteSelectStatement_text]
  · intro context context' funcDecl h
    simp only [runGenerator, genDeleteFunction, bind, Except.bind, pure, Except.pure] at h
    cases hstmt : interpretDelete context funcDecl with
    | error e => simp [hstmt] at h
    | ok stmt =>
      simp only [hstmt] at h
      injection h with h
      subst h
      exact ⟨stmt, rfl, WriteDeleteStatement_text context.sqlBuilder stmt⟩
  · intro context context' funcDecl h
    simp only [runGenerator, genUpdateFunction, bind, Except.bind] at h
    cases hstmt : interpretUpdate context funcDecl with
    | error e => simp [hstmt] at h
    | ok stmt =>
      simp only [hstmt] at h
      have hb := emitUpdate_sqlBuilder context context' funcDecl stmt h
      have hall : ∀ e ∈ stmt.updateList,
          ∃ left op right, e = SQLExpression.binary left op right := by
        unfold defaultSQLBuilder.WriteUpdateStatement at hb
        simp only [] at hb
        split at hb
        · cases hb
        · next b hlist => exact writeUpdateListFrom_ok_binary _ _ _ _ hlist
      obtain ⟨b', hb', htext⟩ := WriteUpdateStatement_text context.sqlBuilder stmt hall
      rw [hb] at hb'
      injection hb' with hb'
      rw [hb']
      exact ⟨stmt, rfl, htext⟩
  · intro context context' funcDecl h
    simp only [runGenerator] at h
    unfold genInsertFunction at h
    repeat' split at h
    all_goals first
      | (injection h with h
         subst h
         first
           | exact Or.inl ⟨‹_›, rfl⟩
           | exact Or.inr ⟨_, _, _, _, ‹_›, ‹_›, ‹_›,
               (insertStatement_columns_text context.sqlBuilder _).2⟩)
      | cases h

set_option maxRecDepth 512

/-! ## Theorems: the metadata grammar and the tags the code reads -/

set_option maxRecDepth 100000

/-- C23 (counterexample): `type Admin User` declares a type whose underlying
type is the struct type `User`, extracted before, and `addTable` fails on it
with the type-definition error of `Admin`: the error depends on how the type is
written, not on its underlying type. -/
theorem addTable_rejects_a_type_named_after_a_struct :
    exampleContext.tables.map (fun t => t.name) = ["User"]
    ∧ adminType.specs.all (fun typeSpec =>
        underlyingIsStruct (exampleContext.tables.map (fun t => t.name)) typeSpec.type) = true
    ∧ addTable exampleContext adminType
        = (exampleContext, some (.typeDefError "Admin" 50)) := by
  exact ⟨by rfl, by rfl, by rfl⟩

/-- C25 (fails on the code): the code reads as key of an annotation the run of
word characters right before `:"`, wherever it stands in a token of the raw
text of the tag literal. So the tag `my-name:"x"`, which has no `name`
annotation, gives the physical name `x`; the tag `db-identity:"true"`, which
has no `identity` annotation, makes the column an identity column; and the
interpreted literal `"name:\"x\""`, whose value is the annotation `name:"x"`,
leaves the physical name at the logical name. For the tag `name:"user_id"
identity:"true" json:"id"` the code and the grammar agree. In every case the
logical name is the first name of the field, the physical name is the entry of
`getTags` under `name` or else the logical name, the column is an identity
column exactly when the entry under `identity` is `true`, and the tag text is
kept as it is. -/
theorem unanchored_key_sets_column_metadata :
    (annotatedValue "`my-name:\"x\"`" "name" = none
      ∧ (newColumn (taggedField "`my-name:\"x\"`") "UserID").columnName = "x")
    ∧ (annotatedValue "`db-identity:\"true\"`" "identity" = none
      ∧ (newColumn (taggedField "`db-identity:\"true\"`") "UserID").isIdentity = true)
    ∧ (annotatedValue "\"name:\\\"x\\\"\"" "name" = some "x"
      ∧ (newColumn (taggedField "\"name:\\\"x\\\"\"") "UserID").columnName = "UserID")
    ∧ (annotatedValue "`name:\"user_id\" identity:\"true\" json:\"id\"`" "name"
        = some "user_id"
      ∧ annotatedValue "`name:\"user_id\" identity:\"true\" json:\"id\"`" "identity"
        = some "true"
      ∧ newColumn (taggedField "`name:\"user_id\" identity:\"true\" json:\"id\"`") "UserID"
        = { name := "UserID", columnName := "user_id",
            tag := "`name:\"user_id\" identity:\"true\" json:\"id\"`",
            sysType := "int64", isNull := false, isIdentity := true })
    ∧ (annotatedValue "`identity:\"TRUE\"`" "identity" = some "TRUE"
      ∧ (newColumn (taggedField "`identity:\"TRUE\"`") "UserID").isIdentity = false)
    ∧ (∀ (field : StructField) (name : String),
        (newColumn field name).name = name
        ∧ (newColumn field name).columnName
            = (field.tag.bind (fun tag => (getTags tag).lookup "name")).getD name
        ∧ ((newColumn field name).isIdentity = true
            ↔ field.tag.bind (fun tag => (getTags tag).lookup "identity") = some "true")
        ∧ (newColumn field name).tag = field.tag.getD "") := by
  refine ⟨⟨by rfl, by rfl⟩, ⟨by rfl, by rfl⟩, ⟨by rfl, by rfl⟩, ⟨by rfl, by rfl, by rfl⟩,
    ⟨by rfl, by rfl⟩, ?_⟩
  intro field name
  refine ⟨rfl, ?_, ?_, rfl⟩
  · rw [newColumn_columnName]
    simp only [getTags_lookup]
  · rw [newColumn_isIdentity]
    simp only [getTags_lookup]

/-- C26 (fails on the code): the marker field `_ sqlcodegen.TableName` with the
tag `x-tableName:"t"`, which has no `tableName` annotation, sets the physical
name of the table to `t` and gives no column; with the interpreted literal
`"tableName:\"t\""`, whose value is the annotation `tableName:"t"`, it becomes
the column `_` and the table name is left as it is. With the tag
`tableName:"t_user"` it sets the table name, and without tag, with the tag
`name:"x"`, or for a field of another type with a `tableName` tag, a column is
appended, as the grammar says. In every case a step of the loop of `addTable`
leaves the columns as they are if and only if the name of the type of the
field ends in `TableName` and `getTags` has an entry under `tableName`, whose
value it stores as table name. -/
theorem unanchored_key_sets_table_name :
    (annotatedValue "`x-tableName:\"t\"`" "tableName" = none
      ∧ tableFieldStep (markerField (some "`x-tableName:\"t\"`")) startedTable
        = .ok { startedTable with tableName := "t" })
    ∧ (annotatedValue "\"tableName:\\\"t\\\"\"" "tableName" = some "t"
      ∧ tableFieldStep (markerField (some "\"tableName:\\\"t\\\"\"")) startedTable
        = .ok { startedTable with
            columns := startedTable.columns
              ++ [newColumn (markerField (some "\"tableName:\\\"t\\\"\"")) "_"] })
    ∧ (annotatedValue "`tableName:\"t_user\"`" "tableName" = some "t_user"
      ∧ tableFieldStep (markerField (some "`tableName:\"t_user\"`")) startedTable
        = .ok { startedTable with tableName := "t_user" })
    ∧ tableFieldStep (markerField none) startedTable
        = .ok { startedTable with
            columns := startedTable.columns ++ [newColumn (markerField none) "_"] }
    ∧ (annotatedValue "`name:\"x\"`" "tableName" = none
      ∧ tableFieldStep (markerField (some "`name:\"x\"`")) startedTable
        = .ok { startedTable with
            columns := startedTable.columns
              ++ [newColumn (markerField (some "`name:\"x\"`")) "_"] })
    ∧ tableFieldStep (taggedField "`tableName:\"t_user\"`") startedTable
        = .ok { startedTable with
            columns := startedTable.columns
              ++ [newColumn (taggedField "`tableName:\"t_user\"`") "UserID"] }
    ∧ (∀ (field : StructField) (t : table),
        ((∃ t', tableFieldStep field t = .ok t' ∧ t'.columns = t.columns)
          ↔ (stringsHasSuffix (getTypeName field.type) "TableName" = true
              ∧ ∃ tag value, field.tag = some tag
                  ∧ (getTags tag).lookup "tableName" = some value))
        ∧ (∀ tag value, stringsHasSuffix (getTypeName field.type) "TableName" = true →
            field.tag = some tag → (getTags tag).lookup "tableName" = some value →
            tableFieldStep field t = .ok { t with tableName := value })
        ∧ (∀ name rest, field.names = name :: rest →
            ¬ (stringsHasSuffix (getTypeName field.type) "TableName" = true
                ∧ ∃ tag value, field.tag = some tag
                    ∧ (getTags tag).lookup "tableName" = some value) →
            tableFieldStep field t
              = .ok { t with columns := t.columns ++ [newColumn field name] })) := by
  refine ⟨⟨by rfl, by rfl⟩, ⟨by rfl, by rfl⟩, ⟨by rfl, by rfl⟩, by rfl, ⟨by rfl, by rfl⟩,
    by rfl, ?_⟩
  intro field t
  have hmarked : ∀ tag value, stringsHasSuffix (getTypeName field.type) "TableName" = true →
      field.tag = some tag → (getTags tag).lookup "tableName" = some value →
      tableNameOfField field = some value := by
    intro tag value hsuffix htag hvalue
    rw [tableNameOfField_eq, if_pos hsuffix, htag]
    simpa [getTags_lookup] using hvalue
  have hplain : ¬ (stringsHasSuffix (getTypeName field.type) "TableName" = true
      ∧ ∃ tag value, field.tag = some tag ∧ (getTags tag).lookup "tableName" = some value) →
      tableNameOfField field = none := by
    intro hno
    rw [tableNameOfField_eq]
    split
    · next hsuffix =>
      cases htag : field.tag with
      | none => rfl
      | some tag =>
        cases hvalue : matchedValue tag "tableName" with
        | none => simpa [Option.bind] using hvalue
        | some value =>
          exact absurd ⟨hsuffix, tag, value, htag, by rw [getTags_lookup]; exact hvalue⟩ hno
    · rfl
  refine ⟨⟨?_, ?_⟩, ?_, ?_⟩
  · rintro ⟨t', hstep, hcolumns⟩
    by_contra hno
    have hnone := hplain hno
    unfold tableFieldStep at hstep
    rw [hnone] at hstep
    cases hnames : field.names with
    | nil =>
      rw [hnames] at hstep
      cases hstep
    | cons name rest =>
      rw [hnames] at hstep
      injection hstep with hstep
      subst hstep
      have := congrArg List.length hcolumns
      simp at this
  · rintro ⟨hsuffix, tag, value, htag, hvalue⟩
    refine ⟨{ t with tableName := value }, ?_, rfl⟩
    unfold tableFieldStep
    rw [hmarked tag value hsuffix htag hvalue]
  · intro tag value hsuffix htag hvalue
    unfold tableFieldStep
    rw [hmarked tag value hsuffix htag hvalue]
  · intro name rest hnames hno
    unfold tableFieldStep
    rw [hplain hno, hnames]

set_option maxRecDepth 512

end Sqlcodegen
